import Mathlib

/-!
Image verification engine of Kyverno (`pkg/engine/imageVerify.go`).

A shallow embedding of the attestor / attestation verification code and of the
digest mutation code, followed by theorems about it.

Conventions of the embedding.

* Go `string` is `String`; `fmt.Sprintf` with `%s`, `%d`, `%v` verbs is string
  concatenation with `toString`.
* Go `int` is `Int`; lengths of slices are cast to `Int`.  Machine overflow is not
  modelled (all counters are bounded by the length of a slice).
* A Go pointer or a nilable value is an `Option`; a pair `(value, error)` keeps both
  components, the error being `Option GoError`.
* The external collaborators (signature verifier, registry client, evaluation context,
  expression engine) are fields of `Env`: pure functions of their arguments.  Every
  call to the verifier or to the registry is recorded in a list of `Call`s that the
  functions return next to their result.
* A nil dereference or an index out of range is the outcome `Run.panicked`.
* Values are immutable, except where the code writes through a pointer that its caller
  keeps: `substituteVariables` works on a `Memory` of backing arrays, in which the deep
  copy and the writes into it are explicit.
-/

set_option autoImplicit false
set_option linter.dupNamespace false

/-! ## Go errors -/

/-- Go error values as this code builds and inspects them: a network error
(`*net.OpError`), a plain error (`fmt.Errorf`), `errors.Wrapf cause msg`, and the
multi-error of `go.uber.org/multierr`. -/
inductive GoError where
  | opError (msg : String) : GoError
  | errorf (msg : String) : GoError
  | wrap (cause : GoError) (msg : String) : GoError
  | multi (errs : List GoError) : GoError

mutual
/-- The method `Error()`: the message of an error.  A wrapped error prints as
`msg: cause`, a multi-error joins its members with `"; "`. -/
def GoError.Error : GoError → String
  | .opError m => m
  | .errorf m => m
  | .wrap c m => m ++ ": " ++ c.Error
  | .multi es => GoError.joinErrors es
/-- Messages of a list of errors joined with `"; "`. -/
def GoError.joinErrors : List GoError → String
  | [] => ""
  | e :: es =>
    match es with
    | [] => e.Error
    | _ :: _ => e.Error ++ "; " ++ GoError.joinErrors es
end

mutual
/-- The test `errors.As(err, &netErr)` with `netErr : *net.OpError`: walks the
`Unwrap` chain of a wrapped error and every member of a multi-error. -/
def GoError.asOpError : GoError → Bool
  | .opError _ => true
  | .errorf _ => false
  | .wrap c _ => c.asOpError
  | .multi es => GoError.anyAsOpError es
/-- Some error of the list has a `*net.OpError` in its chain. -/
def GoError.anyAsOpError : List GoError → Bool
  | [] => false
  | e :: es => e.asOpError || GoError.anyAsOpError es
end

namespace multierr

/-- Members of multi-errors are spliced into the enclosing list. -/
def flatten : List GoError → List GoError
  | [] => []
  | .multi es :: rest => es ++ flatten rest
  | e :: rest => e :: flatten rest

/-- The function `multierr.Combine`: `nil` for no error, the error itself for one
error, a flattened multi-error otherwise. -/
def Combine (errs : List GoError) : Option GoError :=
  match errs with
  | [] => none
  | [e] => some e
  | _ :: _ :: _ => some (.multi (flatten errs))

end multierr

/-! ## `strings.SplitAfter` -/

namespace strings

/-- Scanning loop of `SplitAfter` for a non-empty separator.  `cur` is the piece being
built and `skip` the number of characters of an occurrence of `sep`, found at an
earlier position, that are still to be copied into `cur`; occurrences are searched
leftmost first and do not overlap. -/
def splitAfterGo (sep : List Char) : List Char → List Char → Nat → List (List Char)
  | [], cur, _ => [cur]
  | c :: s, cur, skip =>
    let k := if skip = 0 then (if sep.isPrefixOf (c :: s) then sep.length else 0) else skip
    match k with
    | 0 => splitAfterGo sep s (cur ++ [c]) 0
    | 1 => (cur ++ [c]) :: splitAfterGo sep s [] 0
    | k + 2 => splitAfterGo sep s (cur ++ [c]) (k + 1)

/-- The function `strings.SplitAfter s sep`: the pieces of `s` after each occurrence of
`sep`; with an empty separator, one piece per character. -/
def SplitAfter (s sep : String) : List String :=
  if sep.data = [] then s.data.map (fun c => String.mk [c])
  else (splitAfterGo sep.data s.data [] 0).map String.mk

end strings

/-! ## Policy types (`api/kyverno/v1`) -/

namespace kyvernov1

/-- Transparency log reference. -/
structure CTLog where
  URL : String
deriving DecidableEq, Repr

/-- Reference to a Kubernetes secret holding a key. -/
structure SecretReference where
  Name : String
  Namespace : String
deriving DecidableEq, Repr

/-- Static key attestor. -/
structure StaticKeyAttestor where
  PublicKeys : String
  SignatureAlgorithm : String
  KMS : String
  Secret : Option SecretReference
  Rekor : Option CTLog
deriving DecidableEq, Repr

/-- Certificate attestor. -/
structure CertificateAttestor where
  Certificate : String
  CertificateChain : String
  Rekor : Option CTLog
deriving DecidableEq, Repr

/-- Keyless attestor. -/
structure KeylessAttestor where
  Rekor : Option CTLog
  Issuer : String
  Subject : String
  Roots : String
  AdditionalExtensions : Option (List (String × String))
deriving DecidableEq, Repr

mutual
/-- An attestor: keys, certificates, keyless, or a nested attestor set given as raw
JSON (`*apiextv1.JSON`). -/
inductive Attestor where
  | mk (Keys : Option StaticKeyAttestor) (Certificates : Option CertificateAttestor)
      (Keyless : Option KeylessAttestor) (Attestor : Option RawAttestor)
      (Annotations : Option (List (String × String))) (Repository : String) :
      kyvernov1.Attestor
/-- An attestor set: optional count and entries. -/
inductive AttestorSet where
  | mk (Count : Option Int) (Entries : List Attestor) : AttestorSet
/-- Raw JSON of a nested attestor, read through `AttestorSetUnmarshal`: either it
does not unmarshal (with the error message) or it is the JSON of an attestor set. -/
inductive RawAttestor where
  | malformed (err : String) : RawAttestor
  | wellFormed (set : AttestorSet) : RawAttestor
end

/-- Field `Keys`. -/
def Attestor.Keys : Attestor → Option StaticKeyAttestor
  | .mk k _ _ _ _ _ => k

/-- Field `Certificates`. -/
def Attestor.Certificates : Attestor → Option CertificateAttestor
  | .mk _ c _ _ _ _ => c

/-- Field `Keyless`. -/
def Attestor.Keyless : Attestor → Option KeylessAttestor
  | .mk _ _ k _ _ _ => k

/-- Field `Annotations`. -/
def Attestor.Annotations : Attestor → Option (List (String × String))
  | .mk _ _ _ _ a _ => a

/-- Field `Repository`. -/
def Attestor.Repository : Attestor → String
  | .mk _ _ _ _ _ r => r

/-- Field `Attestor` (the nested attestor set). -/
def Attestor.Attestor : kyvernov1.Attestor → Option RawAttestor
  | .mk _ _ _ a _ _ => a

/-- Field `Count`. -/
def AttestorSet.Count : AttestorSet → Option Int
  | .mk c _ => c

/-- Field `Entries`. -/
def AttestorSet.Entries : AttestorSet → List Attestor
  | .mk _ es => es

/-- The function `AttestorSetUnmarshal`: the attestor set of a raw JSON, or an error. -/
def AttestorSetUnmarshal : RawAttestor → Except GoError AttestorSet
  | .malformed err => .error (.errorf err)
  | .wellFormed set => .ok set

/-- A condition of the policy language (its evaluation is external). -/
structure Condition where
  RawKey : String
  Operator : String
  RawValue : String
deriving DecidableEq, Repr

/-- Any / all block of conditions. -/
structure AnyAllConditions where
  AnyConditions : List Condition
  AllConditions : List Condition
deriving DecidableEq, Repr

/-- Attestation clause. -/
structure Attestation where
  PredicateType : String
  Attestors : List AttestorSet
  Conditions : List AnyAllConditions

/-- Clause `verifyImages` of a rule, in its plural (converted) form. -/
structure ImageVerification where
  ImageReferences : List String
  Attestors : List AttestorSet
  Attestations : List Attestation
  Annotations : Option (List (String × String))
  Repository : String
  MutateDigest : Bool
  Roots : String

end kyvernov1

open kyvernov1

/-! ## Collaborator types -/

namespace apiutils

/-- An image occurrence in a resource. `Pointer` is the JSON pointer of the field
holding the reference. -/
structure ImageInfo where
  Registry : String
  Name : String
  Path : String
  Tag : String
  Digest : String
  Pointer : String
deriving DecidableEq, Repr

/-- Modelled from the spec: the method `ImageInfo.String()` is not part of the sources
at hand; the spec describes the reference it rebuilds as `registry/path:tag[@digest]`. -/
def ImageInfo.String (i : ImageInfo) : String :=
  i.Registry ++ "/" ++ i.Path ++ ":" ++ i.Tag ++ (if i.Digest = "" then "" else "@" ++ i.Digest)

end apiutils

namespace cosign

/-- Options handed to the signature verifier. -/
structure Options where
  ImageRef : String
  Repository : String
  Annotations : Option (List (String × String))
  Roots : String
  PredicateType : String
  FetchAttestations : Bool
  Key : String
  RekorURL : String
  SignatureAlgorithm : String
  Cert : String
  CertChain : String
  Issuer : String
  Subject : String
  AdditionalExtensions : Option (List (String × String))
deriving DecidableEq, Repr

/-- A value stored in a decoded statement (`interface{}`): a string, an object, or
anything else. -/
inductive Value where
  | str (s : String) : Value
  | object (members : List (String × String)) : Value
  | other (text : String) : Value
deriving DecidableEq, Repr

/-- A decoded in-toto statement (`map[string]interface{}`). -/
abbrev Statement := List (String × Value)

/-- Response of the verifier. -/
structure Response where
  Digest : String
  Statements : List Statement
deriving DecidableEq, Repr

/-- A Go result pair `(*cosign.Response, error)`. -/
structure Result where
  resp : Option Response
  err : Option GoError

end cosign

open apiutils

/-- A resource (`unstructured.Unstructured`) as far as the image verifier reads it:
`Object = none` is the zero value `Unstructured{}`, otherwise the annotations of the
object are given. -/
structure unstructured.Unstructured where
  Object : Option (List (String × String))
deriving DecidableEq, Repr

/-- The lookup `GetAnnotations()[key]`: the empty string for a missing key. -/
def unstructured.Unstructured.annotation (u : unstructured.Unstructured) (key : String) : String :=
  match u.Object with
  | none => ""
  | some annotations => (annotations.lookup key).getD ""

/-- A call to the signature verifier or to the registry client. -/
inductive Call where
  | VerifySignature (opts : cosign.Options) : Call
  | FetchAttestations (opts : cosign.Options) : Call
  | FetchImageDescriptor (ref : String) : Call

/-- Outcome of running a piece of code: it returns a value or it panics (nil
dereference, failed type assertion). -/
inductive Run (α : Type) where
  | done (a : α) : Run α
  | panicked : Run α

/-- The external collaborators of the image verifier. `σ` is the state of the JSON
evaluation context. -/
structure Env (σ : Type) where
  /-- The function `cosign.VerifySignature`. -/
  VerifySignature : cosign.Options → cosign.Result
  /-- The function `cosign.FetchAttestations`. -/
  FetchAttestations : cosign.Options → cosign.Result
  /-- The method `rclient.FetchImageDescriptor` followed by `desc.Digest.String()`. -/
  FetchImageDescriptor : String → String × Option GoError
  /-- The method `ImageVerification.Convert` (normalisation of the legacy form). -/
  Convert : ImageVerification → ImageVerification
  /-- The method `jsonContext.Checkpoint`. -/
  Checkpoint : σ → σ
  /-- The method `jsonContext.Restore`. -/
  Restore : σ → σ
  /-- The method `jsonContext.AddImageInfo`. -/
  AddImageInfo : σ → ImageInfo → σ × Option GoError
  /-- The function `enginecontext.AddJSONObject`. -/
  AddJSONObject : σ → List (String × String) → σ × Option GoError
  /-- The method `jsonContext.HasChanged`. -/
  HasChanged : σ → String → Bool × Option GoError
  /-- The conversion `jsonpointer.ParsePath(p).JMESPath()`. -/
  JMESPath : String → String
  /-- The function `variables.SubstituteAllInConditions`. -/
  SubstituteAllInConditions : σ → List AnyAllConditions → List AnyAllConditions × Option GoError
  /-- The function `variables.EvaluateAnyAllConditions`. -/
  EvaluateAnyAllConditions : σ → List AnyAllConditions → Bool
  /-- The verb `%v` applied to a statement. -/
  FormatStatement : cosign.Statement → String
  /-- The function `isImageVerified` (reads the verify-images annotation of a resource). -/
  isImageVerified : unstructured.Unstructured → String → Bool × Option GoError

/-! ## Attestor sets -/

/-- The function `splitPEM`. -/
def splitPEM (pem : String) : List String :=
  let keys := strings.SplitAfter pem "-----END PUBLIC KEY-----"
  if keys.length < 1 then keys else keys.take (keys.length - 1)

/-- The function `createStaticKeyAttestors`. -/
def createStaticKeyAttestors (keys : List String) : List Attestor :=
  keys.map fun k =>
    Attestor.mk
      (some { PublicKeys := k, SignatureAlgorithm := "", KMS := "", Secret := none, Rekor := none })
      none none none none ""

/-- Loop of `expandStaticKeys` over the entries. -/
def expandEntries : List Attestor → List Attestor
  | [] => []
  | e :: rest =>
    match e.Keys with
    | some k =>
      let keys := splitPEM k.PublicKeys
      if keys.length > 1 then createStaticKeyAttestors keys ++ expandEntries rest
      else e :: expandEntries rest
    | none => e :: expandEntries rest

/-- The function `expandStaticKeys`. -/
def expandStaticKeys (attestorSet : AttestorSet) : AttestorSet :=
  AttestorSet.mk attestorSet.Count (expandEntries attestorSet.Entries)

/-- The function `getRequiredCount`. -/
def getRequiredCount (set : AttestorSet) : Int :=
  match set.Count with
  | none => set.Entries.length
  | some c => if c = 0 then set.Entries.length else c

/-- The method `buildOptionsAndPath`. -/
def buildOptionsAndPath (attestor : Attestor) (imageVerify : ImageVerification) (image : String)
    (attestation : Attestation) : cosign.Options × String :=
  let opts : cosign.Options :=
    { ImageRef := image, Repository := imageVerify.Repository,
      Annotations := imageVerify.Annotations, Roots := "", PredicateType := "",
      FetchAttestations := false, Key := "", RekorURL := "", SignatureAlgorithm := "",
      Cert := "", CertChain := "", Issuer := "", Subject := "", AdditionalExtensions := none }
  let opts := if imageVerify.Roots ≠ "" then { opts with Roots := imageVerify.Roots } else opts
  let opts := { opts with PredicateType := attestation.PredicateType }
  let opts := if attestation.PredicateType ≠ "" then { opts with FetchAttestations := true } else opts
  let (opts, path) : cosign.Options × String :=
    match attestor.Keys, attestor.Certificates, attestor.Keyless with
    | some keys, _, _ =>
      let opts :=
        if keys.PublicKeys ≠ "" then { opts with Key := keys.PublicKeys }
        else match keys.Secret with
          | some secret => { opts with Key := "k8s://" ++ secret.Namespace ++ "/" ++ secret.Name }
          | none => if keys.KMS ≠ "" then { opts with Key := keys.KMS } else opts
      let opts := match keys.Rekor with
        | some rekor => { opts with RekorURL := rekor.URL }
        | none => opts
      ({ opts with SignatureAlgorithm := keys.SignatureAlgorithm }, ".keys")
    | none, some certs, _ =>
      let opts := { opts with Cert := certs.Certificate, CertChain := certs.CertificateChain }
      let opts := match certs.Rekor with
        | some rekor => { opts with RekorURL := rekor.URL }
        | none => opts
      (opts, ".certificates")
    | none, none, some keyless =>
      let opts := match keyless.Rekor with
        | some rekor => { opts with RekorURL := rekor.URL }
        | none => opts
      ({ opts with Roots := keyless.Roots, Issuer := keyless.Issuer, Subject := keyless.Subject,
                   AdditionalExtensions := keyless.AdditionalExtensions }, ".keyless")
    | none, none, none => (opts, "")
  let opts := if attestor.Repository ≠ "" then { opts with Repository := attestor.Repository } else opts
  let opts := match attestor.Annotations with
    | some annotations => { opts with Annotations := some annotations }
    | none => opts
  (opts, path)

/-- One iteration of the entry loop of `verifyAttestorSet`, up to the test of
`entryError`: the calls made, and the pair `(cosignResp, entryError)`.  `recur` is the
recursive call of `verifyAttestorSet` on a nested attestor set. -/
def verifyEntry {σ : Type} (env : Env σ)
    (recur : AttestorSet → String → List Call × Run cosign.Result)
    (imageVerify : ImageVerification) (image predicateType : String)
    (a : Attestor) (attestorPath : String) : List Call × Run cosign.Result :=
  match a.Attestor with
  | some raw =>
    match AttestorSetUnmarshal raw with
    | .error err =>
      ([], .done ⟨none, some (.wrap err ("failed to unmarshal nested attestor " ++ attestorPath))⟩)
    | .ok nestedAttestorSet => recur nestedAttestorSet (attestorPath ++ ".attestor")
  | none =>
    let (opts, subPath) :=
      buildOptionsAndPath a imageVerify image
        { PredicateType := predicateType, Attestors := [], Conditions := [] }
    let r := env.VerifySignature opts
    ([Call.VerifySignature opts],
      .done ⟨r.resp, r.err.map fun entryError => .wrap entryError (attestorPath ++ subPath)⟩)

/-- Prefix the calls already made to the result of the rest of a computation. -/
def andThen {α : Type} (calls : List Call) (r : List Call × α) : List Call × α :=
  (calls ++ r.1, r.2)

/-- The entry loop of `verifyAttestorSet` and the code after it, from entry index `i`
with the current `verifiedCount` and `errorList`. -/
def verifyEntries {σ : Type} (env : Env σ)
    (recur : AttestorSet → String → List Call × Run cosign.Result)
    (imageVerify : ImageVerification) (image path predicateType : String) (requiredCount : Int) :
    List Attestor → Nat → Int → List GoError → List Call × Run cosign.Result
  | [], _, _, errorList =>
    match multierr.Combine errorList with
    | none => ([], .panicked)
    | some err => ([], .done ⟨none, some err⟩)
  | a :: rest, i, verifiedCount, errorList =>
    match verifyEntry env recur imageVerify image predicateType a
        (path ++ ".entries[" ++ toString i ++ "]") with
    | (calls, .panicked) => (calls, .panicked)
    | (calls, .done r) =>
      match r.err with
      | none =>
        if verifiedCount + 1 ≥ requiredCount then (calls, .done ⟨r.resp, none⟩)
        else andThen calls
          (verifyEntries env recur imageVerify image path predicateType requiredCount
            rest (i + 1) (verifiedCount + 1) errorList)
      | some entryError =>
        andThen calls
          (verifyEntries env recur imageVerify image path predicateType requiredCount
            rest (i + 1) verifiedCount (errorList ++ [entryError]))

/-- The method `verifyAttestorSet` with a bound on the nesting depth it may descend:
with the bound exhausted it stops (the value returned then is never used, see
`verifyAttestorSetN_stable`). -/
def verifyAttestorSetN {σ : Type} (env : Env σ) (imageVerify : ImageVerification)
    (imageInfo : ImageInfo) (predicateType : String) :
    Nat → AttestorSet → String → List Call × Run cosign.Result
  | 0, _, _ => ([], .panicked)
  | n + 1, attestorSet, path =>
    let attestorSet := expandStaticKeys attestorSet
    let requiredCount := getRequiredCount attestorSet
    let image := imageInfo.String
    verifyEntries env (verifyAttestorSetN env imageVerify imageInfo predicateType n)
      imageVerify image path predicateType requiredCount attestorSet.Entries 0 0 []

mutual
/-- Nesting depth of an attestor set: one more than the depth of its deepest nested
attestor set. -/
def setDepth : AttestorSet → Nat
  | .mk _ es => entriesDepth es + 1
/-- Largest depth of the attestor sets nested in the entries. -/
def entriesDepth : List Attestor → Nat
  | [] => 0
  | .mk _ _ _ (some (.wellFormed s)) _ _ :: rest => max (setDepth s) (entriesDepth rest)
  | .mk _ _ _ (some (.malformed _)) _ _ :: rest => entriesDepth rest
  | .mk _ _ _ none _ _ :: rest => entriesDepth rest
end

/-- The method `verifyAttestorSet`. -/
def verifyAttestorSet {σ : Type} (env : Env σ) (attestorSet : AttestorSet)
    (imageVerify : ImageVerification) (imageInfo : ImageInfo) (path predicateType : String) :
    List Call × Run cosign.Result :=
  verifyAttestorSetN env imageVerify imageInfo predicateType (setDepth attestorSet) attestorSet path

/-! ## Rule responses -/

namespace response

/-- Status of a rule response. -/
inductive RuleStatus where
  | Pass | Fail | Warn | Error | Skip
deriving DecidableEq, Repr

/-- Type of a rule response. -/
inductive RuleType where
  | Mutation | Validation | Generation | ImageVerify
deriving DecidableEq, Repr

/-- A rule response. A patch is a marshalled JSON object: its members, in the order
in which they are written. -/
structure RuleResponse where
  Name : String
  Type_ : RuleType
  Message : String
  Status : RuleStatus
  Patches : List (List (String × String))
deriving DecidableEq, Repr

/-- The part of an engine response that the image verifier writes. -/
structure EngineResponse where
  Rules : List RuleResponse
  RulesAppliedCount : Int
  RulesErrorCount : Int
deriving DecidableEq, Repr

end response

open response

/-- A policy rule, as far as the image verifier reads it.  The image extractors and the
context entries are only handed over to the collaborators. -/
structure kyvernov1.Rule where
  Name : String
  VerifyImages : List ImageVerification
  ImageExtractors : Option (List (String × String)) := none
  Context : List String := []

/-- Modelled from the spec: the helper `ruleResponse` is not part of the sources at
hand; a rule response carries the rule name, the type, the message, the status and no
patch. -/
def ruleResponse (rule : Rule) (ruleType : RuleType) (msg : String) (status : RuleStatus) :
    RuleResponse :=
  { Name := rule.Name, Type_ := ruleType, Message := msg, Status := status, Patches := [] }

/-- Modelled from the spec: the helper `ruleError` is not part of the sources at hand;
it is the rule response of status `Error` whose message ends with the error. -/
def ruleError (rule : Rule) (ruleType : RuleType) (msg : String) (err : GoError) : RuleResponse :=
  ruleResponse rule ruleType (msg ++ ": " ++ err.Error) RuleStatus.Error

/-- Modelled from the spec: the helper `incrementAppliedCount` is not part of the
sources at hand; it counts one more applied rule. -/
def incrementAppliedCount (resp : EngineResponse) : EngineResponse :=
  { resp with RulesAppliedCount := resp.RulesAppliedCount + 1 }

/-! ## Attestors -/

/-- The loop of `verifyAttestors` over the attestor sets and the code after it, from set
index `i` with the current `cosignResponse` and `newAttestors`. -/
def verifyAttestorsLoop {σ : Type} (env : Env σ) (rule : Rule) (imageVerify : ImageVerification)
    (imageInfo : ImageInfo) (predicateType : String) :
    List AttestorSet → Nat → Option cosign.Response → List AttestorSet →
      List Call × Run (RuleResponse × Option cosign.Response × List AttestorSet)
  | [], _, cosignResponse, newAttestors =>
    match cosignResponse with
    | none =>
      ([], .done (ruleError rule RuleType.ImageVerify "invalid response" (.errorf "nil"), none, []))
    | some r =>
      ([], .done (ruleResponse rule RuleType.ImageVerify
        ("verified image signatures for " ++ imageInfo.String) RuleStatus.Pass, some r, newAttestors))
  | attestorSet :: rest, i, _, newAttestors =>
    let path := ".attestors[" ++ toString i ++ "]"
    match verifyAttestorSet env attestorSet imageVerify imageInfo path predicateType with
    | (calls, .panicked) => (calls, .panicked)
    | (calls, .done r) =>
      match r.err with
      | some err =>
        let msg := "failed to verify image " ++ imageInfo.String ++ ": " ++ err.Error
        if err.asOpError then
          (calls, .done (ruleResponse rule RuleType.ImageVerify msg RuleStatus.Error, none, []))
        else
          (calls, .done (ruleResponse rule RuleType.ImageVerify msg RuleStatus.Fail, none, []))
      | none =>
        andThen calls
          (verifyAttestorsLoop env rule imageVerify imageInfo predicateType
            rest (i + 1) r.resp (newAttestors ++ [attestorSet]))

/-- The method `verifyAttestors`. -/
def verifyAttestors {σ : Type} (env : Env σ) (rule : Rule) (attestors : List AttestorSet)
    (imageVerify : ImageVerification) (imageInfo : ImageInfo) (predicateType : String) :
    List Call × Run (RuleResponse × Option cosign.Response × List AttestorSet) :=
  verifyAttestorsLoop env rule imageVerify imageInfo predicateType attestors 0 none []

/-! ## Attestations -/

/-- Append a statement to the statements recorded for a predicate type (the update of
`results[predicateType]` in `buildStatementMap`). -/
def appendStatement (results : List (String × List cosign.Statement)) (predicateType : String)
    (s : cosign.Statement) : List (String × List cosign.Statement) :=
  match results with
  | [] => [(predicateType, [s])]
  | (k, v) :: rest =>
    if k = predicateType then (k, v ++ [s]) :: rest
    else (k, v) :: appendStatement rest predicateType s

/-- The loop of `buildStatementMap`; the type assertion `s["predicateType"].(string)`
panics on a statement without a string under that key. -/
def buildStatementMapLoop :
    List cosign.Statement → List (String × List cosign.Statement) → List String →
      Run (List (String × List cosign.Statement) × List String)
  | [], results, predicateTypes => .done (results, predicateTypes)
  | s :: rest, results, predicateTypes =>
    match s.lookup "predicateType" with
    | some (.str predicateType) =>
      buildStatementMapLoop rest (appendStatement results predicateType s)
        (predicateTypes ++ [predicateType])
    | _ => .panicked

/-- The function `buildStatementMap`. -/
def buildStatementMap (statements : List cosign.Statement) :
    Run (List (String × List cosign.Statement) × List String) :=
  buildStatementMapLoop statements [] []

/-- The function `evaluateConditions`. -/
def evaluateConditions {σ : Type} (env : Env σ) (conditions : List AnyAllConditions) (ctx : σ)
    (s : cosign.Statement) : σ × Bool × Option GoError :=
  match s.lookup "predicate" with
  | some (.object predicate) =>
    match env.AddJSONObject ctx predicate with
    | (ctx, some err) =>
      (ctx, false,
        some (.wrap err ("failed to add Statement to the context " ++ env.FormatStatement s)))
    | (ctx, none) =>
      match env.SubstituteAllInConditions ctx conditions with
      | (_, some err) =>
        (ctx, false, some (.wrap err "failed to substitute variables in attestation conditions"))
      | (c, none) => (ctx, env.EvaluateAnyAllConditions ctx c, none)
  | _ =>
    (ctx, false,
      some (.errorf ("failed to extract predicate from statement: " ++ env.FormatStatement s)))

/-- The method `checkAttestations`. -/
def checkAttestations {σ : Type} (env : Env σ) (ctx : σ) (a : Attestation) (s : cosign.Statement) :
    σ × Bool × Option GoError :=
  if a.Conditions.length = 0 then (ctx, true, none)
  else
    let ctx := env.Checkpoint ctx
    let (ctx, val, err) := evaluateConditions env a.Conditions ctx s
    (env.Restore ctx, val, err)

/-- The loop of `verifyAttestation` over the selected statements. -/
def checkStatements {σ : Type} (env : Env σ) (attestation : Attestation) (imageInfo : ImageInfo) :
    σ → List cosign.Statement → σ × Option GoError
  | ctx, [] => (ctx, none)
  | ctx, s :: rest =>
    match checkAttestations env ctx attestation s with
    | (ctx, _, some err) => (ctx, some (.wrap err "failed to check attestations"))
    | (ctx, val, none) =>
      if !val then
        (ctx, some (.errorf ("attestation checks failed for " ++ imageInfo.String ++
          " and predicate " ++ attestation.PredicateType)))
      else checkStatements env attestation imageInfo ctx rest

/-- The method `verifyAttestation`. -/
def verifyAttestation {σ : Type} (env : Env σ) (ctx : σ) (statements : List cosign.Statement)
    (attestation : Attestation) (imageInfo : ImageInfo) : σ × Run (Option GoError) :=
  match buildStatementMap statements with
  | .panicked => (ctx, .panicked)
  | .done (statementsByPredicate, _) =>
    match statementsByPredicate.lookup attestation.PredicateType with
    | none =>
      (ctx, .done (some (.errorf ("predicate type " ++ attestation.PredicateType ++ " not found"))))
    | some statements =>
      let (ctx, err) := checkStatements env attestation imageInfo ctx statements
      (ctx, .done err)

/-- The innermost loop of `verifyAttestations`, over the entries of an attestor set;
`i` is the index of the attestation clause.  The result `none` means that the loop
ended without returning from `verifyAttestations`. -/
def attestationEntriesLoop {σ : Type} (env : Env σ) (rule : Rule) (imageVerify : ImageVerification)
    (imageInfo : ImageInfo) (i : Nat) (attestation : Attestation) (attestorPath : String)
    (requiredCount : Int) :
    List Attestor → Int → σ → σ × List Call × Run (Option (RuleResponse × String))
  | [], _, ctx => (ctx, [], .done none)
  | a :: rest, verifiedCount, ctx =>
    let image := imageInfo.String
    let entryPath := attestorPath ++ ".entries[" ++ toString i ++ "]"
    let (opts, subPath) := buildOptionsAndPath a imageVerify image attestation
    let r := env.FetchAttestations opts
    match r.err with
    | some err =>
      let msg := "failed to fetch attestations " ++ image ++ ": " ++ err.Error
      if err.asOpError then
        (ctx, [Call.FetchAttestations opts],
          .done (some (ruleResponse rule RuleType.ImageVerify msg RuleStatus.Error, "")))
      else
        (ctx, [Call.FetchAttestations opts],
          .done (some (ruleResponse rule RuleType.ImageVerify msg RuleStatus.Fail, "")))
    | none =>
      match r.resp with
      | none => (ctx, [Call.FetchAttestations opts], .panicked)
      | some cosignResp =>
        match verifyAttestation env ctx cosignResp.Statements attestation imageInfo with
        | (ctx, .panicked) => (ctx, [Call.FetchAttestations opts], .panicked)
        | (ctx, .done (some attestationError)) =>
          let attestationError := GoError.wrap attestationError (entryPath ++ subPath)
          (ctx, [Call.FetchAttestations opts],
            .done (some (ruleResponse rule RuleType.ImageVerify attestationError.Error
              RuleStatus.Fail, "")))
        | (ctx, .done none) =>
          if verifiedCount + 1 ≥ requiredCount then
            let msg := "image attestations verification succeeded, verifiedCount: " ++
              toString (verifiedCount + 1) ++ ", requiredCount: " ++ toString requiredCount
            (ctx, [Call.FetchAttestations opts],
              .done (some (ruleResponse rule RuleType.ImageVerify msg RuleStatus.Pass, "")))
          else
            match attestationEntriesLoop env rule imageVerify imageInfo i attestation attestorPath
                requiredCount rest (verifiedCount + 1) ctx with
            | (ctx, calls, r) => (ctx, Call.FetchAttestations opts :: calls, r)

/-- The middle loop of `verifyAttestations`, over the attestor sets of an attestation
clause, from set index `j`. -/
def attestationAttestorsLoop {σ : Type} (env : Env σ) (rule : Rule)
    (imageVerify : ImageVerification) (imageInfo : ImageInfo) (i : Nat) (attestation : Attestation)
    (path : String) :
    List AttestorSet → Nat → σ → σ × List Call × Run (Option (RuleResponse × String))
  | [], _, ctx => (ctx, [], .done none)
  | attestor :: rest, j, ctx =>
    let attestorPath := path ++ ".attestors[" ++ toString j ++ "]"
    let requiredCount := getRequiredCount attestor
    let entries :=
      if attestor.Entries.length = 0 then [Attestor.mk none none none none none ""]
      else attestor.Entries
    match attestationEntriesLoop env rule imageVerify imageInfo i attestation attestorPath
        requiredCount entries 0 ctx with
    | (ctx, calls, .done none) =>
      match attestationAttestorsLoop env rule imageVerify imageInfo i attestation path
          rest (j + 1) ctx with
      | (ctx, calls2, r) => (ctx, calls ++ calls2, r)
    | out => out

/-- The outer loop of `verifyAttestations`, over the attestation clauses, from clause
index `i`, and the code after it. -/
def attestationsLoop {σ : Type} (env : Env σ) (rule : Rule) (imageVerify : ImageVerification)
    (imageInfo : ImageInfo) :
    List Attestation → Nat → σ → σ × List Call × Run (RuleResponse × String)
  | [], _, ctx =>
    (ctx, [], .done (ruleResponse rule RuleType.ImageVerify
      ("verified image attestations for " ++ imageInfo.String) RuleStatus.Pass, ""))
  | attestation :: rest, i, ctx =>
    let path := ".attestations[" ++ toString i ++ "]"
    let attestors :=
      if attestation.Attestors.length = 0 then [AttestorSet.mk none []]
      else attestation.Attestors
    match attestationAttestorsLoop env rule imageVerify imageInfo i attestation path
        attestors 0 ctx with
    | (ctx, calls, .panicked) => (ctx, calls, .panicked)
    | (ctx, calls, .done (some out)) => (ctx, calls, .done out)
    | (ctx, calls, .done none) =>
      match attestationsLoop env rule imageVerify imageInfo rest (i + 1) ctx with
      | (ctx, calls2, r) => (ctx, calls ++ calls2, r)

/-- The method `verifyAttestations`. -/
def verifyAttestations {σ : Type} (env : Env σ) (rule : Rule) (ctx : σ)
    (imageVerify : ImageVerification) (imageInfo : ImageInfo) :
    σ × List Call × Run (RuleResponse × String) :=
  attestationsLoop env rule imageVerify imageInfo imageVerify.Attestations 0 ctx

/-- The method `verifyImage`. -/
def verifyImage {σ : Type} (env : Env σ) (rule : Rule) (ctx : σ) (imageVerify : ImageVerification)
    (imageInfo : ImageInfo) : σ × List Call × Run (Option RuleResponse × String) :=
  if imageVerify.Attestors.length ≤ 0 ∧ imageVerify.Attestations.length ≤ 0 then
    (ctx, [], .done (none, ""))
  else
    let image := imageInfo.String
    match env.AddImageInfo ctx imageInfo with
    | (ctx, some err) =>
      let msg := "failed to add image to context " ++ image ++ ": " ++ err.Error
      (ctx, [], .done (some (ruleResponse rule RuleType.ImageVerify msg RuleStatus.Error), ""))
    | (ctx, none) =>
      let attestorsOut : List Call × Run (Option RuleResponse) :=
        if imageVerify.Attestors.length > 0 then
          match verifyAttestors env rule imageVerify.Attestors imageVerify imageInfo "" with
          | (calls, .panicked) => (calls, .panicked)
          | (calls, .done (ruleResp, _, _)) =>
            if ruleResp.Status ≠ RuleStatus.Pass then (calls, .done (some ruleResp))
            else (calls, .done none)
        else ([], .done none)
      match attestorsOut with
      | (calls, .panicked) => (ctx, calls, .panicked)
      | (calls, .done (some ruleResp)) => (ctx, calls, .done (some ruleResp, ""))
      | (calls, .done none) =>
        match verifyAttestations env rule ctx imageVerify imageInfo with
        | (ctx, calls2, .panicked) => (ctx, calls ++ calls2, .panicked)
        | (ctx, calls2, .done (ruleResp, digest)) =>
          (ctx, calls ++ calls2, .done (some ruleResp, digest))

/-! ## Digest mutation -/

namespace json

/-- Order of object keys in the output of `json.Marshal`: the order of Go strings. -/
def keyLE : List Char → List Char → Bool
  | [], _ => true
  | _ :: _, [] => false
  | a :: s, b :: t => a.toNat < b.toNat || (a.toNat == b.toNat && keyLE s t)

/-- Insert a member into a list of members sorted by key. -/
def insertMember (kv : String × String) : List (String × String) → List (String × String)
  | [] => [kv]
  | m :: rest => if keyLE kv.1.data m.1.data then kv :: m :: rest else m :: insertMember kv rest

/-- The function `json.Marshal` on a `map[string]interface{}` whose values are strings:
the members of the object written, sorted by key; such a map always marshals. -/
def Marshal (m : List (String × String)) : List (String × String) × Option GoError :=
  (m.foldr insertMember [], none)

end json

/-- Assignment `m[key] = value` on a Go map held as an association list. -/
def mapSet {β : Type} (m : List (String × β)) (key : String) (value : β) : List (String × β) :=
  match m with
  | [] => [(key, value)]
  | (k, v) :: rest => if k = key then (key, value) :: rest else (k, v) :: mapSet rest key value

/-- The function `makeAddDigestPatch`. -/
def makeAddDigestPatch (imageInfo : ImageInfo) (digest : String) :
    List (String × String) × Option GoError :=
  let patch : List (String × String) := []
  let patch := mapSet patch "op" "replace"
  let patch := mapSet patch "path" imageInfo.Pointer
  let patch := mapSet patch "value" (imageInfo.String ++ "@" ++ digest)
  json.Marshal patch

/-- The method `handleMutateDigest`: the calls made and the triple
`(patch, digest, error)`. -/
def handleMutateDigest {σ : Type} (env : Env σ) (digest : String) (imageInfo : ImageInfo) :
    List Call × Option (List (String × String)) × String × Option GoError :=
  if imageInfo.Digest ≠ "" then ([], none, "", none)
  else
    let fetched : List Call × String × Option GoError :=
      if digest = "" then
        let (d, err) := env.FetchImageDescriptor imageInfo.String
        ([Call.FetchImageDescriptor imageInfo.String], d, err)
      else ([], digest, none)
    match fetched with
    | (calls, _, some err) => (calls, none, "", some err)
    | (calls, digest, none) =>
      match makeAddDigestPatch imageInfo digest with
      | (_, some err) => (calls, none, "", some (.wrap err "failed to create image digest patch"))
      | (patch, none) => (calls, some patch, digest, none)

/-! ## The rule driver for one clause -/

/-- The annotation that records the verified images. -/
def imageVerifyAnnotationKey : String := "kyverno.io/verify-images"

/-- The function `hasImageVerifiedAnnotationChanged`. -/
def hasImageVerifiedAnnotationChanged (newResource oldResource : unstructured.Unstructured) : Bool :=
  if newResource = ⟨none⟩ ∨ oldResource = ⟨none⟩ then false
  else
    let key := imageVerifyAnnotationKey
    let newValue := newResource.annotation key
    let oldValue := oldResource.annotation key
    newValue != oldValue

/-- The mutable state of an `imageVerifier`: the evaluation context, the engine
response and the image verification metadata (`ivm.Data`). -/
structure VerifierState (σ : Type) where
  ctx : σ
  resp : EngineResponse
  ivm : List (String × Bool)

/-- The part of the loop body of `verify` after `verifyImage`: digest mutation.  It
yields the calls made, the rule response and the image reference to record. -/
def mutateDigestStep {σ : Type} (env : Env σ) (rule : Rule) (imageVerify : ImageVerification)
    (imageInfo : ImageInfo) (ruleResp : Option RuleResponse) (digest : String) :
    List Call × Option RuleResponse × String :=
  let image := imageInfo.String
  if imageVerify.MutateDigest then
    match handleMutateDigest env digest imageInfo with
    | (calls, _, _, some err) =>
      (calls, some (ruleError rule RuleType.ImageVerify "failed to update digest" err), image)
    | (calls, some patch, retrievedDigest, none) =>
      let ruleResp :=
        match ruleResp with
        | none => ruleResponse rule RuleType.ImageVerify "mutated image digest" RuleStatus.Pass
        | some r => r
      (calls, some { ruleResp with Patches := ruleResp.Patches ++ [patch] },
        ({ imageInfo with Digest := retrievedDigest } : ImageInfo).String)
    | (calls, none, _, none) => (calls, ruleResp, image)
  else ([], ruleResp, image)

/-- The end of the loop body of `verify`: the rule response, when there is one, is
recorded in the metadata and appended to the engine response. -/
def recordResponse {σ : Type} (imageVerify : ImageVerification) (st : VerifierState σ)
    (ruleResp : Option RuleResponse) (image : String) : VerifierState σ :=
  match ruleResp with
  | none => st
  | some ruleResp =>
    let ivm :=
      if imageVerify.Attestors.length > 0 ∨ imageVerify.Attestations.length > 0 then
        mapSet st.ivm image (ruleResp.Status == RuleStatus.Pass)
      else st.ivm
    { st with
      ivm := ivm
      resp := incrementAppliedCount { st.resp with Rules := st.resp.Rules ++ [ruleResp] } }

/-- The loop body of `verify` for one matched image. -/
def verifyImageInfo {σ : Type} (env : Env σ) (newResource oldResource : unstructured.Unstructured)
    (rule : Rule) (imageVerify : ImageVerification) (st : VerifierState σ) (imageInfo : ImageInfo) :
    List Call × Run (VerifierState σ) :=
  let image := imageInfo.String
  if hasImageVerifiedAnnotationChanged newResource oldResource then
    let msg := imageVerifyAnnotationKey ++ " annotation cannot be changed"
    let ruleResp := ruleResponse rule RuleType.ImageVerify msg RuleStatus.Fail
    ([], .done { st with
      resp := incrementAppliedCount { st.resp with Rules := st.resp.Rules ++ [ruleResp] } })
  else
    let pointer := env.JMESPath imageInfo.Pointer
    let (changed, err) := env.HasChanged st.ctx pointer
    if err.isNone ∧ !changed then ([], .done st)
    else
      let (verified, err) := env.isImageVerified newResource image
      if err.isNone ∧ verified then ([], .done st)
      else
        match verifyImage env rule st.ctx imageVerify imageInfo with
        | (_, calls, .panicked) => (calls, .panicked)
        | (ctx, calls, .done (ruleResp, digest)) =>
          match mutateDigestStep env rule imageVerify imageInfo ruleResp digest with
          | (calls2, ruleResp, image) =>
            (calls ++ calls2, .done (recordResponse imageVerify { st with ctx := ctx } ruleResp image))

/-- The loop of `verify` over the matched images. -/
def verifyLoop {σ : Type} (env : Env σ) (newResource oldResource : unstructured.Unstructured)
    (rule : Rule) (imageVerify : ImageVerification) :
    VerifierState σ → List ImageInfo → List Call × Run (VerifierState σ)
  | st, [] => ([], .done st)
  | st, imageInfo :: rest =>
    match verifyImageInfo env newResource oldResource rule imageVerify st imageInfo with
    | (calls, .panicked) => (calls, .panicked)
    | (calls, .done st) =>
      andThen calls (verifyLoop env newResource oldResource rule imageVerify st rest)

/-- The method `verify`. -/
def verify {σ : Type} (env : Env σ) (newResource oldResource : unstructured.Unstructured)
    (rule : Rule) (st : VerifierState σ) (imageVerify : ImageVerification)
    (matchedImageInfos : List ImageInfo) : List Call × Run (VerifierState σ) :=
  let imageVerify := env.Convert imageVerify
  verifyLoop env newResource oldResource rule imageVerify st matchedImageInfos

/-! ## The rule driver (`VerifyAndPatchImages`) -/

/-- The value of `applyRules` in a policy. -/
inductive kyvernov1.ApplyRulesType where
  | ApplyAll | ApplyOne
deriving DecidableEq, Repr

/-- A policy, as far as the image verifier reads it: `Rules` is the result of
`autogen.ComputeRules`, `ApplyRules` the result of `GetSpec().GetApplyRules()`. -/
structure Policy where
  Name : String
  ApplyRules : ApplyRulesType
  Rules : List Rule

/-- The extracted images (`map[string]map[string]apiutils.ImageInfo`), each map given
as the list of its entries in the order in which a `range` loop goes through them in
the run considered (Go leaves this order unspecified). -/
abbrev ImageMap := List (String × List (String × ImageInfo))

/-- The collaborators of the rule driver, on top of those of the image verifier. -/
structure Driver (σ : Type) where
  /-- The collaborators of the image verifier. -/
  env : Env σ
  /-- The function `wildcard.Match pattern name`. -/
  wildcardMatch : String → String → Bool
  /-- The function `matches` (match and exclude selectors of the rule). -/
  ruleMatches : Rule → Bool
  /-- The method `jsonContext.ImageInfo`. -/
  ImageInfo : σ → ImageMap
  /-- The method `jsonContext.GenerateCustomImageInfo`. -/
  GenerateCustomImageInfo :
    σ → unstructured.Unstructured → List (String × String) → σ × ImageMap × Option GoError
  /-- The function `LoadContext` for the context entries of a rule. -/
  LoadContext : σ → Rule → σ × Option GoError
  /-- The function `variables.SubstituteAllInRule`. -/
  SubstituteAllInRule : σ → Rule → Rule × Option GoError

/-- The function `imageMatches`. -/
def imageMatches (wildcardMatch : String → String → Bool) (image : String)
    (imagePatterns : List String) : Bool :=
  imagePatterns.any fun imagePattern => wildcardMatch imagePattern image

/-- The innermost loop of `getMatchingImages`, over the clauses of the rule, for one
image. -/
def matchClauses {σ : Type} (d : Driver σ) (imageInfo : ImageInfo) :
    List ImageVerification → List ImageInfo → List String → List ImageInfo × List String
  | [], imageInfos, imageRefs => (imageInfos, imageRefs)
  | verifyImage :: rest, imageInfos, imageRefs =>
    let verifyImage := d.env.Convert verifyImage
    let imageRefs := imageRefs ++ verifyImage.ImageReferences
    let imageInfos :=
      if imageMatches d.wildcardMatch imageInfo.String verifyImage.ImageReferences then
        imageInfos ++ [imageInfo]
      else imageInfos
    matchClauses d imageInfo rest imageInfos imageRefs

/-- The middle loop of `getMatchingImages`, over the images of one inner map. -/
def matchInfoMap {σ : Type} (d : Driver σ) (rule : Rule) :
    List (String × ImageInfo) → List ImageInfo → List String → List ImageInfo × List String
  | [], imageInfos, imageRefs => (imageInfos, imageRefs)
  | (_, imageInfo) :: rest, imageInfos, imageRefs =>
    match matchClauses d imageInfo rule.VerifyImages imageInfos imageRefs with
    | (imageInfos, imageRefs) => matchInfoMap d rule rest imageInfos imageRefs

/-- The outer loop of `getMatchingImages`, over the inner maps. -/
def matchImages {σ : Type} (d : Driver σ) (rule : Rule) :
    ImageMap → List ImageInfo → List String → List ImageInfo × List String
  | [], imageInfos, imageRefs => (imageInfos, imageRefs)
  | (_, infoMap) :: rest, imageInfos, imageRefs =>
    match matchInfoMap d rule infoMap imageInfos imageRefs with
    | (imageInfos, imageRefs) => matchImages d rule rest imageInfos imageRefs

/-- The function `getMatchingImages`. -/
def getMatchingImages {σ : Type} (d : Driver σ) (images : ImageMap) (rule : Rule) :
    List ImageInfo × String :=
  match matchImages d rule images [] [] with
  | (imageInfos, imageRefs) => (imageInfos, String.intercalate "," imageRefs)

/-- The function `extractMatchingImages`: the context, the matching images, the image
references and the error. -/
def extractMatchingImages {σ : Type} (d : Driver σ) (ctx : σ)
    (newResource : unstructured.Unstructured) (rule : Rule) :
    σ × List ImageInfo × String × Option GoError :=
  let images := d.ImageInfo ctx
  let extracted : σ × ImageMap × Option GoError :=
    match rule.ImageExtractors with
    | some extractors => d.GenerateCustomImageInfo ctx newResource extractors
    | none => (ctx, images, none)
  match extracted with
  | (ctx, _, some err) => (ctx, [], "", some err)
  | (ctx, images, none) =>
    match getMatchingImages d images rule with
    | (matchingImages, imageRefs) => (ctx, matchingImages, imageRefs, none)

/-- Modelled from the spec: the helper `incrementErrorCount` is not part of the sources
at hand; it counts one more rule in error. -/
def incrementErrorCount (resp : EngineResponse) : EngineResponse :=
  { resp with RulesErrorCount := resp.RulesErrorCount + 1 }

/-- The function `appendResponse`. -/
def appendResponse (resp : EngineResponse) (rule : Rule) (msg : String) (status : RuleStatus) :
    EngineResponse :=
  let rr := ruleResponse rule RuleType.ImageVerify msg status
  incrementErrorCount { resp with Rules := resp.Rules ++ [rr] }

/-- The part of the Go memory that `substituteVariables` reads and writes: the backing
arrays of the slices `VerifyImages`, each at its address. -/
abbrev Memory := List (List ImageVerification)

/-- A value of type `kyvernov1.Rule` as it lies in memory: the slice `VerifyImages` is
given by the address of its backing array, the other fields by their value. -/
structure RuleValue where
  Name : String
  VerifyImages : Nat
  ImageExtractors : Option (List (String × String))
  Context : List String

/-- The elements of the backing array at an address. -/
def Memory.array (m : Memory) (address : Nat) : List ImageVerification :=
  m.getD address []

/-- A new backing array with the given elements: the memory and the address of the
array. -/
def Memory.alloc (m : Memory) (elements : List ImageVerification) : Memory × Nat :=
  (m ++ [elements], m.length)

/-- The elements of the backing array at an address are overwritten in place. -/
def Memory.write (m : Memory) (address : Nat) (elements : List ImageVerification) : Memory :=
  m.set address elements

/-- The rule that a rule value stands for in a memory. -/
def RuleValue.rule (r : RuleValue) (m : Memory) : Rule :=
  { Name := r.Name, VerifyImages := m.array r.VerifyImages,
    ImageExtractors := r.ImageExtractors, Context := r.Context }

/-- The rule value of a rule whose clauses lie at the given address. -/
def kyvernov1.Rule.valueAt (rule : Rule) (address : Nat) : RuleValue :=
  { Name := rule.Name, VerifyImages := address, ImageExtractors := rule.ImageExtractors,
    Context := rule.Context }

/-- Modelled from the spec: the generated method `DeepCopy` is not part of the sources
at hand; the spec calls its result a deep copy: the clauses of the copy lie in a backing
array of their own. -/
def RuleValue.DeepCopy (r : RuleValue) (m : Memory) : Memory × RuleValue :=
  match m.alloc (m.array r.VerifyImages) with
  | (m, address) => (m, { r with VerifyImages := address })

/-- The last loop of `substituteVariables`, on the elements of the backing arrays of the
copy and of the rule: the attestations of the clauses of the rule are put, clause by
clause, into the clauses of the copy; the copy having fewer clauses than the rule, the
index is out of range. -/
def replaceAttestations :
    List ImageVerification → List ImageVerification → Run (List ImageVerification)
  | copy, [] => .done copy
  | [], _ :: _ => .panicked
  | c :: copy, v :: rest =>
    match replaceAttestations copy rest with
    | .done copy => .done ({ c with Attestations := v.Attestations } :: copy)
    | .panicked => .panicked

/-- The function `substituteVariables`, called with a pointer to the rule value `rule`
in the memory `m`: the memory after the call and the result.  The first loop writes into
the backing array of the deep copy; `SubstituteAllInRule` is handed the copy by value
and returns a rule of its own, whose clauses lie in a new backing array; the last loop
reads the backing array of the rule and writes into that of the substituted copy. -/
def substituteVariables {σ : Type} (d : Driver σ) (m : Memory) (rule : RuleValue) (ctx : σ) :
    Memory × Run (Except GoError RuleValue) :=
  match rule.DeepCopy m with
  | (m, ruleCopy) =>
    let m := m.write ruleCopy.VerifyImages
      ((m.array ruleCopy.VerifyImages).map fun v => { v with Attestations := [] })
    match d.SubstituteAllInRule ctx (ruleCopy.rule m) with
    | (_, some err) => (m, .done (.error err))
    | (substituted, none) =>
      match m.alloc substituted.VerifyImages with
      | (m, address) =>
        let ruleCopy := substituted.valueAt address
        match replaceAttestations (m.array ruleCopy.VerifyImages)
            (m.array rule.VerifyImages) with
        | .panicked => (m, .panicked)
        | .done verifyImages =>
          (m.write ruleCopy.VerifyImages verifyImages, .done (.ok ruleCopy))

/-- The loop of `VerifyAndPatchImages` over the clauses of the substituted rule: each
clause is verified against all the images matched by the rule. -/
def verifyClauses {σ : Type} (d : Driver σ) (newResource oldResource : unstructured.Unstructured)
    (ruleCopy : Rule) (ruleImages : List ImageInfo) :
    VerifierState σ → List ImageVerification → List Call × Run (VerifierState σ)
  | st, [] => ([], .done st)
  | st, imageVerify :: rest =>
    match verify d.env newResource oldResource ruleCopy st imageVerify ruleImages with
    | (calls, .panicked) => (calls, .panicked)
    | (calls, .done st) =>
      andThen calls (verifyClauses d newResource oldResource ruleCopy ruleImages st rest)

/-- The loop body of `VerifyAndPatchImages` for one rule: the calls made, the state
after the rule, and whether the loop is left (`break`).  The rule is `&rules[i]`: its
clauses lie in a backing array, here at the address `0` of a memory that holds nothing
else. -/
def processRule {σ : Type} (d : Driver σ) (policy : Policy)
    (newResource oldResource : unstructured.Unstructured) (st : VerifierState σ) (rule : Rule) :
    List Call × Run (VerifierState σ × Bool) :=
  if rule.VerifyImages.length = 0 then ([], .done (st, false))
  else if !d.ruleMatches rule then ([], .done (st, false))
  else
    match extractMatchingImages d st.ctx newResource rule with
    | (ctx, _, _, some err) =>
      ([], .done ({ st with
        ctx := ctx
        resp := appendResponse st.resp rule ("failed to extract images: " ++ err.Error)
          RuleStatus.Error }, false))
    | (ctx, ruleImages, imageRefs, none) =>
      if ruleImages.length = 0 then
        ([], .done ({ st with
          ctx := ctx
          resp := appendResponse st.resp rule
            ("skip run verification as image in resource not found in imageRefs '" ++
              imageRefs ++ "'") RuleStatus.Skip }, false))
      else
        let ctx := d.env.Restore ctx
        match d.LoadContext ctx rule with
        | (ctx, some err) =>
          ([], .done ({ st with
            ctx := ctx
            resp := appendResponse st.resp rule ("failed to load context: " ++ err.Error)
              RuleStatus.Error }, false))
        | (ctx, none) =>
          match substituteVariables d [rule.VerifyImages] (rule.valueAt 0) ctx with
          | (_, .panicked) => ([], .panicked)
          | (_, .done (.error err)) =>
            ([], .done ({ st with
              ctx := ctx
              resp := appendResponse st.resp rule
                ("failed to substitute variables: " ++ err.Error) RuleStatus.Error }, false))
          | (m, .done (.ok ruleCopy)) =>
            let ruleCopy := ruleCopy.rule m
            match verifyClauses d newResource oldResource ruleCopy ruleImages
                { st with ctx := ctx } ruleCopy.VerifyImages with
            | (calls, .panicked) => (calls, .panicked)
            | (calls, .done st) =>
              (calls, .done (st,
                decide (policy.ApplyRules = ApplyRulesType.ApplyOne ∧
                  st.resp.RulesAppliedCount > 0)))

/-- The loop of `VerifyAndPatchImages` over the rules. -/
def rulesLoop {σ : Type} (d : Driver σ) (policy : Policy)
    (newResource oldResource : unstructured.Unstructured) :
    VerifierState σ → List Rule → List Call × Run (VerifierState σ)
  | st, [] => ([], .done st)
  | st, rule :: rest =>
    match processRule d policy newResource oldResource st rule with
    | (calls, .panicked) => (calls, .panicked)
    | (calls, .done (st, leave)) =>
      if leave then (calls, .done st)
      else andThen calls (rulesLoop d policy newResource oldResource st rest)

/-- The function `VerifyAndPatchImages`: the calls made and, unless the run panics, the
evaluation context after the deferred `Restore`, the engine response and the image
verification metadata.  The deferred `buildResponse` fills fields of the response that
are not part of this model. -/
def VerifyAndPatchImages {σ : Type} (d : Driver σ) (policy : Policy)
    (newResource oldResource : unstructured.Unstructured) (ctx : σ) :
    List Call × Run (σ × EngineResponse × List (String × Bool)) :=
  let ctx := d.env.Checkpoint ctx
  let st : VerifierState σ :=
    { ctx := ctx, resp := { Rules := [], RulesAppliedCount := 0, RulesErrorCount := 0 }, ivm := [] }
  match rulesLoop d policy newResource oldResource st policy.Rules with
  | (calls, .panicked) => (calls, .panicked)
  | (calls, .done st) => (calls, .done (d.env.Restore st.ctx, st.resp, st.ivm))

/-! ## Specification-side notions -/

/-- Nesting depth below one entry. -/
def entryDepth (a : Attestor) : Nat :=
  match a.Attestor with
  | some (.wellFormed s) => setDepth s
  | _ => 0

/-- Verification of one entry of an attestor set in isolation: the iteration of the
entry loop of `verifyAttestorSet` for the entry `a` at path `attestorPath`. -/
def entryOutcome {σ : Type} (env : Env σ) (imageVerify : ImageVerification) (imageInfo : ImageInfo)
    (predicateType : String) (a : Attestor) (attestorPath : String) : List Call × Run cosign.Result :=
  verifyEntry env (fun s p => verifyAttestorSet env s imageVerify imageInfo p predicateType)
    imageVerify imageInfo.String predicateType a attestorPath

/-- An entry verifies: its verification returns without error. -/
def entryVerifies {σ : Type} (env : Env σ) (imageVerify : ImageVerification) (imageInfo : ImageInfo)
    (predicateType : String) (a : Attestor) (attestorPath : String) : Bool :=
  match (entryOutcome env imageVerify imageInfo predicateType a attestorPath).2 with
  | .done r => r.err.isNone
  | .panicked => false

/-- Number of entries, counted from index `i` of the set at `path`, that verify. -/
def countVerified {σ : Type} (env : Env σ) (imageVerify : ImageVerification) (imageInfo : ImageInfo)
    (path predicateType : String) : List Attestor → Nat → Nat
  | [], _ => 0
  | a :: rest, i =>
    (if entryVerifies env imageVerify imageInfo predicateType a
        (path ++ ".entries[" ++ toString i ++ "]") then 1 else 0) +
      countVerified env imageVerify imageInfo path predicateType rest (i + 1)

/-- An entry returns: its verification ends with a result, verified or not. -/
def entryReturns {σ : Type} (env : Env σ) (imageVerify : ImageVerification) (imageInfo : ImageInfo)
    (predicateType : String) (a : Attestor) (attestorPath : String) : Bool :=
  match (entryOutcome env imageVerify imageInfo predicateType a attestorPath).2 with
  | .done _ => true
  | .panicked => false

/-- Every entry, counted from index `i` of the set at `path`, returns. -/
def entriesReturn {σ : Type} (env : Env σ) (imageVerify : ImageVerification) (imageInfo : ImageInfo)
    (path predicateType : String) : List Attestor → Nat → Bool
  | [], _ => true
  | a :: rest, i =>
    entryReturns env imageVerify imageInfo predicateType a
        (path ++ ".entries[" ++ toString i ++ "]") &&
      entriesReturn env imageVerify imageInfo path predicateType rest (i + 1)

/-- The calls made by verifying, one after the other, the entries counted from index
`i` of the set at `path`. -/
def entriesCalls {σ : Type} (env : Env σ) (imageVerify : ImageVerification) (imageInfo : ImageInfo)
    (path predicateType : String) : List Attestor → Nat → List Call
  | [], _ => []
  | a :: rest, i =>
    (entryOutcome env imageVerify imageInfo predicateType a
        (path ++ ".entries[" ++ toString i ++ "]")).1 ++
      entriesCalls env imageVerify imageInfo path predicateType rest (i + 1)

/-- The errors of the entries, counted from index `i` of the set at `path`, that do
not verify, in the order of the entries. -/
def entriesErrors {σ : Type} (env : Env σ) (imageVerify : ImageVerification) (imageInfo : ImageInfo)
    (path predicateType : String) : List Attestor → Nat → List GoError
  | [], _ => []
  | a :: rest, i =>
    (match (entryOutcome env imageVerify imageInfo predicateType a
        (path ++ ".entries[" ++ toString i ++ "]")).2 with
      | .done r => r.err.toList
      | .panicked => []) ++
      entriesErrors env imageVerify imageInfo path predicateType rest (i + 1)

/-- The run of `verifyAttestorSet` that `verifyAttestors` makes for the attestor set of
index `i`. -/
def setOutcome {σ : Type} (env : Env σ) (imageVerify : ImageVerification) (imageInfo : ImageInfo)
    (predicateType : String) (s : AttestorSet) (i : Nat) : List Call × Run cosign.Result :=
  verifyAttestorSet env s imageVerify imageInfo (".attestors[" ++ toString i ++ "]") predicateType

/-- The attestor set of index `i` verifies: `verifyAttestorSet` returns no error. -/
def setVerifies {σ : Type} (env : Env σ) (imageVerify : ImageVerification) (imageInfo : ImageInfo)
    (predicateType : String) (s : AttestorSet) (i : Nat) : Bool :=
  match (setOutcome env imageVerify imageInfo predicateType s i).2 with
  | .done r => r.err.isNone
  | .panicked => false

/-- Every attestor set, counted from index `i`, verifies. -/
def setsVerify {σ : Type} (env : Env σ) (imageVerify : ImageVerification) (imageInfo : ImageInfo)
    (predicateType : String) : List AttestorSet → Nat → Bool
  | [], _ => true
  | s :: rest, i =>
    setVerifies env imageVerify imageInfo predicateType s i &&
      setsVerify env imageVerify imageInfo predicateType rest (i + 1)

/-- The calls made by verifying, one after the other, the attestor sets counted from
index `i`. -/
def setsCalls {σ : Type} (env : Env σ) (imageVerify : ImageVerification) (imageInfo : ImageInfo)
    (predicateType : String) : List AttestorSet → Nat → List Call
  | [], _ => []
  | s :: rest, i =>
    (setOutcome env imageVerify imageInfo predicateType s i).1 ++
      setsCalls env imageVerify imageInfo predicateType rest (i + 1)

/-- The text `sub` occurs in the text `s`. -/
def occursIn (sub s : String) : Prop :=
  ∃ before after : String, s = before ++ sub ++ after

/-- A digest is at hand for the digest patch of an image: `verifyImage` handed one
over or, failing that, the registry returns the descriptor of the image. -/
def digestObtained {σ : Type} (env : Env σ) (digest : String) (imageInfo : ImageInfo) : Prop :=
  digest ≠ "" ∨ (env.FetchImageDescriptor imageInfo.String).2 = none

/-- An entry whose only field is `Keys.publicKeys`. -/
def keyEntry (publicKeys : String) : Attestor :=
  Attestor.mk
    (some { PublicKeys := publicKeys, SignatureAlgorithm := "", KMS := "", Secret := none,
            Rekor := none })
    none none none none ""

/-- An entry whose only field is a nested attestor set, given as well-formed JSON. -/
def nestedEntry (set : AttestorSet) : Attestor :=
  Attestor.mk none none none (some (.wellFormed set)) none ""

/-- The marker that ends a PEM public key block. -/
def pemEnd : String := "-----END PUBLIC KEY-----"

/-- A key block: a text that ends with the marker `pemEnd` and contains it nowhere
else. -/
def isKeyBlock (k : String) : Prop :=
  (∃ body : String, k = body ++ pemEnd) ∧ ∀ a b : String, k = a ++ pemEnd ++ b → b = ""

/-- Executable test of `isKeyBlock`: the text ends with the marker and no proper
suffix of the text, other than the marker itself, starts with the marker. -/
def keyBlockCheck (k : String) : Bool :=
  pemEnd.data.isSuffixOf k.data &&
    k.data.tails.all fun t => !pemEnd.data.isPrefixOf t || t == pemEnd.data

/-- Concatenation `k1 ++ ... ++ kN` of key blocks. -/
def concatKeys : List String → String
  | [] => ""
  | k :: ks => k ++ concatKeys ks

/-- The marker `pemEnd` occurs in the text. -/
def hasMarker (s : String) : Prop :=
  ∃ a b : String, s = a ++ pemEnd ++ b

/-- Executable test of `hasMarker`: some suffix of the text starts with the marker. -/
def markerCheck (s : String) : Bool :=
  s.data.tails.any fun t => pemEnd.data.isPrefixOf t

/-- The attestor sets that `verifyAttestations` goes through for an attestation clause:
one empty attestor set when the clause declares none. -/
def attestorsOf (attestation : Attestation) : List AttestorSet :=
  if attestation.Attestors.length = 0 then [AttestorSet.mk none []] else attestation.Attestors

/-- The entries that `verifyAttestations` goes through for an attestor set: one empty
entry when the set has none. -/
def entriesOf (attestor : AttestorSet) : List Attestor :=
  if attestor.Entries.length = 0 then [Attestor.mk none none none none none ""]
  else attestor.Entries

/-- The attestation clauses, counted from index `i`, are gone through without a return
from `verifyAttestations`: the context and the calls made at the end of the last one. -/
def clausesFallThrough {σ : Type} (env : Env σ) (rule : Rule) (imageVerify : ImageVerification)
    (imageInfo : ImageInfo) : List Attestation → Nat → σ → Option (σ × List Call)
  | [], _, ctx => some (ctx, [])
  | attestation :: rest, i, ctx =>
    match attestationAttestorsLoop env rule imageVerify imageInfo i attestation
        (".attestations[" ++ toString i ++ "]") (attestorsOf attestation) 0 ctx with
    | (ctx, calls, .done none) =>
      match clausesFallThrough env rule imageVerify imageInfo rest (i + 1) ctx with
      | some (ctx, calls2) => some (ctx, calls ++ calls2)
      | none => none
    | _ => none

/-- A rule response is the one that the loop body of `verify` appends for an image,
for a clause (in its converted form) of a rule. -/
def appendedFor {σ : Type} (env : Env σ) (newResource oldResource : unstructured.Unstructured)
    (rule : Rule) (imageVerify : ImageVerification) (imageInfo : ImageInfo)
    (rr : RuleResponse) : Prop :=
  ∃ (st st2 : VerifierState σ) (calls : List Call),
    verifyImageInfo env newResource oldResource rule imageVerify st imageInfo =
      (calls, .done st2) ∧ st2.resp.Rules = st.resp.Rules ++ [rr]

/-- The responses appended by `verify` for one clause: at most one for each entry of
the list of matched images, in the order of that list. -/
def clauseResponses {σ : Type} (env : Env σ) (newResource oldResource : unstructured.Unstructured)
    (rule : Rule) (ruleImages : List ImageInfo) (clause : ImageVerification)
    (appended : List RuleResponse) : Prop :=
  ∃ evaluated : List ImageInfo, evaluated.Sublist ruleImages ∧
    List.Forall₂ (appendedFor env newResource oldResource rule (env.Convert clause))
      evaluated appended

/-- The responses appended for a rule by the loop over its clauses: those of the first
clause for the matched images, then those of the second clause, and so on. -/
def ruleResponses {σ : Type} (env : Env σ) (newResource oldResource : unstructured.Unstructured)
    (ruleCopy : Rule) (ruleImages : List ImageInfo) (appended : List RuleResponse) : Prop :=
  ∃ perClause : List (List RuleResponse), appended = perClause.flatten ∧
    List.Forall₂ (clauseResponses env newResource oldResource ruleCopy ruleImages)
      ruleCopy.VerifyImages perClause

/-- The patterns declared by the clauses of a rule, in the order of the clauses. -/
def declaredReferences {σ : Type} (d : Driver σ) (rule : Rule) : List String :=
  (rule.VerifyImages.map fun v => (d.env.Convert v).ImageReferences).flatten

/-- The images of an extracted image map, in the order of iteration. -/
def extractedImages (images : ImageMap) : List ImageInfo :=
  (images.map fun m => m.2.map Prod.snd).flatten

/-- The key handed to the verifier for a static key attestor, in the words of the
specification: the inline public keys when there are some, otherwise the opaque URL
`k8s://<namespace>/<name>` of the secret when a secret is referenced, otherwise the KMS
URI. -/
def keyReference (keys : StaticKeyAttestor) : String :=
  if keys.PublicKeys ≠ "" then keys.PublicKeys
  else
    match keys.Secret with
    | some secret => "k8s://" ++ secret.Namespace ++ "/" ++ secret.Name
    | none => keys.KMS

/-- The rule handed to the substitution of variables: the rule with the attestations of
every clause removed. -/
def withoutAttestations (rule : Rule) : Rule :=
  { rule with VerifyImages := rule.VerifyImages.map fun v => { v with Attestations := [] } }

/-! ## Example inputs -/

namespace Example

/-- Collaborators for the examples: the signature verifier is `verify`, a function of
the key it is asked to check, and the registry answers `descriptor`. -/
def env (verify : String → cosign.Result) (descriptor : String × Option GoError) : Env Unit where
  VerifySignature := fun opts => verify opts.Key
  FetchAttestations := fun _ => ⟨some ⟨"", []⟩, none⟩
  FetchImageDescriptor := fun _ => descriptor
  Convert := fun imageVerify => imageVerify
  Checkpoint := fun ctx => ctx
  Restore := fun ctx => ctx
  AddImageInfo := fun ctx _ => (ctx, none)
  AddJSONObject := fun ctx _ => (ctx, none)
  HasChanged := fun _ _ => (true, none)
  JMESPath := fun p => p
  SubstituteAllInConditions := fun _ c => (c, none)
  EvaluateAnyAllConditions := fun _ _ => true
  FormatStatement := fun _ => ""
  isImageVerified := fun _ _ => (false, none)

/-- A clause with the given attestor sets and no attestation. -/
def clause (attestors : List AttestorSet) (mutateDigest : Bool) : ImageVerification :=
  { ImageReferences := ["gcr.io/foo/*"], Attestors := attestors, Attestations := [],
    Annotations := none, Repository := "", MutateDigest := mutateDigest, Roots := "" }

/-- The image `gcr.io/foo/bar:v1` of the first container. -/
def image : ImageInfo :=
  { Registry := "gcr.io", Name := "bar", Path := "foo/bar", Tag := "v1", Digest := "",
    Pointer := "/spec/containers/0/image" }

/-- A rule. -/
def rule : Rule := { Name := "check-image", VerifyImages := [] }

/-- A verifier that accepts the keys `A` and `C` and rejects every other key. -/
def acceptAC (key : String) : cosign.Result :=
  if key = "A" ∨ key = "C" then ⟨some ⟨"sha256:aaaa", []⟩, none⟩
  else ⟨none, some (.errorf "no matching signatures")⟩

/-- A verifier that cannot reach the registry. -/
def unreachable (_ : String) : cosign.Result :=
  ⟨none, some (.wrap (.opError "dial tcp 10.0.0.1:443: i/o timeout") "failed to fetch signatures")⟩

/-- An initial state of the image verifier. -/
def state : VerifierState Unit :=
  { ctx := (), resp := { Rules := [], RulesAppliedCount := 0, RulesErrorCount := 0 }, ivm := [] }

/-- A resource without annotation. -/
def resource : unstructured.Unstructured := ⟨some []⟩

/-- The state after a run of `verify` (the initial state after a panic). -/
def stateOf (run : List Call × Run (VerifierState Unit)) : VerifierState Unit :=
  match run.2 with
  | .done st => st
  | .panicked => state

/-- The rule responses in the engine response after a run of `verify` (none after a
panic). -/
def rulesOf (run : List Call × Run (VerifierState Unit)) : List RuleResponse :=
  match run.2 with
  | .done st => st.resp.Rules
  | .panicked => []

/-- Collaborators whose evaluation context reports the image of the first container as
unchanged and every other image as changed. -/
def envUnchanged : Env Unit :=
  { env acceptAC ("", none) with
    HasChanged := fun _ pointer => (pointer != "/spec/containers/0/image", none) }

/-- The image `gcr.io/foo/baz:v2` of the second container. -/
def image2 : ImageInfo :=
  { Registry := "gcr.io", Name := "baz", Path := "foo/baz", Tag := "v2", Digest := "",
    Pointer := "/spec/containers/1/image" }

/-- A decoded statement of the given predicate type, with an empty predicate. -/
def statement (predicateType : String) : cosign.Statement :=
  [("_type", .str "https://in-toto.io/Statement/v0.1"), ("predicateType", .str predicateType),
    ("predicate", .object [])]

/-- Attestations in the registry: the key `A` signed a SLSA provenance statement, the
statements found for any other signer are of the cosign attestation type. -/
def fetchByKey (key : String) : cosign.Result :=
  if key = "A" then ⟨some ⟨"", [statement "https://slsa.dev/provenance/v0.2"]⟩, none⟩
  else ⟨some ⟨"", [statement "cosign.sigstore.dev/attestation/v1"]⟩, none⟩

/-- Collaborators whose attestations are those of `fetchByKey`. -/
def envFetch : Env Unit :=
  { env acceptAC ("", none) with FetchAttestations := fun opts => fetchByKey opts.Key }

/-- A clause with one attestation clause for the SLSA provenance predicate type, with
the given attestor sets, and no attestor. -/
def provenanceClause (attestors : List AttestorSet) : ImageVerification :=
  { ImageReferences := ["gcr.io/foo/*"], Attestors := [],
    Attestations := [{ PredicateType := "https://slsa.dev/provenance/v0.2",
                       Attestors := attestors, Conditions := [] }],
    Annotations := none, Repository := "", MutateDigest := false, Roots := "" }

/-- The rule response returned by a run of `verifyAttestations` (none after a panic). -/
def responseOf (run : Unit × List Call × Run (RuleResponse × String)) : Option RuleResponse :=
  match run.2.2 with
  | .done (rr, _) => some rr
  | .panicked => none

/-- A wildcard match for the examples: a pattern that ends in a star matches the names
that start with what precedes the star, any other pattern matches itself. -/
def wildcard (pattern name : String) : Bool :=
  match pattern.data.getLast? with
  | some '*' => pattern.data.dropLast.isPrefixOf name.data
  | _ => pattern == name

/-- Collaborators of the rule driver for the examples: every rule is selected, the
images extracted from the resource are `images`, no context entry fails to load and
the substitution of variables leaves a rule as it is. -/
def driver {σ : Type} (env : Env σ) (images : ImageMap) : Driver σ where
  env := env
  wildcardMatch := wildcard
  ruleMatches := fun _ => true
  ImageInfo := fun _ => images
  GenerateCustomImageInfo := fun ctx _ _ => (ctx, images, none)
  LoadContext := fun ctx _ => (ctx, none)
  SubstituteAllInRule := fun _ rule => (rule, none)

/-- Collaborators whose evaluation context counts the calls of `Checkpoint` (first
component) and the calls of `Restore` (second component). -/
def countingEnv : Env (Nat × Nat) where
  VerifySignature := fun opts => acceptAC opts.Key
  FetchAttestations := fun _ => ⟨some ⟨"", []⟩, none⟩
  FetchImageDescriptor := fun _ => ("", none)
  Convert := fun imageVerify => imageVerify
  Checkpoint := fun ctx => (ctx.1 + 1, ctx.2)
  Restore := fun ctx => (ctx.1, ctx.2 + 1)
  AddImageInfo := fun ctx _ => (ctx, none)
  AddJSONObject := fun ctx _ => (ctx, none)
  HasChanged := fun _ _ => (true, none)
  JMESPath := fun p => p
  SubstituteAllInConditions := fun _ c => (c, none)
  EvaluateAnyAllConditions := fun _ _ => true
  FormatStatement := fun _ => ""
  isImageVerified := fun _ _ => (false, none)

/-- The image `docker.io/library/nginx:latest` of the first container. -/
def nginx : ImageInfo :=
  { Registry := "docker.io", Name := "nginx", Path := "library/nginx", Tag := "latest",
    Digest := "", Pointer := "/spec/containers/0/image" }

/-- The image `docker.io/library/redis:7` of the second container. -/
def redis : ImageInfo :=
  { Registry := "docker.io", Name := "redis", Path := "library/redis", Tag := "7",
    Digest := "", Pointer := "/spec/containers/1/image" }

/-- A rule named `check-image` with the given clauses. -/
def ruleOf (clauses : List ImageVerification) : Rule :=
  { Name := "check-image", VerifyImages := clauses }

/-- A policy named `verify-images` with the given rules. -/
def policyOf (applyRules : ApplyRulesType) (rules : List Rule) : Policy :=
  { Name := "verify-images", ApplyRules := applyRules, Rules := rules }

/-- The rule responses returned by a run of `VerifyAndPatchImages` (none after a
panic). -/
def responsesOf {σ : Type} (run : List Call × Run (σ × EngineResponse × List (String × Bool))) :
    List RuleResponse :=
  match run.2 with
  | .done (_, resp, _) => resp.Rules
  | .panicked => []

/-- The evaluation context after a run of `VerifyAndPatchImages` (none after a panic). -/
def contextOf {σ : Type} (run : List Call × Run (σ × EngineResponse × List (String × Bool))) :
    Option σ :=
  match run.2 with
  | .done (ctx, _, _) => some ctx
  | .panicked => none

/-- A clause for the given image patterns, with the given attestor sets and no
attestation. -/
def clauseFor (patterns : List String) (attestors : List AttestorSet) : ImageVerification :=
  { ImageReferences := patterns, Attestors := attestors, Attestations := [],
    Annotations := none, Repository := "", MutateDigest := false, Roots := "" }

/-- An attestation clause for the SLSA provenance predicate type, without condition. -/
def provenance (attestors : List AttestorSet) : Attestation :=
  { PredicateType := "https://slsa.dev/provenance/v0.2", Attestors := attestors,
    Conditions := [] }

/-- A clause with the given attestation clauses and no attestor. -/
def attestationsClause (attestations : List Attestation) : ImageVerification :=
  { ImageReferences := ["gcr.io/foo/*"], Attestors := [], Attestations := attestations,
    Annotations := none, Repository := "", MutateDigest := false, Roots := "" }

/-- A substitution of variables that renames the rule, sets the repository of every
clause and leaves a trace in the attestations of every clause. -/
def substituter (rule : Rule) : Rule :=
  { rule with
    Name := rule.Name ++ "-substituted"
    VerifyImages := rule.VerifyImages.map fun v =>
      { v with Repository := "registry.example.com/signatures", Attestations := [provenance []] } }

/-- The rule value named `check-image` whose clauses lie at the given address. -/
def ruleAt (address : Nat) : RuleValue :=
  { Name := "check-image", VerifyImages := address, ImageExtractors := none, Context := [] }

/-- A substitution of variables that succeeds and returns the rule without its
clauses. -/
def droppingDriver : Driver Unit :=
  { driver (env acceptAC ("", none)) [] with
    SubstituteAllInRule := fun _ rule => ({ rule with VerifyImages := [] }, none) }

/-- Collaborators of the rule driver whose substitution of variables is `substituter`. -/
def substitutingDriver : Driver Unit :=
  { driver (env acceptAC ("", none)) [] with
    SubstituteAllInRule := fun _ rule => (substituter rule, none) }

end Example

/-! ## The depth bound of `verifyAttestorSetN` is never reached -/

theorem entriesDepth_cons (a : Attestor) (rest : List Attestor) :
    entriesDepth (a :: rest) = max (entryDepth a) (entriesDepth rest) := by
  cases a with
  | mk k c kl nested ann repo =>
    cases nested with
    | none => simp [entriesDepth, entryDepth, Attestor.Attestor]
    | some raw =>
      cases raw with
      | malformed err => simp [entriesDepth, entryDepth, Attestor.Attestor]
      | wellFormed s => simp [entriesDepth, entryDepth, Attestor.Attestor]

theorem entriesDepth_append (xs ys : List Attestor) :
    entriesDepth (xs ++ ys) = max (entriesDepth xs) (entriesDepth ys) := by
  induction xs with
  | nil => simp [entriesDepth]
  | cons a xs ih => simp [entriesDepth_cons, ih, max_assoc]

theorem entriesDepth_createStaticKeyAttestors (keys : List String) :
    entriesDepth (createStaticKeyAttestors keys) = 0 := by
  induction keys with
  | nil => simp [createStaticKeyAttestors, entriesDepth]
  | cons k ks ih =>
    simp only [createStaticKeyAttestors, List.map_cons] at ih ⊢
    rw [entriesDepth_cons, ih]
    simp [entryDepth, Attestor.Attestor]

theorem entriesDepth_expandEntries (es : List Attestor) :
    entriesDepth (expandEntries es) ≤ entriesDepth es := by
  induction es with
  | nil => simp [expandEntries]
  | cons e rest ih =>
    rw [entriesDepth_cons]
    unfold expandEntries
    split
    · dsimp only
      split
      · rw [entriesDepth_append, entriesDepth_createStaticKeyAttestors]
        simp only [zero_le, max_eq_right]
        exact le_trans ih (le_max_right _ _)
      · rw [entriesDepth_cons]
        exact max_le_max le_rfl ih
    · rw [entriesDepth_cons]
      exact max_le_max le_rfl ih

theorem verifyEntry_congr {σ : Type} (env : Env σ)
    (r1 r2 : AttestorSet → String → List Call × Run cosign.Result)
    (imageVerify : ImageVerification) (image predicateType : String) (a : Attestor)
    (attestorPath : String)
    (h : ∀ s p, setDepth s ≤ entryDepth a → r1 s p = r2 s p) :
    verifyEntry env r1 imageVerify image predicateType a attestorPath =
      verifyEntry env r2 imageVerify image predicateType a attestorPath := by
  cases a with
  | mk k c kl nested ann repo =>
    cases nested with
    | none => simp [verifyEntry, Attestor.Attestor]
    | some raw =>
      cases raw with
      | malformed err => simp [verifyEntry, Attestor.Attestor, AttestorSetUnmarshal]
      | wellFormed s =>
        simp only [verifyEntry, Attestor.Attestor, AttestorSetUnmarshal]
        exact h s _ (by simp [entryDepth, Attestor.Attestor])

theorem verifyEntries_congr {σ : Type} (env : Env σ)
    (r1 r2 : AttestorSet → String → List Call × Run cosign.Result)
    (imageVerify : ImageVerification) (image path predicateType : String) (requiredCount : Int)
    (es : List Attestor)
    (h : ∀ s p, setDepth s ≤ entriesDepth es → r1 s p = r2 s p) :
    ∀ (i : Nat) (verifiedCount : Int) (errorList : List GoError),
      verifyEntries env r1 imageVerify image path predicateType requiredCount es i verifiedCount
          errorList =
        verifyEntries env r2 imageVerify image path predicateType requiredCount es i verifiedCount
          errorList := by
  induction es with
  | nil => intro i v el; simp [verifyEntries]
  | cons a rest ih =>
    intro i v el
    have ha : verifyEntry env r1 imageVerify image predicateType a
          (path ++ ".entries[" ++ toString i ++ "]") =
        verifyEntry env r2 imageVerify image predicateType a
          (path ++ ".entries[" ++ toString i ++ "]") :=
      verifyEntry_congr env r1 r2 imageVerify image predicateType a _
        (fun s p hs => h s p (by rw [entriesDepth_cons]; exact le_trans hs (le_max_left _ _)))
    have hrest := ih (fun s p hs => h s p (by
      rw [entriesDepth_cons]; exact le_trans hs (le_max_right _ _)))
    simp only [verifyEntries, ha, hrest]

theorem setDepth_eq (s : AttestorSet) : setDepth s = entriesDepth s.Entries + 1 := by
  cases s with
  | mk c es => simp [setDepth, AttestorSet.Entries]

/-- Any two depth bounds that are at least the nesting depth of the attestor set give
the same run of `verifyAttestorSetN`. -/
theorem verifyAttestorSetN_stable {σ : Type} (env : Env σ) (imageVerify : ImageVerification)
    (imageInfo : ImageInfo) (predicateType : String) :
    ∀ (n m : Nat) (s : AttestorSet) (path : String), setDepth s ≤ n → setDepth s ≤ m →
      verifyAttestorSetN env imageVerify imageInfo predicateType n s path =
        verifyAttestorSetN env imageVerify imageInfo predicateType m s path := by
  intro n
  induction n with
  | zero => intro m s path hn _; rw [setDepth_eq] at hn; omega
  | succ n ih =>
    intro m s path hn hm
    cases m with
    | zero => rw [setDepth_eq] at hm; omega
    | succ m =>
      simp only [verifyAttestorSetN]
      apply verifyEntries_congr
      intro s2 p hs2
      have hle : entriesDepth (expandStaticKeys s).Entries ≤ entriesDepth s.Entries := by
        simp only [expandStaticKeys, AttestorSet.Entries]
        exact entriesDepth_expandEntries _
      rw [setDepth_eq s] at hn hm
      exact ih m s2 p (by omega) (by omega)

/-- The recursive equation of `verifyAttestorSet`: expansion of the keys, required
count, then the entry loop, in which a nested attestor set is verified by
`verifyAttestorSet` itself. -/
theorem verifyAttestorSet_eq {σ : Type} (env : Env σ) (attestorSet : AttestorSet)
    (imageVerify : ImageVerification) (imageInfo : ImageInfo) (path predicateType : String) :
    verifyAttestorSet env attestorSet imageVerify imageInfo path predicateType =
      verifyEntries env (fun s p => verifyAttestorSet env s imageVerify imageInfo p predicateType)
        imageVerify imageInfo.String path predicateType
        (getRequiredCount (expandStaticKeys attestorSet))
        (expandStaticKeys attestorSet).Entries 0 0 [] := by
  unfold verifyAttestorSet
  rw [setDepth_eq attestorSet]
  simp only [verifyAttestorSetN]
  apply verifyEntries_congr
  intro s2 p hs2
  have hle : entriesDepth (expandStaticKeys attestorSet).Entries ≤
      entriesDepth attestorSet.Entries := by
    simp only [expandStaticKeys, AttestorSet.Entries]
    exact entriesDepth_expandEntries _
  exact verifyAttestorSetN_stable env imageVerify imageInfo predicateType _ _ s2 p
    (by omega) le_rfl

/-! ## The required count (C4) -/

/-- C4 as stated fails: with `count = -1` and no entry `getRequiredCount` returns `-1`,
not `len(entries) = 0`. -/
theorem getRequiredCount_negative_count :
    getRequiredCount (AttestorSet.mk (some (-1)) []) = -1 ∧
      ¬ (getRequiredCount (AttestorSet.mk (some (-1)) []) =
        ((AttestorSet.mk (some (-1)) []).Entries.length : Int)) := by
  decide

/-- C4, amended: `getRequiredCount` returns `len(entries)` when `count` is absent or
zero, and `count` itself in every other case, also when `count` is negative. -/
theorem getRequiredCount_spec (set : AttestorSet) :
    ((set.Count = none ∨ set.Count = some 0) →
        getRequiredCount set = (set.Entries.length : Int)) ∧
      (∀ c : Int, set.Count = some c → c ≠ 0 → getRequiredCount set = c) := by
  constructor
  · rintro (h | h) <;> simp [getRequiredCount, h]
  · intro c h hc
    simp [getRequiredCount, h, hc]

/-- Witness of `getRequiredCount_spec`: an absent count over one entry, and a negative
count. -/
theorem getRequiredCount_spec_witness :
    getRequiredCount (AttestorSet.mk none [Attestor.mk none none none none none ""]) = 1 ∧
      getRequiredCount (AttestorSet.mk (some (-3)) []) = -3 :=
  ⟨(getRequiredCount_spec (AttestorSet.mk none [Attestor.mk none none none none none ""])).1
      (Or.inl rfl),
    (getRequiredCount_spec (AttestorSet.mk (some (-3)) [])).2 (-3) rfl (by decide)⟩

/-! ## The digest patch (C8) -/

/-- The patch built by `makeAddDigestPatch`, member by member. -/
theorem makeAddDigestPatch_eq (imageInfo : ImageInfo) (digest : String) :
    makeAddDigestPatch imageInfo digest =
      ([("op", "replace"), ("path", imageInfo.Pointer),
        ("value", imageInfo.String ++ "@" ++ digest)], none) := by
  simp [makeAddDigestPatch, mapSet, json.Marshal, json.insertMember, json.keyLE]

/-- C8: `makeAddDigestPatch` returns, without error, the JSON object whose members are
`op`, `path`, `value` in that order, with `op` equal to `replace`, `path` the pointer of
the image and `value` the image reference followed by `@` and the digest. -/
theorem makeAddDigestPatch_spec (imageInfo : ImageInfo) (digest : String) :
    makeAddDigestPatch imageInfo digest =
      ([("op", "replace"), ("path", imageInfo.Pointer),
        ("value", imageInfo.String ++ "@" ++ digest)], none) := by
  simp [makeAddDigestPatch, mapSet, json.Marshal, json.insertMember, json.keyLE]

/-! ## The entry loop of `verifyAttestorSet` -/

theorem entryOutcome_eq {σ : Type} (env : Env σ) (imageVerify : ImageVerification)
    (imageInfo : ImageInfo) (predicateType : String) (a : Attestor) (attestorPath : String) :
    verifyEntry env (fun s p => verifyAttestorSet env s imageVerify imageInfo p predicateType)
        imageVerify imageInfo.String predicateType a attestorPath =
      entryOutcome env imageVerify imageInfo predicateType a attestorPath := rfl

theorem entryVerifies_done {σ : Type} (env : Env σ) (imageVerify : ImageVerification)
    (imageInfo : ImageInfo) (predicateType : String) (a : Attestor) (attestorPath : String)
    (c : List Call) (r : cosign.Result)
    (h : entryOutcome env imageVerify imageInfo predicateType a attestorPath = (c, .done r)) :
    entryVerifies env imageVerify imageInfo predicateType a attestorPath = r.err.isNone := by
  simp [entryVerifies, h]

theorem entryVerifies_panicked {σ : Type} (env : Env σ) (imageVerify : ImageVerification)
    (imageInfo : ImageInfo) (predicateType : String) (a : Attestor) (attestorPath : String)
    (c : List Call)
    (h : entryOutcome env imageVerify imageInfo predicateType a attestorPath = (c, .panicked)) :
    entryVerifies env imageVerify imageInfo predicateType a attestorPath = false := by
  simp [entryVerifies, h]

/-- When the entry loop returns without error, the entries that verify, together with
those counted before, reach the required count. -/
theorem verifyEntries_ok_count {σ : Type} (env : Env σ) (imageVerify : ImageVerification)
    (imageInfo : ImageInfo) (path predicateType : String) (requiredCount : Int)
    (es : List Attestor) :
    ∀ (i : Nat) (verifiedCount : Int) (errorList : List GoError) (calls : List Call)
      (resp : Option cosign.Response),
      verifyEntries env (fun s p => verifyAttestorSet env s imageVerify imageInfo p predicateType)
          imageVerify imageInfo.String path predicateType requiredCount es i verifiedCount
          errorList = (calls, .done ⟨resp, none⟩) →
        requiredCount ≤
          verifiedCount + (countVerified env imageVerify imageInfo path predicateType es i : Int) := by
  induction es with
  | nil =>
    intro i v el calls resp h
    simp only [verifyEntries] at h
    cases hc : multierr.Combine el with
    | none => simp [hc] at h
    | some e => simp [hc] at h
  | cons a rest ih =>
    intro i v el calls resp h
    simp only [verifyEntries, entryOutcome_eq] at h
    simp only [countVerified]
    obtain ⟨c, run, ho⟩ : ∃ c run, entryOutcome env imageVerify imageInfo predicateType a
        (path ++ ".entries[" ++ toString i ++ "]") = (c, run) := ⟨_, _, rfl⟩
    rw [ho] at h
    cases run with
    | panicked => simp at h
    | done r =>
      rw [entryVerifies_done env imageVerify imageInfo predicateType a _ c r ho]
      cases hr : r.err with
      | none =>
        simp only [hr] at h
        simp only [Option.isNone_none, if_true]
        by_cases hge : v + 1 ≥ requiredCount
        · push_cast; omega
        · simp only [hge, if_false, andThen] at h
          have h2 := congrArg Prod.snd h
          have := ih (i + 1) (v + 1) el _ resp (Prod.ext rfl h2)
          push_cast; omega
      | some e =>
        simp only [hr, andThen] at h
        simp only [Option.isNone_some]
        have h2 := congrArg Prod.snd h
        have := ih (i + 1) v (el ++ [e]) _ resp (Prod.ext rfl h2)
        simpa using this

/-! ## A passing `verifyAttestors` reached every threshold (C1) -/

theorem setVerifies_done {σ : Type} (env : Env σ) (imageVerify : ImageVerification)
    (imageInfo : ImageInfo) (predicateType : String) (s : AttestorSet) (i : Nat)
    (c : List Call) (r : cosign.Result)
    (h : verifyAttestorSet env s imageVerify imageInfo (".attestors[" ++ toString i ++ "]")
      predicateType = (c, .done r)) :
    setVerifies env imageVerify imageInfo predicateType s i = r.err.isNone := by
  simp [setVerifies, setOutcome, h]

theorem setVerifies_true {σ : Type} (env : Env σ) (imageVerify : ImageVerification)
    (imageInfo : ImageInfo) (predicateType : String) (s : AttestorSet) (i : Nat)
    (h : setVerifies env imageVerify imageInfo predicateType s i = true) :
    ∃ c r, verifyAttestorSet env s imageVerify imageInfo (".attestors[" ++ toString i ++ "]")
      predicateType = (c, .done r) ∧ r.err = none := by
  obtain ⟨c, run, ho⟩ : ∃ c run, verifyAttestorSet env s imageVerify imageInfo
      (".attestors[" ++ toString i ++ "]") predicateType = (c, run) := ⟨_, _, rfl⟩
  cases run with
  | panicked => simp [setVerifies, setOutcome, ho] at h
  | done r =>
    rw [setVerifies_done env imageVerify imageInfo predicateType s i c r ho] at h
    exact ⟨c, r, ho, by simpa using h⟩

theorem countVerified_append {σ : Type} (env : Env σ) (imageVerify : ImageVerification)
    (imageInfo : ImageInfo) (path predicateType : String) (xs ys : List Attestor) :
    ∀ i : Nat, countVerified env imageVerify imageInfo path predicateType (xs ++ ys) i =
      countVerified env imageVerify imageInfo path predicateType xs i +
        countVerified env imageVerify imageInfo path predicateType ys (i + xs.length) := by
  induction xs with
  | nil => intro i; simp [countVerified]
  | cons a xs ih =>
    intro i
    rw [List.cons_append]
    simp only [countVerified, ih, List.length_cons]
    rw [show i + 1 + xs.length = i + (xs.length + 1) by omega]
    omega

/-- When the entry loop returns without error, it has tried a prefix of the entries,
made the calls of these entries, and the entries of the prefix that verify, together
with those counted before, reach the required count. -/
theorem verifyEntries_ok_tried {σ : Type} (env : Env σ) (imageVerify : ImageVerification)
    (imageInfo : ImageInfo) (path predicateType : String) (requiredCount : Int)
    (es : List Attestor) :
    ∀ (i : Nat) (verifiedCount : Int) (errorList : List GoError) (calls : List Call)
      (resp : Option cosign.Response),
      verifyEntries env (fun s p => verifyAttestorSet env s imageVerify imageInfo p predicateType)
          imageVerify imageInfo.String path predicateType requiredCount es i verifiedCount
          errorList = (calls, .done ⟨resp, none⟩) →
        ∃ tried rest : List Attestor, es = tried ++ rest ∧
          calls = entriesCalls env imageVerify imageInfo path predicateType tried i ∧
          requiredCount ≤ verifiedCount +
            (countVerified env imageVerify imageInfo path predicateType tried i : Int) := by
  induction es with
  | nil =>
    intro i v el calls resp h
    simp only [verifyEntries] at h
    cases hc : multierr.Combine el with
    | none => simp [hc] at h
    | some e => simp [hc] at h
  | cons a rest ih =>
    intro i v el calls resp h
    simp only [verifyEntries, entryOutcome_eq] at h
    obtain ⟨c, run, ho⟩ : ∃ c run, entryOutcome env imageVerify imageInfo predicateType a
        (path ++ ".entries[" ++ toString i ++ "]") = (c, run) := ⟨_, _, rfl⟩
    rw [ho] at h
    have hv := entryVerifies_done env imageVerify imageInfo predicateType a
      (path ++ ".entries[" ++ toString i ++ "]") c
    cases run with
    | panicked => simp at h
    | done r =>
      have hv := hv r ho
      cases hr : r.err with
      | none =>
        simp only [hr] at h
        rw [hr] at hv
        by_cases hge : v + 1 ≥ requiredCount
        · simp only [hge, if_true, Prod.mk.injEq] at h
          refine ⟨[a], rest, rfl, ?_, ?_⟩
          · simp [entriesCalls, ho, h.1]
          · simp only [countVerified, hv, Option.isNone_none, if_true]
            push_cast; omega
        · simp only [hge, if_false, andThen, Prod.mk.injEq] at h
          obtain ⟨tried, rest2, hsplit, hcalls, hcount⟩ :=
            ih (i + 1) (v + 1) el _ resp (Prod.ext rfl h.2)
          refine ⟨a :: tried, rest2, by rw [hsplit]; rfl, ?_, ?_⟩
          · simp only [entriesCalls, ho, ← hcalls, h.1]
          · simp only [countVerified, hv, Option.isNone_none, if_true]
            push_cast; omega
      | some e =>
        simp only [hr, andThen, Prod.mk.injEq] at h
        rw [hr] at hv
        obtain ⟨tried, rest2, hsplit, hcalls, hcount⟩ :=
          ih (i + 1) v (el ++ [e]) _ resp (Prod.ext rfl h.2)
        refine ⟨a :: tried, rest2, by rw [hsplit]; rfl, ?_, ?_⟩
        · simp only [entriesCalls, ho, ← hcalls, h.1]
        · simp only [countVerified, hv, Option.isNone_some]
          simpa using hcount

/-- An attestor set that verifies: `verifyAttestorSet` tried a prefix of the entries of
the expanded set, and at least the required number of entries of this prefix verify. -/
theorem setVerifies_count {σ : Type} (env : Env σ) (imageVerify : ImageVerification)
    (imageInfo : ImageInfo) (predicateType : String) (s : AttestorSet) (i : Nat)
    (h : setVerifies env imageVerify imageInfo predicateType s i = true) :
    ∃ tried rest : List Attestor, (expandStaticKeys s).Entries = tried ++ rest ∧
      getRequiredCount (expandStaticKeys s) ≤
        (countVerified env imageVerify imageInfo (".attestors[" ++ toString i ++ "]")
          predicateType tried 0 : Int) ∧
      getRequiredCount (expandStaticKeys s) ≤
        (countVerified env imageVerify imageInfo (".attestors[" ++ toString i ++ "]")
          predicateType (expandStaticKeys s).Entries 0 : Int) := by
  obtain ⟨c, r, ho, hr⟩ := setVerifies_true env imageVerify imageInfo predicateType s i h
  obtain ⟨resp, err⟩ := r
  simp only at hr
  subst hr
  rw [verifyAttestorSet_eq] at ho
  obtain ⟨tried, rest, hsplit, -, hcount⟩ :=
    verifyEntries_ok_tried env imageVerify imageInfo _ predicateType _ _ 0 0 [] c resp ho
  refine ⟨tried, rest, hsplit, by simpa using hcount, ?_⟩
  rw [hsplit, countVerified_append]
  simp only [zero_add] at hcount
  push_cast
  omega

/-- When the loop of `verifyAttestors` ends with status `Pass`, every attestor set it
went through verifies. -/
theorem verifyAttestorsLoop_pass {σ : Type} (env : Env σ) (rule : Rule)
    (imageVerify : ImageVerification) (imageInfo : ImageInfo) (predicateType : String)
    (sets : List AttestorSet) :
    ∀ (i : Nat) (cr : Option cosign.Response) (na : List AttestorSet) (calls : List Call)
      (rr : RuleResponse) (resp : Option cosign.Response) (newAttestors : List AttestorSet),
      verifyAttestorsLoop env rule imageVerify imageInfo predicateType sets i cr na =
          (calls, .done (rr, resp, newAttestors)) →
        rr.Status = RuleStatus.Pass →
        ∀ (k : Nat) (hk : k < sets.length),
          setVerifies env imageVerify imageInfo predicateType sets[k] (i + k) = true := by
  induction sets with
  | nil => intro i cr na calls rr resp newAttestors _ _ k hk; simp at hk
  | cons s rest ih =>
    intro i cr na calls rr resp newAttestors h hp k hk
    simp only [verifyAttestorsLoop] at h
    obtain ⟨c, run, ho⟩ : ∃ c run, verifyAttestorSet env s imageVerify imageInfo
        (".attestors[" ++ toString i ++ "]") predicateType = (c, run) := ⟨_, _, rfl⟩
    rw [ho] at h
    cases run with
    | panicked => simp at h
    | done r =>
      cases hr : r.err with
      | some e =>
        simp only [hr] at h
        cases hnet : e.asOpError with
        | true =>
          simp only [hnet, if_true, Prod.mk.injEq, Run.done.injEq] at h
          rw [← h.2.1] at hp
          simp [ruleResponse] at hp
        | false =>
          simp only [hnet, Bool.false_eq_true, if_false, Prod.mk.injEq, Run.done.injEq] at h
          rw [← h.2.1] at hp
          simp [ruleResponse] at hp
      | none =>
        simp only [hr, andThen] at h
        have h2 := congrArg Prod.snd h
        cases k with
        | zero =>
          simp only [List.getElem_cons_zero, Nat.add_zero]
          rw [setVerifies_done env imageVerify imageInfo predicateType s i c r ho, hr]
          rfl
        | succ k =>
          have := ih (i + 1) r.resp (na ++ [s]) _ rr resp newAttestors (Prod.ext rfl h2) hp k
            (by simpa using hk)
          simpa [Nat.add_assoc, Nat.add_comm 1 k] using this

/-- C1: when `verifyAttestors` returns a rule response of status `Pass`, then for every
attestor set of the list, `verifyAttestorSet` tried a prefix `tried` of the entries of
the expanded set, and the number of entries that verify is at least `getRequiredCount`
of the expanded set, among the entries tried and hence among all the entries. -/
theorem verifyAttestors_pass_thresholds {σ : Type} (env : Env σ) (rule : Rule)
    (attestors : List AttestorSet) (imageVerify : ImageVerification) (imageInfo : ImageInfo)
    (predicateType : String) (calls : List Call) (rr : RuleResponse)
    (resp : Option cosign.Response) (newAttestors : List AttestorSet)
    (h : verifyAttestors env rule attestors imageVerify imageInfo predicateType =
      (calls, .done (rr, resp, newAttestors)))
    (hp : rr.Status = RuleStatus.Pass) :
    ∀ (j : Nat) (hj : j < attestors.length),
      ∃ tried rest : List Attestor, (expandStaticKeys attestors[j]).Entries = tried ++ rest ∧
        getRequiredCount (expandStaticKeys attestors[j]) ≤
          (countVerified env imageVerify imageInfo (".attestors[" ++ toString j ++ "]")
            predicateType tried 0 : Int) ∧
        getRequiredCount (expandStaticKeys attestors[j]) ≤
          (countVerified env imageVerify imageInfo (".attestors[" ++ toString j ++ "]")
            predicateType (expandStaticKeys attestors[j]).Entries 0 : Int) := by
  intro j hj
  have := verifyAttestorsLoop_pass env rule imageVerify imageInfo predicateType attestors 0 none []
    calls rr resp newAttestors h hp j hj
  rw [Nat.zero_add] at this
  exact setVerifies_count env imageVerify imageInfo predicateType _ j this

/-- Witness of `verifyAttestors_pass_thresholds`: one attestor set with `count = 2` and
the entries `A`, `B`, `C`, of which `A` and `C` verify; `verifyAttestors` passes. -/
theorem verifyAttestors_pass_thresholds_witness :
    (verifyAttestors (Example.env Example.acceptAC ("", none)) Example.rule
        [AttestorSet.mk (some 2) [keyEntry "A", keyEntry "B", keyEntry "C"]]
        (Example.clause [] false) Example.image "").2 =
      .done (ruleResponse Example.rule RuleType.ImageVerify
        "verified image signatures for gcr.io/foo/bar:v1" RuleStatus.Pass,
        some ⟨"sha256:aaaa", []⟩,
        [AttestorSet.mk (some 2) [keyEntry "A", keyEntry "B", keyEntry "C"]]) ∧
      ∃ tried rest : List Attestor,
        (expandStaticKeys (AttestorSet.mk (some 2)
          [keyEntry "A", keyEntry "B", keyEntry "C"])).Entries = tried ++ rest ∧
        getRequiredCount (expandStaticKeys (AttestorSet.mk (some 2)
            [keyEntry "A", keyEntry "B", keyEntry "C"])) ≤
          (countVerified (Example.env Example.acceptAC ("", none)) (Example.clause [] false)
            Example.image (".attestors[" ++ toString 0 ++ "]") "" tried 0 : Int) ∧
        getRequiredCount (expandStaticKeys (AttestorSet.mk (some 2)
            [keyEntry "A", keyEntry "B", keyEntry "C"])) ≤
          (countVerified (Example.env Example.acceptAC ("", none)) (Example.clause [] false)
            Example.image (".attestors[" ++ toString 0 ++ "]") ""
            (expandStaticKeys (AttestorSet.mk (some 2)
              [keyEntry "A", keyEntry "B", keyEntry "C"])).Entries 0 : Int) :=
  ⟨by rfl,
    verifyAttestors_pass_thresholds (Example.env Example.acceptAC ("", none)) Example.rule
      [AttestorSet.mk (some 2) [keyEntry "A", keyEntry "B", keyEntry "C"]]
      (Example.clause [] false) Example.image ""
      (verifyAttestors (Example.env Example.acceptAC ("", none)) Example.rule
        [AttestorSet.mk (some 2) [keyEntry "A", keyEntry "B", keyEntry "C"]]
        (Example.clause [] false) Example.image "").1
      (ruleResponse Example.rule RuleType.ImageVerify
        "verified image signatures for gcr.io/foo/bar:v1" RuleStatus.Pass)
      (some ⟨"sha256:aaaa", []⟩)
      [AttestorSet.mk (some 2) [keyEntry "A", keyEntry "B", keyEntry "C"]]
      (by rfl) (by rfl) 0 (by decide)⟩

/-! ## Short circuit at the required count (C3) and exhaustion of the entries -/

theorem entryReturns_true {σ : Type} (env : Env σ) (imageVerify : ImageVerification)
    (imageInfo : ImageInfo) (predicateType : String) (a : Attestor) (attestorPath : String)
    (h : entryReturns env imageVerify imageInfo predicateType a attestorPath = true) :
    ∃ c r, entryOutcome env imageVerify imageInfo predicateType a attestorPath = (c, .done r) := by
  obtain ⟨c, run, ho⟩ : ∃ c run, entryOutcome env imageVerify imageInfo predicateType a
      attestorPath = (c, run) := ⟨_, _, rfl⟩
  cases run with
  | panicked => simp [entryReturns, ho] at h
  | done r => exact ⟨c, r, ho⟩

theorem entriesCalls_append {σ : Type} (env : Env σ) (imageVerify : ImageVerification)
    (imageInfo : ImageInfo) (path predicateType : String) (xs ys : List Attestor) :
    ∀ i : Nat, entriesCalls env imageVerify imageInfo path predicateType (xs ++ ys) i =
      entriesCalls env imageVerify imageInfo path predicateType xs i ++
        entriesCalls env imageVerify imageInfo path predicateType ys (i + xs.length) := by
  induction xs with
  | nil => intro i; simp [entriesCalls]
  | cons a xs ih =>
    intro i
    rw [List.cons_append]
    simp only [entriesCalls, ih, List.length_cons, List.append_assoc]
    rw [show i + 1 + xs.length = i + (xs.length + 1) by omega]

/-- The entry loop stops at the entry with which the verified count reaches the
required count: the entries before it are tried in order, the entries after it are
not tried, and the response of that entry is returned without error. -/
theorem verifyEntries_threshold {σ : Type} (env : Env σ) (imageVerify : ImageVerification)
    (imageInfo : ImageInfo) (path predicateType : String) (requiredCount : Int)
    (pre : List Attestor) (e : Attestor) (post : List Attestor) (ce : List Call)
    (resp : Option cosign.Response) :
    ∀ (i : Nat) (verifiedCount : Int) (errorList : List GoError),
      entriesReturn env imageVerify imageInfo path predicateType pre i = true →
      verifiedCount + (countVerified env imageVerify imageInfo path predicateType pre i : Int) + 1 =
        requiredCount →
      entryOutcome env imageVerify imageInfo predicateType e
          (path ++ ".entries[" ++ toString (i + pre.length) ++ "]") = (ce, .done ⟨resp, none⟩) →
      verifyEntries env (fun s p => verifyAttestorSet env s imageVerify imageInfo p predicateType)
          imageVerify imageInfo.String path predicateType requiredCount (pre ++ e :: post) i
          verifiedCount errorList =
        (entriesCalls env imageVerify imageInfo path predicateType pre i ++ ce,
          .done ⟨resp, none⟩) := by
  induction pre with
  | nil =>
    intro i v el _ hcount he
    simp only [List.length_nil, Nat.add_zero] at he
    simp only [countVerified, Nat.cast_zero, add_zero] at hcount
    simp only [List.nil_append, verifyEntries, entryOutcome_eq, he, entriesCalls]
    have : v + 1 ≥ requiredCount := by omega
    simp [this]
  | cons a pre ih =>
    intro i v el hret hcount he
    simp only [entriesReturn, Bool.and_eq_true] at hret
    obtain ⟨c, r, ho⟩ := entryReturns_true env imageVerify imageInfo predicateType a _ hret.1
    simp only [countVerified,
      entryVerifies_done env imageVerify imageInfo predicateType a _ c r ho] at hcount
    rw [show i + (a :: pre).length = i + 1 + pre.length by simp; omega] at he
    rw [List.cons_append]
    simp only [verifyEntries, entryOutcome_eq, ho, entriesCalls]
    cases hr : r.err with
    | none =>
      simp only [hr, Option.isNone_none, if_true] at hcount
      have hlt : ¬ (v + 1 ≥ requiredCount) := by push_cast at hcount; omega
      simp only [hlt, if_false, andThen]
      rw [ih (i + 1) (v + 1) el hret.2 (by push_cast at hcount ⊢; omega) he]
      simp
    | some err =>
      simp only [hr, Option.isNone_some] at hcount
      simp only [andThen]
      rw [ih (i + 1) v (el ++ [err]) hret.2 (by simpa using hcount) he]
      simp

/-- When the entries run out before the verified count reaches the required count,
the loop of `verifyAttestorSet` has tried every entry, and the code after the loop
combines the errors of the entries: a combined error is returned with no response; with
no error to combine, `err.Error()` is called on a nil error. -/
theorem verifyEntries_exhausted {σ : Type} (env : Env σ) (imageVerify : ImageVerification)
    (imageInfo : ImageInfo) (path predicateType : String) (requiredCount : Int)
    (es : List Attestor) :
    ∀ (i : Nat) (verifiedCount : Int) (errorList : List GoError),
      entriesReturn env imageVerify imageInfo path predicateType es i = true →
      verifiedCount + (countVerified env imageVerify imageInfo path predicateType es i : Int) <
        requiredCount →
      verifyEntries env (fun s p => verifyAttestorSet env s imageVerify imageInfo p predicateType)
          imageVerify imageInfo.String path predicateType requiredCount es i verifiedCount
          errorList =
        (entriesCalls env imageVerify imageInfo path predicateType es i,
          match multierr.Combine
            (errorList ++ entriesErrors env imageVerify imageInfo path predicateType es i) with
          | none => .panicked
          | some err => .done ⟨none, some err⟩) := by
  induction es with
  | nil =>
    intro i v el _ _
    simp only [verifyEntries, entriesCalls, entriesErrors, List.append_nil]
    cases multierr.Combine el <;> rfl
  | cons a rest ih =>
    intro i v el hret hcount
    simp only [entriesReturn, Bool.and_eq_true] at hret
    obtain ⟨c, r, ho⟩ := entryReturns_true env imageVerify imageInfo predicateType a _ hret.1
    simp only [countVerified,
      entryVerifies_done env imageVerify imageInfo predicateType a _ c r ho] at hcount
    simp only [verifyEntries, entryOutcome_eq, ho, entriesCalls, entriesErrors]
    cases hr : r.err with
    | none =>
      simp only [hr, Option.isNone_none, if_true] at hcount
      have hlt : ¬ (v + 1 ≥ requiredCount) := by push_cast at hcount; omega
      simp only [hlt, if_false, andThen]
      rw [ih (i + 1) (v + 1) el hret.2 (by push_cast at hcount ⊢; omega)]
      simp
    | some err =>
      simp only [hr, Option.isNone_some] at hcount
      simp only [andThen]
      rw [ih (i + 1) v (el ++ [err]) hret.2 (by simpa using hcount)]
      simp

theorem entryVerifies_true {σ : Type} (env : Env σ) (imageVerify : ImageVerification)
    (imageInfo : ImageInfo) (predicateType : String) (a : Attestor) (attestorPath : String)
    (h : entryVerifies env imageVerify imageInfo predicateType a attestorPath = true) :
    ∃ c resp, entryOutcome env imageVerify imageInfo predicateType a attestorPath =
      (c, .done ⟨resp, none⟩) := by
  obtain ⟨c, run, ho⟩ : ∃ c run, entryOutcome env imageVerify imageInfo predicateType a
      attestorPath = (c, run) := ⟨_, _, rfl⟩
  cases run with
  | panicked => simp [entryVerifies, ho] at h
  | done r =>
    rw [entryVerifies_done env imageVerify imageInfo predicateType a _ c r ho] at h
    obtain ⟨resp, err⟩ := r
    cases err with
    | some e => simp at h
    | none => exact ⟨c, resp, ho⟩

/-- An entry without nested attestor set always returns: its verification is one call
to the verifier. -/
theorem entryReturns_flat {σ : Type} (env : Env σ) (imageVerify : ImageVerification)
    (imageInfo : ImageInfo) (predicateType : String) (a : Attestor) (attestorPath : String)
    (h : a.Attestor = none) :
    entryReturns env imageVerify imageInfo predicateType a attestorPath = true ∧
      (entryOutcome env imageVerify imageInfo predicateType a attestorPath).1 =
        [Call.VerifySignature (buildOptionsAndPath a imageVerify imageInfo.String
          ⟨predicateType, [], []⟩).1] := by
  simp [entryReturns, entryOutcome, verifyEntry, h]

/-- Among entries of which at least `M` verify, there is the entry with which the count
of verifying entries reaches `M`. -/
theorem countVerified_split {σ : Type} (env : Env σ) (imageVerify : ImageVerification)
    (imageInfo : ImageInfo) (path predicateType : String) (requiredCount : Int)
    (es : List Attestor) :
    ∀ (i : Nat) (verifiedCount : Int), verifiedCount < requiredCount →
      requiredCount ≤
        verifiedCount + (countVerified env imageVerify imageInfo path predicateType es i : Int) →
      ∃ (pre : List Attestor) (e : Attestor) (post : List Attestor), es = pre ++ e :: post ∧
        verifiedCount + (countVerified env imageVerify imageInfo path predicateType pre i : Int) + 1 =
          requiredCount ∧
        entryVerifies env imageVerify imageInfo predicateType e
          (path ++ ".entries[" ++ toString (i + pre.length) ++ "]") = true := by
  induction es with
  | nil =>
    intro i v hlt hle
    simp only [countVerified, Nat.cast_zero, add_zero] at hle
    omega
  | cons a rest ih =>
    intro i v hlt hle
    simp only [countVerified] at hle
    cases hv : entryVerifies env imageVerify imageInfo predicateType a
        (path ++ ".entries[" ++ toString i ++ "]") with
    | true =>
      simp only [hv, if_true] at hle
      by_cases hlast : v + 1 = requiredCount
      · exact ⟨[], a, rest, rfl, by simpa [countVerified] using hlast, by simpa using hv⟩
      · obtain ⟨pre, e, post, hsplit, hcount, he⟩ :=
          ih (i + 1) (v + 1) (by omega) (by push_cast at hle; omega)
        refine ⟨a :: pre, e, post, by rw [hsplit]; rfl, ?_, ?_⟩
        · simp only [countVerified, hv, if_true]
          push_cast; omega
        · rw [show i + (a :: pre).length = i + 1 + pre.length by simp; omega]
          exact he
    | false =>
      simp only [hv, Bool.false_eq_true, if_false, zero_add] at hle
      obtain ⟨pre, e, post, hsplit, hcount, he⟩ := ih (i + 1) v hlt hle
      refine ⟨a :: pre, e, post, by rw [hsplit]; rfl, ?_, ?_⟩
      · simp only [countVerified, hv, Bool.false_eq_true, if_false, zero_add]
        exact hcount
      · rw [show i + (a :: pre).length = i + 1 + pre.length by simp; omega]
        exact he

/-- Short circuit at the required count: let the required count `M` of an attestor set
(after expansion) be at least `1` and let at least `M` of its entries verify.  Then the
entries split as
`pre ++ e :: post`, where `e` is the `M`-th entry that verifies, and, the entries of `pre`
returning (as every entry without nested attestor set does), `verifyAttestorSet`
verifies the entries in declared order up to and including `e`, makes no call for the
entries of `post`, and returns the response of `e` with no error, whether or not
entries of `pre` failed. -/
theorem verifyAttestorSet_short_circuit {σ : Type} (env : Env σ) (attestorSet : AttestorSet)
    (imageVerify : ImageVerification) (imageInfo : ImageInfo) (path predicateType : String)
    (hM : 1 ≤ getRequiredCount (expandStaticKeys attestorSet))
    (hcount : getRequiredCount (expandStaticKeys attestorSet) ≤
      (countVerified env imageVerify imageInfo path predicateType
        (expandStaticKeys attestorSet).Entries 0 : Int)) :
    ∃ (pre : List Attestor) (e : Attestor) (post : List Attestor) (ce : List Call)
      (resp : Option cosign.Response),
      (expandStaticKeys attestorSet).Entries = pre ++ e :: post ∧
        (countVerified env imageVerify imageInfo path predicateType pre 0 : Int) + 1 =
          getRequiredCount (expandStaticKeys attestorSet) ∧
        entryOutcome env imageVerify imageInfo predicateType e
          (path ++ ".entries[" ++ toString pre.length ++ "]") = (ce, .done ⟨resp, none⟩) ∧
        (entriesReturn env imageVerify imageInfo path predicateType pre 0 = true →
          verifyAttestorSet env attestorSet imageVerify imageInfo path predicateType =
            (entriesCalls env imageVerify imageInfo path predicateType (pre ++ [e]) 0,
              .done ⟨resp, none⟩)) ∧
        ((∀ a ∈ pre, a.Attestor = none) →
          entriesReturn env imageVerify imageInfo path predicateType pre 0 = true) := by
  obtain ⟨pre, e, post, hsplit, hpre, he⟩ :=
    countVerified_split env imageVerify imageInfo path predicateType
      (getRequiredCount (expandStaticKeys attestorSet)) (expandStaticKeys attestorSet).Entries 0
      (0 : Int) (by omega) (by simpa using hcount)
  simp only [zero_add] at hpre he
  obtain ⟨ce, resp, hout⟩ := entryVerifies_true env imageVerify imageInfo predicateType e _ he
  refine ⟨pre, e, post, ce, resp, hsplit, hpre, hout, ?_, ?_⟩
  · intro hreturn
    rw [verifyAttestorSet_eq, hsplit, entriesCalls_append]
    rw [verifyEntries_threshold env imageVerify imageInfo path predicateType _ pre e post ce resp
      0 0 [] hreturn (by simpa using hpre) (by simpa using hout)]
    simp [entriesCalls, hout]
  · intro hflat
    have hgen : ∀ (l : List Attestor) (i : Nat), (∀ a ∈ l, a.Attestor = none) →
        entriesReturn env imageVerify imageInfo path predicateType l i = true := by
      intro l
      induction l with
      | nil => intro i _; rfl
      | cons a l ih =>
        intro i hl
        simp only [entriesReturn, Bool.and_eq_true]
        exact ⟨(entryReturns_flat env imageVerify imageInfo predicateType a _
          (hl a (List.mem_cons_self _ _))).1, ih (i + 1) (fun b hb => hl b (List.mem_cons_of_mem _ hb))⟩
    exact hgen pre 0 hflat

/-- Witness of `verifyAttestorSet_short_circuit`: `count = 2` and the entries `A`, `B`,
`C`, of which `A` and `C` verify and `B` fails. -/
theorem verifyAttestorSet_short_circuit_witness :
    ∃ (pre : List Attestor) (e : Attestor) (post : List Attestor) (ce : List Call)
      (resp : Option cosign.Response),
      (expandStaticKeys (AttestorSet.mk (some 2)
          [keyEntry "A", keyEntry "B", keyEntry "C"])).Entries = pre ++ e :: post ∧
        (countVerified (Example.env Example.acceptAC ("", none)) (Example.clause [] false)
          Example.image ".attestors[0]" "" pre 0 : Int) + 1 =
          getRequiredCount (expandStaticKeys (AttestorSet.mk (some 2)
            [keyEntry "A", keyEntry "B", keyEntry "C"])) ∧
        entryOutcome (Example.env Example.acceptAC ("", none)) (Example.clause [] false)
          Example.image "" e (".attestors[0]" ++ ".entries[" ++ toString pre.length ++ "]") =
          (ce, .done ⟨resp, none⟩) ∧
        (entriesReturn (Example.env Example.acceptAC ("", none)) (Example.clause [] false)
            Example.image ".attestors[0]" "" pre 0 = true →
          verifyAttestorSet (Example.env Example.acceptAC ("", none))
              (AttestorSet.mk (some 2) [keyEntry "A", keyEntry "B", keyEntry "C"])
              (Example.clause [] false) Example.image ".attestors[0]" "" =
            (entriesCalls (Example.env Example.acceptAC ("", none)) (Example.clause [] false)
              Example.image ".attestors[0]" "" (pre ++ [e]) 0, .done ⟨resp, none⟩)) ∧
        ((∀ a ∈ pre, a.Attestor = none) →
          entriesReturn (Example.env Example.acceptAC ("", none)) (Example.clause [] false)
            Example.image ".attestors[0]" "" pre 0 = true) :=
  verifyAttestorSet_short_circuit (Example.env Example.acceptAC ("", none))
    (AttestorSet.mk (some 2) [keyEntry "A", keyEntry "B", keyEntry "C"])
    (Example.clause [] false) Example.image ".attestors[0]" "" (by decide) (by decide)

/-- The run on `count = 2` and the entries `A`, `B`, `C`, `D`, of which `A` and `C`
verify: the verifier is called for `A`, `B` and `C` in this order, not for `D`, and the
response of `C` is returned. -/
theorem verifyAttestorSet_two_of_three :
    verifyAttestorSet (Example.env Example.acceptAC ("", none))
        (AttestorSet.mk (some 2) [keyEntry "A", keyEntry "B", keyEntry "C", keyEntry "D"])
        (Example.clause [] false) Example.image ".attestors[0]" "" =
      ([Call.VerifySignature (buildOptionsAndPath (keyEntry "A") (Example.clause [] false)
          Example.image.String ⟨"", [], []⟩).1,
        Call.VerifySignature (buildOptionsAndPath (keyEntry "B") (Example.clause [] false)
          Example.image.String ⟨"", [], []⟩).1,
        Call.VerifySignature (buildOptionsAndPath (keyEntry "C") (Example.clause [] false)
          Example.image.String ⟨"", [], []⟩).1],
        .done ⟨some ⟨"sha256:aaaa", []⟩, none⟩) := by
  rfl

/-- C3 fails on the code: the set requires one signature and has two entries, a nested
attestor set that requires two signatures and has the single entry `A`, and the entry
`A`, which verifies.  One entry verifies, as many as required, yet `verifyAttestorSet`
does not return: the nested set ends its entry loop with one signature of two and no
error to combine, and panics in `err.Error()`, after the one call for the entry of the
nested set; the entry `A` of the outer set is never tried.  With a nested set that
requires one signature the same set returns the response of the nested entry. -/
theorem verifyAttestorSet_panics_in_nested_set :
    getRequiredCount (expandStaticKeys (AttestorSet.mk (some 1)
        [nestedEntry (AttestorSet.mk (some 2) [keyEntry "A"]), keyEntry "A"])) = 1 ∧
      countVerified (Example.env Example.acceptAC ("", none)) (Example.clause [] false)
        Example.image ".attestors[0]" ""
        (expandStaticKeys (AttestorSet.mk (some 1)
          [nestedEntry (AttestorSet.mk (some 2) [keyEntry "A"]), keyEntry "A"])).Entries 0 = 1 ∧
      entryVerifies (Example.env Example.acceptAC ("", none)) (Example.clause [] false)
        Example.image "" (keyEntry "A") ".attestors[0].entries[1]" = true ∧
      verifyAttestorSet (Example.env Example.acceptAC ("", none))
        (AttestorSet.mk (some 1)
          [nestedEntry (AttestorSet.mk (some 2) [keyEntry "A"]), keyEntry "A"])
        (Example.clause [] false) Example.image ".attestors[0]" "" =
        ([Call.VerifySignature (buildOptionsAndPath (keyEntry "A") (Example.clause [] false)
            Example.image.String ⟨"", [], []⟩).1], .panicked) ∧
      verifyAttestorSet (Example.env Example.acceptAC ("", none))
        (AttestorSet.mk (some 1)
          [nestedEntry (AttestorSet.mk (some 1) [keyEntry "A"]), keyEntry "A"])
        (Example.clause [] false) Example.image ".attestors[0]" "" =
        ([Call.VerifySignature (buildOptionsAndPath (keyEntry "A") (Example.clause [] false)
            Example.image.String ⟨"", [], []⟩).1], .done ⟨some ⟨"sha256:aaaa", []⟩, none⟩) :=
  ⟨by rfl, by rfl, by rfl, by rfl, by rfl⟩

/-! ## The code after the entry loop (C2) -/

/-- When the entries of an attestor set run out with the verified count below the
required count, `verifyAttestorSet` has tried every entry; it returns the combined
error of the entries and no response when at least one entry failed, and it panics in
`err.Error()` when no entry failed. -/
theorem verifyAttestorSet_exhausted {σ : Type} (env : Env σ) (attestorSet : AttestorSet)
    (imageVerify : ImageVerification) (imageInfo : ImageInfo) (path predicateType : String)
    (hreturn : entriesReturn env imageVerify imageInfo path predicateType
      (expandStaticKeys attestorSet).Entries 0 = true)
    (hcount : (countVerified env imageVerify imageInfo path predicateType
        (expandStaticKeys attestorSet).Entries 0 : Int) <
      getRequiredCount (expandStaticKeys attestorSet)) :
    verifyAttestorSet env attestorSet imageVerify imageInfo path predicateType =
      (entriesCalls env imageVerify imageInfo path predicateType
          (expandStaticKeys attestorSet).Entries 0,
        match multierr.Combine (entriesErrors env imageVerify imageInfo path predicateType
            (expandStaticKeys attestorSet).Entries 0) with
        | none => .panicked
        | some err => .done ⟨none, some err⟩) := by
  rw [verifyAttestorSet_eq]
  rw [verifyEntries_exhausted env imageVerify imageInfo path predicateType _ _ 0 0 [] hreturn
    (by simpa using hcount)]
  simp

/-- C2 fails on the code: with `count = 2` and the single entry `A`, which verifies,
the entry loop ends with the verified count `1` below the required count `2`, there is
no error to combine, and `verifyAttestorSet` panics instead of returning an error. -/
theorem verifyAttestorSet_panics_without_entry_error :
    countVerified (Example.env Example.acceptAC ("", none)) (Example.clause [] false)
        Example.image ".attestors[0]" ""
        (expandStaticKeys (AttestorSet.mk (some 2) [keyEntry "A"])).Entries 0 = 1 ∧
      getRequiredCount (expandStaticKeys (AttestorSet.mk (some 2) [keyEntry "A"])) = 2 ∧
      multierr.Combine (entriesErrors (Example.env Example.acceptAC ("", none))
        (Example.clause [] false) Example.image ".attestors[0]" ""
        (expandStaticKeys (AttestorSet.mk (some 2) [keyEntry "A"])).Entries 0) = none ∧
      (verifyAttestorSet (Example.env Example.acceptAC ("", none))
        (AttestorSet.mk (some 2) [keyEntry "A"]) (Example.clause [] false) Example.image
        ".attestors[0]" "").2 = .panicked :=
  ⟨by rfl, by rfl, by rfl, by rfl⟩

/-! ## Network errors and verification failures (C5) -/

theorem anyAsOpError_append (xs ys : List GoError) :
    GoError.anyAsOpError (xs ++ ys) = (GoError.anyAsOpError xs || GoError.anyAsOpError ys) := by
  induction xs with
  | nil => simp [GoError.anyAsOpError]
  | cons x xs ih => simp [GoError.anyAsOpError, ih, Bool.or_assoc]

theorem anyAsOpError_flatten (errs : List GoError) :
    GoError.anyAsOpError (multierr.flatten errs) = GoError.anyAsOpError errs := by
  induction errs with
  | nil => simp [multierr.flatten]
  | cons x xs ih =>
    cases x with
    | multi es =>
      simp [multierr.flatten, anyAsOpError_append, GoError.anyAsOpError, GoError.asOpError, ih]
    | opError m => simp [multierr.flatten, GoError.anyAsOpError, ih]
    | errorf m => simp [multierr.flatten, GoError.anyAsOpError, ih]
    | wrap c m => simp [multierr.flatten, GoError.anyAsOpError, ih]

theorem anyAsOpError_iff (errs : List GoError) :
    GoError.anyAsOpError errs = true ↔ ∃ x ∈ errs, x.asOpError = true := by
  induction errs with
  | nil => simp [GoError.anyAsOpError]
  | cons x xs ih => simp [GoError.anyAsOpError, ih]

/-- A combined error has a network error in its chain exactly when one of the combined
errors has. -/
theorem asOpError_Combine (errs : List GoError) (e : GoError)
    (h : multierr.Combine errs = some e) :
    e.asOpError = true ↔ ∃ x ∈ errs, x.asOpError = true := by
  rw [← anyAsOpError_iff]
  match errs, h with
  | [x], h =>
    simp only [multierr.Combine, Option.some.injEq] at h
    subst h
    simp [GoError.anyAsOpError]
  | x :: y :: rest, h =>
    simp only [multierr.Combine, Option.some.injEq] at h
    subst h
    simp only [GoError.asOpError]
    rw [anyAsOpError_flatten]

/-- The loop of `verifyAttestors` returns at the first attestor set for which
`verifyAttestorSet` returns an error. -/
theorem verifyAttestorsLoop_error {σ : Type} (env : Env σ) (rule : Rule)
    (imageVerify : ImageVerification) (imageInfo : ImageInfo) (predicateType : String)
    (pre : List AttestorSet) (s : AttestorSet) (post : List AttestorSet) (c : List Call)
    (resp : Option cosign.Response) (e : GoError) :
    ∀ (i : Nat) (cr : Option cosign.Response) (na : List AttestorSet),
      setsVerify env imageVerify imageInfo predicateType pre i = true →
      verifyAttestorSet env s imageVerify imageInfo
          (".attestors[" ++ toString (i + pre.length) ++ "]") predicateType =
        (c, .done ⟨resp, some e⟩) →
      verifyAttestorsLoop env rule imageVerify imageInfo predicateType (pre ++ s :: post) i cr na =
        (setsCalls env imageVerify imageInfo predicateType pre i ++ c,
          .done (ruleResponse rule RuleType.ImageVerify
            ("failed to verify image " ++ imageInfo.String ++ ": " ++ e.Error)
            (if e.asOpError then RuleStatus.Error else RuleStatus.Fail), none, [])) := by
  induction pre with
  | nil =>
    intro i cr na _ hs
    simp only [List.length_nil, Nat.add_zero] at hs
    simp only [List.nil_append, verifyAttestorsLoop, hs, setsCalls]
    cases e.asOpError <;> simp
  | cons a pre ih =>
    intro i cr na hpre hs
    simp only [setsVerify, Bool.and_eq_true] at hpre
    obtain ⟨c0, r, ho, hr⟩ := setVerifies_true env imageVerify imageInfo predicateType a i hpre.1
    rw [show i + (a :: pre).length = i + 1 + pre.length by simp; omega] at hs
    rw [List.cons_append]
    simp only [verifyAttestorsLoop, ho, hr, andThen, setsCalls, setOutcome]
    rw [ih (i + 1) r.resp (na ++ [a]) hpre.2 hs]
    simp

/-- C5: let `s` be the first attestor set of the list for which `verifyAttestorSet`
returns an error `e`, the sets before it verifying.  Then `verifyAttestors` returns a
rule response of status `Error` when `e` has a network error (`*net.OpError`) in its
chain and of status `Fail` otherwise; its message contains the image reference, and no
verifier response is returned.  The chain of a combined multi-error contains a network
error as soon as one of the combined errors does, also across `errors.Wrapf`. -/
theorem verifyAttestors_error_status {σ : Type} (env : Env σ) (rule : Rule)
    (imageVerify : ImageVerification) (imageInfo : ImageInfo) (predicateType : String)
    (pre : List AttestorSet) (s : AttestorSet) (post : List AttestorSet) (c : List Call)
    (resp : Option cosign.Response) (e : GoError)
    (hpre : setsVerify env imageVerify imageInfo predicateType pre 0 = true)
    (hs : verifyAttestorSet env s imageVerify imageInfo
      (".attestors[" ++ toString pre.length ++ "]") predicateType = (c, .done ⟨resp, some e⟩)) :
    (∃ (calls : List Call) (rr : RuleResponse),
      verifyAttestors env rule (pre ++ s :: post) imageVerify imageInfo predicateType =
          (calls, .done (rr, none, [])) ∧
        rr.Status = (if e.asOpError then RuleStatus.Error else RuleStatus.Fail) ∧
        occursIn imageInfo.String rr.Message ∧ rr.Patches = []) ∧
      (∀ errs : List GoError, multierr.Combine errs = some e →
        (e.asOpError = true ↔ ∃ x ∈ errs, x.asOpError = true)) ∧
      (∀ (cause : GoError) (msg : String), (GoError.wrap cause msg).asOpError = cause.asOpError) := by
  refine ⟨⟨setsCalls env imageVerify imageInfo predicateType pre 0 ++ c,
      ruleResponse rule RuleType.ImageVerify
      ("failed to verify image " ++ imageInfo.String ++ ": " ++ e.Error)
      (if e.asOpError then RuleStatus.Error else RuleStatus.Fail), ?_, rfl, ?_, rfl⟩,
    fun errs h => asOpError_Combine errs e h, fun _ _ => rfl⟩
  · unfold verifyAttestors
    exact verifyAttestorsLoop_error env rule imageVerify imageInfo predicateType pre s post c resp e
      0 none [] hpre (by simpa using hs)
  · exact ⟨"failed to verify image ", ": " ++ e.Error, by
      simp [ruleResponse, String.append_assoc]⟩

/-- Witness of `verifyAttestors_error_status`: the sole attestor cannot be verified
because the registry is unreachable; the status is `Error`. -/
theorem verifyAttestors_error_status_witness :
    (∃ (calls : List Call) (rr : RuleResponse),
      verifyAttestors (Example.env Example.unreachable ("", none)) Example.rule
          ([] ++ AttestorSet.mk none [keyEntry "A"] :: [])
          (Example.clause [AttestorSet.mk none [keyEntry "A"]] false) Example.image "" =
          (calls, .done (rr, none, [])) ∧
        rr.Status = RuleStatus.Error ∧
        occursIn Example.image.String rr.Message ∧ rr.Patches = []) :=
  (verifyAttestors_error_status (Example.env Example.unreachable ("", none)) Example.rule
    (Example.clause [AttestorSet.mk none [keyEntry "A"]] false) Example.image ""
    [] (AttestorSet.mk none [keyEntry "A"]) []
    [Call.VerifySignature
      (buildOptionsAndPath (keyEntry "A")
        (Example.clause [AttestorSet.mk none [keyEntry "A"]] false)
        Example.image.String ⟨"", [], []⟩).1]
    none
    (.wrap (.wrap (.opError "dial tcp 10.0.0.1:443: i/o timeout") "failed to fetch signatures")
      ".attestors[0].entries[0].keys")
    (by rfl) (by rfl)).1

/-! ## Digest mutation in `verify` (C6, C7) -/

/-- The rule responses built by `ruleResponse` carry no patch. -/
theorem ruleResponse_Patches (rule : Rule) (t : RuleType) (msg : String) (status : RuleStatus) :
    (ruleResponse rule t msg status).Patches = [] := rfl

theorem attestationEntriesLoop_plain {σ : Type} (env : Env σ) (rule : Rule)
    (imageVerify : ImageVerification) (imageInfo : ImageInfo) (i : Nat) (attestation : Attestation)
    (attestorPath : String) (requiredCount : Int) (entries : List Attestor) :
    ∀ (verifiedCount : Int) (ctx ctx2 : σ) (calls : List Call) (rr : RuleResponse) (d : String),
      attestationEntriesLoop env rule imageVerify imageInfo i attestation attestorPath
          requiredCount entries verifiedCount ctx = (ctx2, calls, .done (some (rr, d))) →
        d = "" ∧ rr.Patches = [] := by
  induction entries with
  | nil => intro v ctx ctx2 calls rr d h; simp [attestationEntriesLoop] at h
  | cons a rest ih =>
    intro v ctx ctx2 calls rr d h
    simp only [attestationEntriesLoop] at h
    split at h
    · split at h <;>
        (simp only [Prod.mk.injEq, Run.done.injEq, Option.some.injEq] at h
         obtain ⟨-, -, rfl, rfl⟩ := h
         exact ⟨rfl, rfl⟩)
    · split at h
      · simp at h
      · split at h
        · simp at h
        · simp only [Prod.mk.injEq, Run.done.injEq, Option.some.injEq] at h
          obtain ⟨-, -, rfl, rfl⟩ := h
          exact ⟨rfl, rfl⟩
        · split at h
          · simp only [Prod.mk.injEq, Run.done.injEq, Option.some.injEq] at h
            obtain ⟨-, -, rfl, rfl⟩ := h
            exact ⟨rfl, rfl⟩
          · simp only [Prod.mk.injEq] at h
            obtain ⟨-, -, h3⟩ := h
            exact ih _ _ _ _ _ _ (Prod.ext rfl (Prod.ext rfl h3))

theorem attestationAttestorsLoop_plain {σ : Type} (env : Env σ) (rule : Rule)
    (imageVerify : ImageVerification) (imageInfo : ImageInfo) (i : Nat) (attestation : Attestation)
    (path : String) (sets : List AttestorSet) :
    ∀ (j : Nat) (ctx ctx2 : σ) (calls : List Call) (rr : RuleResponse) (d : String),
      attestationAttestorsLoop env rule imageVerify imageInfo i attestation path sets j ctx =
          (ctx2, calls, .done (some (rr, d))) →
        d = "" ∧ rr.Patches = [] := by
  induction sets with
  | nil => intro j ctx ctx2 calls rr d h; simp [attestationAttestorsLoop] at h
  | cons s rest ih =>
    intro j ctx ctx2 calls rr d h
    simp only [attestationAttestorsLoop] at h
    split at h
    · simp only [Prod.mk.injEq] at h
      obtain ⟨-, -, h3⟩ := h
      exact ih _ _ _ _ _ _ (Prod.ext rfl (Prod.ext rfl h3))
    · exact attestationEntriesLoop_plain env rule imageVerify imageInfo i attestation _ _ _ _ _ _ _
        _ _ h

theorem attestationsLoop_plain {σ : Type} (env : Env σ) (rule : Rule)
    (imageVerify : ImageVerification) (imageInfo : ImageInfo) (clauses : List Attestation) :
    ∀ (i : Nat) (ctx ctx2 : σ) (calls : List Call) (rr : RuleResponse) (d : String),
      attestationsLoop env rule imageVerify imageInfo clauses i ctx =
          (ctx2, calls, .done (rr, d)) →
        d = "" ∧ rr.Patches = [] := by
  induction clauses with
  | nil =>
    intro i ctx ctx2 calls rr d h
    simp only [attestationsLoop, Prod.mk.injEq, Run.done.injEq] at h
    obtain ⟨-, -, rfl, rfl⟩ := h
    exact ⟨rfl, rfl⟩
  | cons a rest ih =>
    intro i ctx ctx2 calls rr d h
    simp only [attestationsLoop] at h
    split at h
    · simp at h
    · rename_i heq
      simp only [Prod.mk.injEq, Run.done.injEq] at h
      obtain ⟨-, -, rfl⟩ := h
      exact attestationAttestorsLoop_plain env rule imageVerify imageInfo i a _ _ _ _ _ _ _ _ heq
    · simp only [Prod.mk.injEq] at h
      obtain ⟨-, -, h3⟩ := h
      exact ih _ _ _ _ _ _ (Prod.ext rfl (Prod.ext rfl h3))

theorem verifyAttestorsLoop_plain {σ : Type} (env : Env σ) (rule : Rule)
    (imageVerify : ImageVerification) (imageInfo : ImageInfo) (predicateType : String)
    (sets : List AttestorSet) :
    ∀ (i : Nat) (cr : Option cosign.Response) (na : List AttestorSet) (calls : List Call)
      (rr : RuleResponse) (resp : Option cosign.Response) (newAttestors : List AttestorSet),
      verifyAttestorsLoop env rule imageVerify imageInfo predicateType sets i cr na =
          (calls, .done (rr, resp, newAttestors)) →
        rr.Patches = [] := by
  induction sets with
  | nil =>
    intro i cr na calls rr resp newAttestors h
    simp only [verifyAttestorsLoop] at h
    split at h <;>
      (simp only [Prod.mk.injEq, Run.done.injEq] at h
       obtain ⟨-, rfl, -⟩ := h
       rfl)
  | cons s rest ih =>
    intro i cr na calls rr resp newAttestors h
    simp only [verifyAttestorsLoop] at h
    split at h
    · simp at h
    · split at h
      · split at h <;>
          (simp only [Prod.mk.injEq, Run.done.injEq] at h
           obtain ⟨-, rfl, -⟩ := h
           rfl)
      · simp only [andThen, Prod.mk.injEq] at h
        exact ih _ _ _ _ _ _ _ (Prod.ext rfl h.2)

/-- The method `verifyImage` never returns a digest, and the rule response it returns
carries no patch. -/
theorem verifyImage_plain {σ : Type} (env : Env σ) (rule : Rule) (ctx ctx2 : σ)
    (imageVerify : ImageVerification) (imageInfo : ImageInfo) (calls : List Call)
    (ruleResp : Option RuleResponse) (digest : String)
    (h : verifyImage env rule ctx imageVerify imageInfo = (ctx2, calls, .done (ruleResp, digest))) :
    digest = "" ∧ ∀ rr, ruleResp = some rr → rr.Patches = [] := by
  unfold verifyImage at h
  split at h
  · simp only [Prod.mk.injEq, Run.done.injEq] at h
    obtain ⟨-, -, rfl, rfl⟩ := h
    exact ⟨rfl, fun rr hrr => by simp at hrr⟩
  · split at h
    · simp only [Prod.mk.injEq, Run.done.injEq] at h
      obtain ⟨-, -, rfl, rfl⟩ := h
      exact ⟨rfl, fun rr hrr => by simp at hrr; subst hrr; rfl⟩
    · dsimp only at h
      split at h
      · simp at h
      · rename_i heq
        simp only [Prod.mk.injEq, Run.done.injEq] at h
        obtain ⟨-, -, rfl, rfl⟩ := h
        refine ⟨rfl, fun rr hrr => ?_⟩
        simp only [Option.some.injEq] at hrr
        subst hrr
        split at heq
        · split at heq
          · simp at heq
          · rename_i hva
            split at heq
            · simp only [Prod.mk.injEq, Run.done.injEq, Option.some.injEq] at heq
              obtain ⟨-, rfl⟩ := heq
              exact verifyAttestorsLoop_plain env rule imageVerify imageInfo "" _ _ _ _ _ _ _ _ hva
            · simp at heq
        · simp at heq
      · split at h
        · simp at h
        · rename_i heq
          simp only [Prod.mk.injEq, Run.done.injEq] at h
          obtain ⟨-, -, rfl, rfl⟩ := h
          have := attestationsLoop_plain env rule imageVerify imageInfo _ _ _ _ _ _ _ heq
          exact ⟨this.1, fun rr hrr => by simp at hrr; subst hrr; exact this.2⟩

/-- Digest mutation after `verifyImage`, for any digest and any response without patch
that `verifyImage` hands over: the resulting response carries a patch exactly when the
clause mutates digests, the image has no digest and a digest is at hand; a `Pass`
response of a mutating clause for an image without digest always carries one. -/
theorem mutateDigestStep_patch {σ : Type} (env : Env σ) (rule : Rule)
    (imageVerify : ImageVerification) (imageInfo : ImageInfo) (ruleResp : Option RuleResponse)
    (digest : String)
    (hplain : ∀ rr, ruleResp = some rr → rr.Patches = [])
    (calls : List Call) (out : Option RuleResponse) (image : String)
    (h : mutateDigestStep env rule imageVerify imageInfo ruleResp digest = (calls, out, image))
    (rr : RuleResponse) (hout : out = some rr) :
    (rr.Patches ≠ [] ↔
        imageVerify.MutateDigest = true ∧ imageInfo.Digest = "" ∧
          digestObtained env digest imageInfo) ∧
      (imageVerify.MutateDigest = true → imageInfo.Digest = "" → rr.Status = RuleStatus.Pass →
        rr.Patches ≠ []) := by
  subst hout
  unfold mutateDigestStep at h
  cases hm : imageVerify.MutateDigest with
  | false =>
    simp only [hm, Bool.false_eq_true, if_false, Prod.mk.injEq] at h
    have := hplain rr h.2.1
    simp [this]
  | true =>
    simp only [hm, if_true] at h
    by_cases hd : imageInfo.Digest = ""
    · by_cases hg : digest = ""
      · obtain ⟨d, err, hf⟩ : ∃ d err, env.FetchImageDescriptor imageInfo.String = (d, err) :=
          ⟨_, _, rfl⟩
        cases err with
        | some e =>
          simp only [handleMutateDigest, hd, hg, ne_eq, not_true_eq_false, if_false, if_true, hf,
            Prod.mk.injEq, Option.some.injEq] at h
          obtain ⟨-, rfl, -⟩ := h
          simp [hf, hg, digestObtained, ruleError, ruleResponse]
        | none =>
          simp only [handleMutateDigest, hd, hg, ne_eq, not_true_eq_false, if_false, if_true, hf,
            makeAddDigestPatch_eq, Prod.mk.injEq, Option.some.injEq] at h
          obtain ⟨-, rfl, -⟩ := h
          simp [hf, hd, digestObtained]
      · simp only [handleMutateDigest, hd, hg, ne_eq, not_true_eq_false, if_false,
          makeAddDigestPatch_eq, Prod.mk.injEq, Option.some.injEq] at h
        obtain ⟨-, rfl, -⟩ := h
        simp [hd, hg, digestObtained]
    · simp only [handleMutateDigest, ne_eq, hd, not_false_eq_true, if_true, Prod.mk.injEq] at h
      have := hplain rr h.2.1
      simp [this, hd]

/-- C6 as stated fails: a clause with `mutateDigest = true` whose only attestor rejects
the image (no digest in its reference) yields a rule response of status `Fail` that
carries the digest patch built from the registry descriptor. -/
theorem verify_patch_on_failed_response :
    Example.rulesOf (verify (Example.env Example.acceptAC ("sha256:bbbb", none)) Example.resource
        Example.resource Example.rule Example.state
        (Example.clause [AttestorSet.mk none [keyEntry "B"]] true) [Example.image]) =
      [{ Name := "check-image", Type_ := RuleType.ImageVerify,
         Message := "failed to verify image gcr.io/foo/bar:v1: " ++
           ".attestors[0].entries[0].keys: no matching signatures",
         Status := RuleStatus.Fail,
         Patches := [[("op", "replace"), ("path", "/spec/containers/0/image"),
           ("value", "gcr.io/foo/bar:v1@sha256:bbbb")]] }] ∧
      ¬ (∀ rr ∈ Example.rulesOf (verify (Example.env Example.acceptAC ("sha256:bbbb", none))
            Example.resource Example.resource Example.rule Example.state
            (Example.clause [AttestorSet.mk none [keyEntry "B"]] true) [Example.image]),
          (rr.Patches ≠ [] ↔
            (Example.clause [AttestorSet.mk none [keyEntry "B"]] true).MutateDigest = true ∧
              Example.image.Digest = "" ∧ rr.Status = RuleStatus.Pass)) := by
  decide

/-- C6, amended: when the loop body of `verify` appends a rule response for an image,
the response carries a digest patch if and only if the verify-images annotation was not
tampered with, the clause has `mutateDigest = true`, the image had no digest and a
digest was at hand (the digest that `verifyImage` handed over or, failing that, the
digest of the registry descriptor), whatever the status that the verification gave to
the response; a response of status `Pass` of a clause with `mutateDigest = true` for an
image without digest always carries the patch. -/
theorem verifyImageInfo_patch_iff {σ : Type} (env : Env σ)
    (newResource oldResource : unstructured.Unstructured) (rule : Rule)
    (imageVerify : ImageVerification) (st st2 : VerifierState σ) (imageInfo : ImageInfo)
    (calls : List Call) (rr : RuleResponse)
    (h : verifyImageInfo env newResource oldResource rule imageVerify st imageInfo =
      (calls, .done st2))
    (hrr : st2.resp.Rules = st.resp.Rules ++ [rr]) :
    (rr.Patches ≠ [] ↔
        hasImageVerifiedAnnotationChanged newResource oldResource = false ∧
          imageVerify.MutateDigest = true ∧ imageInfo.Digest = "" ∧
          ∃ (ctx : σ) (c1 : List Call) (ruleResp : Option RuleResponse) (digest : String),
            verifyImage env rule st.ctx imageVerify imageInfo =
              (ctx, c1, .done (ruleResp, digest)) ∧
            digestObtained env digest imageInfo) ∧
      (imageVerify.MutateDigest = true → imageInfo.Digest = "" → rr.Status = RuleStatus.Pass →
        rr.Patches ≠ []) := by
  have hne : ∀ (l : List RuleResponse), l ≠ l ++ [rr] := by
    intro l hl
    have := congrArg List.length hl
    simp at this
  unfold verifyImageInfo at h
  cases ht : hasImageVerifiedAnnotationChanged newResource oldResource with
  | true =>
    simp only [ht, if_true, Prod.mk.injEq, Run.done.injEq] at h
    obtain ⟨-, rfl⟩ := h
    simp only [incrementAppliedCount, List.append_cancel_left_eq, List.cons.injEq,
      and_true] at hrr
    subst hrr
    simp [ruleResponse]
  | false =>
    simp only [ht, Bool.false_eq_true, if_false] at h
    split at h
    · simp only [Prod.mk.injEq, Run.done.injEq] at h
      obtain ⟨-, rfl⟩ := h
      exact absurd hrr (hne _)
    · split at h
      · simp only [Prod.mk.injEq, Run.done.injEq] at h
        obtain ⟨-, rfl⟩ := h
        exact absurd hrr (hne _)
      · split at h
        · simp at h
        · rename_i ctx calls1 ruleResp digest hvi
          obtain ⟨-, hplain⟩ := verifyImage_plain env rule _ _ imageVerify imageInfo _ _ _ hvi
          obtain ⟨calls2, out, image, hmd⟩ : ∃ calls2 out image,
              mutateDigestStep env rule imageVerify imageInfo ruleResp digest =
                (calls2, out, image) := ⟨_, _, _, rfl⟩
          simp only [hmd, Prod.mk.injEq, Run.done.injEq] at h
          obtain ⟨-, rfl⟩ := h
          cases out with
          | none => exact absurd hrr (hne _)
          | some rr2 =>
            simp only [recordResponse, incrementAppliedCount, List.append_cancel_left_eq,
              List.cons.injEq, and_true] at hrr
            subst hrr
            have hstep := mutateDigestStep_patch env rule imageVerify imageInfo ruleResp digest
              hplain _ _ _ hmd rr2 rfl
            refine ⟨?_, hstep.2⟩
            rw [hstep.1]
            constructor
            · rintro ⟨h1, h2, h3⟩
              exact ⟨rfl, h1, h2, ctx, calls1, ruleResp, digest, hvi, h3⟩
            · rintro ⟨-, h1, h2, ctx2, c2, ruleResp2, digest2, heq, h3⟩
              rw [hvi] at heq
              simp only [Prod.mk.injEq, Run.done.injEq] at heq
              obtain ⟨-, -, -, rfl⟩ := heq
              exact ⟨h1, h2, h3⟩

/-- Witness of `verifyImageInfo_patch_iff`: a clause with `mutateDigest = true` whose
attestor `B` rejects the image `gcr.io/foo/bar:v1`; the response of status `Fail`
carries the patch with the digest of the registry descriptor. -/
theorem verifyImageInfo_patch_iff_witness :
    (Example.stateOf (verifyImageInfo (Example.env Example.acceptAC ("sha256:bbbb", none))
        Example.resource Example.resource Example.rule
        (Example.clause [AttestorSet.mk none [keyEntry "B"]] true) Example.state
        Example.image)).resp.Rules =
      Example.state.resp.Rules ++
        [{ Name := "check-image", Type_ := RuleType.ImageVerify,
           Message := "failed to verify image gcr.io/foo/bar:v1: " ++
             ".attestors[0].entries[0].keys: no matching signatures",
           Status := RuleStatus.Fail,
           Patches := [[("op", "replace"), ("path", "/spec/containers/0/image"),
             ("value", "gcr.io/foo/bar:v1@sha256:bbbb")]] }] ∧
      (([[("op", "replace"), ("path", "/spec/containers/0/image"),
            ("value", "gcr.io/foo/bar:v1@sha256:bbbb")]] : List (List (String × String))) ≠ [] ↔
        hasImageVerifiedAnnotationChanged Example.resource Example.resource = false ∧
          (Example.clause [AttestorSet.mk none [keyEntry "B"]] true).MutateDigest = true ∧
          Example.image.Digest = "" ∧
          ∃ (ctx : Unit) (c1 : List Call) (ruleResp : Option RuleResponse) (digest : String),
            verifyImage (Example.env Example.acceptAC ("sha256:bbbb", none)) Example.rule
                Example.state.ctx (Example.clause [AttestorSet.mk none [keyEntry "B"]] true)
                Example.image =
              (ctx, c1, .done (ruleResp, digest)) ∧
            digestObtained (Example.env Example.acceptAC ("sha256:bbbb", none)) digest
              Example.image) :=
  ⟨by decide,
    (verifyImageInfo_patch_iff (Example.env Example.acceptAC ("sha256:bbbb", none))
      Example.resource Example.resource Example.rule
      (Example.clause [AttestorSet.mk none [keyEntry "B"]] true) Example.state
      (Example.stateOf (verifyImageInfo (Example.env Example.acceptAC ("sha256:bbbb", none))
        Example.resource Example.resource Example.rule
        (Example.clause [AttestorSet.mk none [keyEntry "B"]] true) Example.state Example.image))
      Example.image
      (verifyImageInfo (Example.env Example.acceptAC ("sha256:bbbb", none))
        Example.resource Example.resource Example.rule
        (Example.clause [AttestorSet.mk none [keyEntry "B"]] true) Example.state Example.image).1
      { Name := "check-image", Type_ := RuleType.ImageVerify,
        Message := "failed to verify image gcr.io/foo/bar:v1: " ++
          ".attestors[0].entries[0].keys: no matching signatures",
        Status := RuleStatus.Fail,
        Patches := [[("op", "replace"), ("path", "/spec/containers/0/image"),
          ("value", "gcr.io/foo/bar:v1@sha256:bbbb")]] }
      (by rfl) (by decide)).1⟩

/-- The digest patch does not depend on where the digest comes from: handed the digest
`sha256:aaaa`, `handleMutateDigest` builds the patch with it and makes no call to the
registry, also when the registry cannot be reached. -/
theorem handleMutateDigest_reuses_digest :
    handleMutateDigest (Example.env Example.acceptAC
        ("", some (.opError "dial tcp 10.0.0.1:443: i/o timeout"))) "sha256:aaaa" Example.image =
      ([], some [("op", "replace"), ("path", "/spec/containers/0/image"),
        ("value", "gcr.io/foo/bar:v1@sha256:aaaa")], "sha256:aaaa", none) := by
  rfl

/-- C7 fails on the code: the verifier answers with the digest `sha256:aaaa`, the
clause has `mutateDigest = true` and the image has no digest; `verify` nevertheless
calls `FetchImageDescriptor` and pins the digest `sha256:bbbb` of the registry
descriptor, not the digest of the verifier. -/
theorem verify_ignores_verifier_digest :
    (Example.env Example.acceptAC ("sha256:bbbb", none)).VerifySignature
        (buildOptionsAndPath (keyEntry "A") (Example.clause [AttestorSet.mk none [keyEntry "A"]] true)
          Example.image.String ⟨"", [], []⟩).1 =
        ⟨some ⟨"sha256:aaaa", []⟩, none⟩ ∧
      (verify (Example.env Example.acceptAC ("sha256:bbbb", none)) Example.resource
        Example.resource Example.rule Example.state
        (Example.clause [AttestorSet.mk none [keyEntry "A"]] true) [Example.image]).1 =
        [Call.VerifySignature
            (buildOptionsAndPath (keyEntry "A")
              (Example.clause [AttestorSet.mk none [keyEntry "A"]] true)
              Example.image.String ⟨"", [], []⟩).1,
          Call.FetchImageDescriptor "gcr.io/foo/bar:v1"] ∧
      Example.rulesOf (verify (Example.env Example.acceptAC ("sha256:bbbb", none))
        Example.resource Example.resource Example.rule Example.state
        (Example.clause [AttestorSet.mk none [keyEntry "A"]] true) [Example.image]) =
        [{ Name := "check-image", Type_ := RuleType.ImageVerify,
           Message := "verified image attestations for gcr.io/foo/bar:v1",
           Status := RuleStatus.Pass,
           Patches := [[("op", "replace"), ("path", "/spec/containers/0/image"),
             ("value", "gcr.io/foo/bar:v1@sha256:bbbb")]] }] :=
  ⟨by rfl, by rfl, by rfl⟩

/-- Whatever the verifier answers, `verify` resolves the digest of an image without
digest through the registry: the digest handed to `handleMutateDigest` is empty
(`verifyImage_plain`), so `handleMutateDigest` calls `FetchImageDescriptor`. -/
theorem handleMutateDigest_fetches {σ : Type} (env : Env σ) (imageInfo : ImageInfo)
    (h : imageInfo.Digest = "") :
    (handleMutateDigest env "" imageInfo).1 = [Call.FetchImageDescriptor imageInfo.String] := by
  unfold handleMutateDigest
  obtain ⟨d, err, hf⟩ : ∃ d err, env.FetchImageDescriptor imageInfo.String = (d, err) :=
    ⟨_, _, rfl⟩
  cases err <;> simp [h, hf, makeAddDigestPatch_eq]

/-! ## Expansion of concatenated PEM blocks (C9, C10) -/

namespace strings

theorem splitAfterGo_skip_one (sep : List Char) (c : Char) (s cur : List Char) :
    splitAfterGo sep (c :: s) cur 1 = (cur ++ [c]) :: splitAfterGo sep s [] 0 := by
  simp [splitAfterGo]

theorem splitAfterGo_skip_succ (sep : List Char) (c : Char) (s cur : List Char) (k : Nat) :
    splitAfterGo sep (c :: s) cur (k + 2) = splitAfterGo sep s (cur ++ [c]) (k + 1) := by
  simp [splitAfterGo]

theorem splitAfterGo_no_match (sep : List Char) (c : Char) (s cur : List Char)
    (h : sep.isPrefixOf (c :: s) = false) :
    splitAfterGo sep (c :: s) cur 0 = splitAfterGo sep s (cur ++ [c]) 0 := by
  simp [splitAfterGo, h]

/-- An occurrence of the separator found at the current position is copied like an
occurrence found earlier of which every character remains. -/
theorem splitAfterGo_found (sep : List Char) (c : Char) (s cur : List Char)
    (hsep : sep ≠ []) (h : sep.isPrefixOf (c :: s) = true) :
    splitAfterGo sep (c :: s) cur 0 = splitAfterGo sep (c :: s) cur sep.length := by
  have hlen : sep.length ≠ 0 := by simpa using hsep
  simp [splitAfterGo, h, hlen]

/-- Copy of the remaining characters `w` of an occurrence of the separator. -/
theorem splitAfterGo_copy (sep : List Char) (w : List Char) :
    ∀ (rest cur : List Char), w ≠ [] →
      splitAfterGo sep (w ++ rest) cur w.length = (cur ++ w) :: splitAfterGo sep rest [] 0 := by
  induction w with
  | nil => intro rest cur h; exact absurd rfl h
  | cons c w ih =>
    intro rest cur _
    cases w with
    | nil =>
      rw [List.cons_append, List.nil_append]
      exact splitAfterGo_skip_one sep c rest cur
    | cons c2 w2 =>
      have := ih rest (cur ++ [c]) (by simp)
      rw [List.cons_append]
      simp only [List.length_cons] at this ⊢
      rw [splitAfterGo_skip_succ, this]
      simp

/-- Scan of a text `p ++ sep` in which the separator occurs only at the end: one piece
is cut after `sep`. -/
theorem splitAfterGo_block (sep : List Char) (hsep : sep ≠ []) (p : List Char) :
    ∀ (rest cur : List Char), (∀ a b : List Char, p ++ sep = a ++ sep ++ b → b = []) →
      splitAfterGo sep (p ++ sep ++ rest) cur 0 =
        (cur ++ p ++ sep) :: splitAfterGo sep rest [] 0 := by
  induction p with
  | nil =>
    intro rest cur _
    obtain ⟨c, s, hs⟩ : ∃ c s, sep = c :: s := by
      cases sep with
      | nil => exact absurd rfl hsep
      | cons c s => exact ⟨c, s, rfl⟩
    have hpre : sep.isPrefixOf (sep ++ rest) = true := by
      rw [List.isPrefixOf_iff_prefix]; exact List.prefix_append _ _
    simp only [List.nil_append, List.append_nil]
    have h1 : sep ++ rest = c :: (s ++ rest) := by rw [hs]; rfl
    rw [h1] at hpre ⊢
    rw [splitAfterGo_found sep c (s ++ rest) cur hsep hpre, ← h1]
    exact splitAfterGo_copy sep sep rest cur hsep
  | cons c p ih =>
    intro rest cur huniq
    have hnot : sep.isPrefixOf (c :: (p ++ sep ++ rest)) = false := by
      rw [Bool.eq_false_iff]
      intro hpre
      rw [List.isPrefixOf_iff_prefix] at hpre
      have h2 : (c :: p ++ sep) <+: (c :: (p ++ sep ++ rest)) := ⟨rest, by simp⟩
      have h3 : sep <+: (c :: p ++ sep) :=
        List.prefix_of_prefix_length_le hpre h2 (by simp; omega)
      obtain ⟨b, hb⟩ := h3
      have hb0 := huniq [] b (by simpa using hb.symm)
      subst hb0
      have := congrArg List.length hb
      simp at this
      omega
    have hp : ∀ a b : List Char, p ++ sep = a ++ sep ++ b → b = [] := by
      intro a b hab
      exact huniq (c :: a) b (by simp [hab])
    have := ih rest (cur ++ [c]) hp
    simp only [List.cons_append, List.append_assoc] at this hnot ⊢
    rw [splitAfterGo_no_match sep c _ cur hnot]
    simpa using this

end strings

theorem pemEnd_data_ne_nil : pemEnd.data ≠ [] := by decide

/-- Scan of a concatenation of key blocks: one piece per block and an empty last
piece. -/
theorem splitAfterGo_concatKeys (ks : List String) (h : ∀ k ∈ ks, isKeyBlock k) :
    strings.splitAfterGo pemEnd.data (concatKeys ks).data [] 0 = ks.map String.data ++ [[]] := by
  induction ks with
  | nil => simp [concatKeys, strings.splitAfterGo]
  | cons k ks ih =>
    obtain ⟨⟨body, hbody⟩, huniq⟩ := h k (List.mem_cons_self _ _)
    have hrest := ih (fun k2 hk2 => h k2 (List.mem_cons_of_mem _ hk2))
    have hk : k.data = body.data ++ pemEnd.data := by rw [hbody]; rfl
    have huniqL : ∀ a b : List Char, body.data ++ pemEnd.data = a ++ pemEnd.data ++ b → b = [] := by
      intro a b hab
      have := huniq ⟨a⟩ ⟨b⟩ (String.ext (by simp [hk, hab]))
      simpa using congrArg String.data this
    simp only [concatKeys, String.data_append, hk, List.map_cons, List.cons_append]
    rw [strings.splitAfterGo_block pemEnd.data pemEnd_data_ne_nil body.data _ [] huniqL, hrest]
    simp

/-- Splitting a concatenation of key blocks after the marker gives the blocks and an
empty last piece. -/
theorem SplitAfter_concatKeys (ks : List String) (h : ∀ k ∈ ks, isKeyBlock k) :
    strings.SplitAfter (concatKeys ks) pemEnd = ks ++ [""] := by
  unfold strings.SplitAfter
  rw [if_neg pemEnd_data_ne_nil, splitAfterGo_concatKeys ks h]
  simp [List.map_map, Function.comp_def]

/-- The function `splitPEM` returns the key blocks of a concatenation of key blocks. -/
theorem splitPEM_concatKeys (ks : List String) (h : ∀ k ∈ ks, isKeyBlock k) :
    splitPEM (concatKeys ks) = ks := by
  unfold splitPEM
  rw [show "-----END PUBLIC KEY-----" = pemEnd from rfl, SplitAfter_concatKeys ks h]
  simp

theorem createStaticKeyAttestors_eq (keys : List String) :
    createStaticKeyAttestors keys = keys.map keyEntry := rfl

theorem countVerified_le_length {σ : Type} (env : Env σ) (imageVerify : ImageVerification)
    (imageInfo : ImageInfo) (path predicateType : String) (es : List Attestor) :
    ∀ i : Nat, countVerified env imageVerify imageInfo path predicateType es i ≤ es.length := by
  induction es with
  | nil => intro i; simp [countVerified]
  | cons a rest ih =>
    intro i
    have := ih (i + 1)
    simp only [countVerified, List.length_cons]
    split <;> omega

theorem entryVerifies_keyEntry {σ : Type} (env : Env σ) (imageVerify : ImageVerification)
    (imageInfo : ImageInfo) (predicateType : String) (k attestorPath : String) :
    entryVerifies env imageVerify imageInfo predicateType (keyEntry k) attestorPath =
      (env.VerifySignature (buildOptionsAndPath (keyEntry k) imageVerify imageInfo.String
        ⟨predicateType, [], []⟩).1).err.isNone := by
  simp only [entryVerifies, entryOutcome, verifyEntry, keyEntry, Attestor.Attestor]
  cases (env.VerifySignature _).err <;> rfl

/-- When every one of the key entries counts as verified, the verifier succeeds on
every key. -/
theorem countVerified_keyEntries {σ : Type} (env : Env σ) (imageVerify : ImageVerification)
    (imageInfo : ImageInfo) (path predicateType : String) (ks : List String) :
    ∀ i : Nat,
      ks.length ≤ countVerified env imageVerify imageInfo path predicateType (ks.map keyEntry) i →
      ∀ k ∈ ks, (env.VerifySignature (buildOptionsAndPath (keyEntry k) imageVerify imageInfo.String
        ⟨predicateType, [], []⟩).1).err = none := by
  induction ks with
  | nil => intro i _ k hk; simp at hk
  | cons k0 rest ih =>
    intro i hcount k hk
    have hle := countVerified_le_length env imageVerify imageInfo path predicateType
      (rest.map keyEntry) (i + 1)
    simp only [List.map_cons, countVerified, List.length_cons, List.length_map] at hcount hle
    rw [entryVerifies_keyEntry] at hcount
    rcases List.mem_cons.1 hk with rfl | hk
    · cases herr : (env.VerifySignature (buildOptionsAndPath (keyEntry k) imageVerify
          imageInfo.String ⟨predicateType, [], []⟩).1).err with
      | none => rfl
      | some e =>
        rw [herr] at hcount
        simp at hcount
        omega
    · refine ih (i + 1) ?_ k hk
      split at hcount <;> omega

/-- A text that passes `keyBlockCheck` is a key block. -/
theorem isKeyBlock_of_check (k : String) (h : keyBlockCheck k = true) : isKeyBlock k := by
  simp only [keyBlockCheck, Bool.and_eq_true, List.all_eq_true, Bool.or_eq_true,
    Bool.not_eq_true', beq_iff_eq] at h
  obtain ⟨hsuf, hall⟩ := h
  constructor
  · rw [List.isSuffixOf_iff_suffix] at hsuf
    obtain ⟨body, hbody⟩ := hsuf
    exact ⟨⟨body⟩, String.ext (by simp [hbody])⟩
  · intro a b hab
    have hdata : k.data = a.data ++ (pemEnd.data ++ b.data) := by
      rw [hab]; simp
    have hmem : pemEnd.data ++ b.data ∈ k.data.tails := by
      rw [List.mem_tails]; exact ⟨a.data, hdata.symm⟩
    rcases hall _ hmem with hpre | heq
    · have : pemEnd.data.isPrefixOf (pemEnd.data ++ b.data) = true := by
        rw [List.isPrefixOf_iff_prefix]; exact List.prefix_append _ _
      rw [this] at hpre
      exact absurd hpre (by decide)
    · have hb : b.data = [] := by simpa using heq
      exact String.ext hb

theorem concatKeys_singleton (k : String) : concatKeys [k] = k := by
  simp [concatKeys]

/-- Key blocks given one per entry are left as they are by the expansion. -/
theorem expandEntries_keyEntries (ks : List String) (h : ∀ k ∈ ks, isKeyBlock k) :
    expandEntries (ks.map keyEntry) = ks.map keyEntry := by
  induction ks with
  | nil => rfl
  | cons k rest ih =>
    have hk : splitPEM k = [k] := by
      have := splitPEM_concatKeys [k] (fun k2 hk2 => h k2 (by
        rw [List.mem_singleton] at hk2; rw [hk2]; exact List.mem_cons_self _ _))
      rwa [concatKeys_singleton] at this
    have hrest := ih (fun k2 hk2 => h k2 (List.mem_cons_of_mem _ hk2))
    simp only [List.map_cons]
    rw [expandEntries]
    simp [keyEntry, Attestor.Keys, hk]
    simpa [keyEntry] using hrest

/-- C9: for `N ≥ 2` key blocks `k1 .. kN`, each ending with the marker
`-----END PUBLIC KEY-----` and containing it nowhere else, `expandStaticKeys` turns the
attestor set whose single entry holds `k1 ++ ... ++ kN` into the attestor set with the
`N` entries holding `k1`, ..., `kN` and the same count; the two attestor sets are
verified alike; with the count unset the required count after expansion is `N`, and
`verifyAttestorSet` returns without error only if the verifier succeeds on every one of
the `N` keys. -/
theorem expandStaticKeys_concatKeys (count : Option Int) (ks : List String)
    (hN : 2 ≤ ks.length) (hk : ∀ k ∈ ks, isKeyBlock k) :
    expandStaticKeys (AttestorSet.mk count [keyEntry (concatKeys ks)]) =
        AttestorSet.mk count (ks.map keyEntry) ∧
      (∀ {σ : Type} (env : Env σ) (imageVerify : ImageVerification) (imageInfo : ImageInfo)
        (path predicateType : String),
        verifyAttestorSet env (AttestorSet.mk count [keyEntry (concatKeys ks)]) imageVerify
            imageInfo path predicateType =
          verifyAttestorSet env (AttestorSet.mk count (ks.map keyEntry)) imageVerify imageInfo
            path predicateType) ∧
      getRequiredCount (expandStaticKeys (AttestorSet.mk none [keyEntry (concatKeys ks)])) =
        (ks.length : Int) ∧
      (∀ {σ : Type} (env : Env σ) (imageVerify : ImageVerification) (imageInfo : ImageInfo)
        (path predicateType : String) (calls : List Call) (r : cosign.Result),
        verifyAttestorSet env (AttestorSet.mk none [keyEntry (concatKeys ks)]) imageVerify
            imageInfo path predicateType = (calls, .done r) →
          r.err = none →
          ∀ k ∈ ks, (env.VerifySignature (buildOptionsAndPath (keyEntry k) imageVerify
            imageInfo.String ⟨predicateType, [], []⟩).1).err = none) := by
  have hexp : ∀ c : Option Int, expandStaticKeys (AttestorSet.mk c [keyEntry (concatKeys ks)]) =
      AttestorSet.mk c (ks.map keyEntry) := by
    intro c
    have hlen : 1 < ks.length := by omega
    simp [expandStaticKeys, AttestorSet.Count, AttestorSet.Entries, expandEntries, keyEntry,
      Attestor.Keys, splitPEM_concatKeys ks hk, hlen, createStaticKeyAttestors]
  have hexp2 : ∀ c : Option Int, expandStaticKeys (AttestorSet.mk c (ks.map keyEntry)) =
      AttestorSet.mk c (ks.map keyEntry) := by
    intro c
    simp [expandStaticKeys, AttestorSet.Count, AttestorSet.Entries,
      expandEntries_keyEntries ks hk]
  refine ⟨hexp count, ?_, ?_, ?_⟩
  · intro σ env imageVerify imageInfo path predicateType
    rw [verifyAttestorSet_eq, verifyAttestorSet_eq, hexp, hexp2]
  · rw [hexp]
    simp [getRequiredCount, AttestorSet.Count, AttestorSet.Entries]
  · intro σ env imageVerify imageInfo path predicateType calls r h herr
    obtain ⟨resp, err⟩ := r
    simp only at herr
    subst herr
    rw [verifyAttestorSet_eq, hexp] at h
    have hcount := verifyEntries_ok_count env imageVerify imageInfo path predicateType _ _ 0 0 []
      calls resp h
    simp only [getRequiredCount, AttestorSet.Count, AttestorSet.Entries, List.length_map,
      zero_add, Nat.cast_le] at hcount
    exact countVerified_keyEntries env imageVerify imageInfo path predicateType ks 0 hcount

/-- Witness of `expandStaticKeys_concatKeys`: two key blocks, the second one starting
on a new line. -/
theorem expandStaticKeys_concatKeys_witness :
    expandStaticKeys (AttestorSet.mk none
        [keyEntry (concatKeys ["K1-----END PUBLIC KEY-----", "\nK2-----END PUBLIC KEY-----"])]) =
      AttestorSet.mk none
        (["K1-----END PUBLIC KEY-----", "\nK2-----END PUBLIC KEY-----"].map keyEntry) ∧
      getRequiredCount (expandStaticKeys (AttestorSet.mk none
        [keyEntry (concatKeys ["K1-----END PUBLIC KEY-----", "\nK2-----END PUBLIC KEY-----"])])) =
        2 :=
  have h := expandStaticKeys_concatKeys none
    ["K1-----END PUBLIC KEY-----", "\nK2-----END PUBLIC KEY-----"] (by decide)
    (fun k hk => isKeyBlock_of_check k (by
      simp only [List.mem_cons, List.mem_singleton, List.not_mem_nil, or_false] at hk
      rcases hk with rfl | rfl <;> decide))
  ⟨h.1, h.2.2.1⟩

/-- Whatever its other fields, an entry whose `Keys.publicKeys` holds `N ≥ 2` key blocks
is replaced by `N` entries that hold one key block each and nothing else. -/
theorem expandEntries_multi_key (keys : StaticKeyAttestor)
    (certificates : Option CertificateAttestor) (keyless : Option KeylessAttestor)
    (nested : Option RawAttestor) (annotations : Option (List (String × String)))
    (repository : String) (rest : List Attestor) (ks : List String)
    (hN : 2 ≤ ks.length) (hk : ∀ k ∈ ks, isKeyBlock k) (hkeys : keys.PublicKeys = concatKeys ks) :
    expandEntries (Attestor.mk (some keys) certificates keyless nested annotations repository ::
        rest) =
      ks.map keyEntry ++ expandEntries rest := by
  have hlen : 1 < ks.length := by omega
  rw [expandEntries]
  simp [Attestor.Keys, hkeys, splitPEM_concatKeys ks hk, hlen, createStaticKeyAttestors_eq]

/-- C10 fails on the code: an entry with two key blocks, a Rekor URL, a signature
algorithm, a repository and annotations is replaced by two entries that hold one key
block each and nothing else, so that the options built for them carry neither the Rekor
URL, nor the signature algorithm, nor the repository, nor the annotations of the
entry. -/
theorem expandStaticKeys_drops_fields :
    expandStaticKeys (AttestorSet.mk none
        [Attestor.mk
          (some { PublicKeys := "K1-----END PUBLIC KEY-----\nK2-----END PUBLIC KEY-----",
                  SignatureAlgorithm := "sha512", KMS := "", Secret := none,
                  Rekor := some ⟨"https://rekor.example.com"⟩ })
          none none none (some [("team", "platform")]) "registry.example.com/signatures"]) =
      AttestorSet.mk none
        [Attestor.mk
          (some { PublicKeys := "K1-----END PUBLIC KEY-----", SignatureAlgorithm := "", KMS := "",
                  Secret := none, Rekor := none })
          none none none none "",
         Attestor.mk
          (some { PublicKeys := "\nK2-----END PUBLIC KEY-----", SignatureAlgorithm := "",
                  KMS := "", Secret := none, Rekor := none })
          none none none none ""] ∧
      (buildOptionsAndPath
        (Attestor.mk
          (some { PublicKeys := "K1-----END PUBLIC KEY-----", SignatureAlgorithm := "sha512",
                  KMS := "", Secret := none, Rekor := some ⟨"https://rekor.example.com"⟩ })
          none none none (some [("team", "platform")]) "registry.example.com/signatures")
        (Example.clause [] false) "gcr.io/foo/bar:v1" ⟨"", [], []⟩).1 ≠
      (buildOptionsAndPath (keyEntry "K1-----END PUBLIC KEY-----")
        (Example.clause [] false) "gcr.io/foo/bar:v1" ⟨"", [], []⟩).1 :=
  ⟨by rfl, by decide⟩

/-! ## The pieces returned by `splitPEM` (C11, C13) -/

namespace strings

theorem splitAfterGo_join (sep : List Char) :
    ∀ (s cur : List Char) (skip : Nat), (splitAfterGo sep s cur skip).flatten = cur ++ s := by
  intro s
  induction s with
  | nil => intro cur skip; simp [splitAfterGo]
  | cons c s ih =>
    intro cur skip
    simp only [splitAfterGo]
    split <;> simp [ih]

/-- The scan of `SplitAfter` for a non-empty separator, from a piece `cur` in which no
occurrence of the separator starts: the result is a list of blocks, each ending with
the separator and containing it nowhere else, followed by a last piece without
separator; the pieces concatenate to the text scanned. -/
theorem splitAfterGo_spec (sep : List Char) (hsep : sep ≠ []) :
    ∀ (n : Nat) (s cur : List Char), s.length ≤ n →
      (∀ a b : List Char, cur = a ++ b → b ≠ [] → ¬ sep <+: b ++ s) →
      ∃ (blocks : List (List Char)) (last : List Char),
        splitAfterGo sep s cur 0 = blocks ++ [last] ∧
          (∀ k ∈ blocks, (∃ p, k = p ++ sep) ∧ ∀ x y : List Char, k = x ++ sep ++ y → y = []) ∧
          ¬ sep <:+: last := by
  intro n
  induction n with
  | zero =>
    intro s cur hlen hinv
    have hs : s = [] := List.length_eq_zero.1 (Nat.le_zero.1 hlen)
    subst hs
    refine ⟨[], cur, by simp [splitAfterGo], by simp, ?_⟩
    rintro ⟨a, b, hab⟩
    exact hinv a (sep ++ b) (by simp [← hab]) (by simp [hsep]) (by simp)
  | succ n ih =>
    intro s cur hlen hinv
    cases s with
    | nil =>
      refine ⟨[], cur, by simp [splitAfterGo], by simp, ?_⟩
      rintro ⟨a, b, hab⟩
      exact hinv a (sep ++ b) (by simp [← hab]) (by simp [hsep]) (by simp)
    | cons c s =>
      cases hpre : sep.isPrefixOf (c :: s) with
      | true =>
        obtain ⟨rest, hrest⟩ := List.isPrefixOf_iff_prefix.1 hpre
        have hseplen : 0 < sep.length := List.length_pos.2 hsep
        have hrestlen : rest.length ≤ n := by
          have := congrArg List.length hrest
          simp at this hlen
          omega
        obtain ⟨blocks, last, hgo, hblocks, hlast⟩ := ih rest [] hrestlen (by
          intro a b hab hb
          have : b = [] := by
            have := congrArg List.length hab
            simp at this
            exact List.length_eq_zero.1 (by omega)
          exact absurd this hb)
        refine ⟨(cur ++ sep) :: blocks, last, ?_, ?_, hlast⟩
        · rw [splitAfterGo_found sep c s cur hsep hpre, ← hrest,
            splitAfterGo_copy sep sep rest cur hsep, hgo]
          rfl
        · intro k hk
          rcases List.mem_cons.1 hk with rfl | hk
          · refine ⟨⟨cur, rfl⟩, ?_⟩
            intro x y hxy
            by_contra hy
            rw [List.append_assoc] at hxy
            rcases List.append_eq_append_iff.1 hxy with ⟨a', hx, hsepa⟩ | ⟨c', hcur, hsepc⟩
            · have := congrArg List.length hsepa
              simp at this
              have hy0 : y.length = 0 := by omega
              exact hy (List.length_eq_zero.1 hy0)
            · have hc' : c' ≠ [] := by
                intro h0
                subst h0
                simp at hsepc
                exact hy hsepc
              refine hinv x c' hcur hc' ?_
              rw [← hrest]
              exact ⟨y ++ rest, by rw [← List.append_assoc, hsepc]; simp⟩
          · exact hblocks k hk
      | false =>
        have hs : s.length ≤ n := by simp at hlen; omega
        obtain ⟨blocks, last, hgo, hblocks, hlast⟩ := ih s (cur ++ [c]) hs (by
          intro a b hab hb
          rcases List.eq_nil_or_concat b with rfl | ⟨b0, d, rfl⟩
          · exact absurd rfl hb
          · simp only [List.concat_eq_append] at hab hb ⊢
            rw [← List.append_assoc] at hab
            have hd := List.append_inj' hab (by simp)
            obtain ⟨hcur, hdc⟩ := hd
            simp only [List.cons.injEq, and_true] at hdc
            subst hdc
            by_cases hb0 : b0 = []
            · subst hb0
              simp only [List.nil_append, List.singleton_append]
              intro hp
              have := List.isPrefixOf_iff_prefix.2 hp
              rw [hpre] at this
              exact absurd this (by decide)
            · have := hinv a b0 hcur hb0
              simpa using this)
        exact ⟨blocks, last, by rw [splitAfterGo_no_match sep c s cur hpre, hgo], hblocks, hlast⟩

end strings

theorem concatKeys_data (l : List (List Char)) :
    (concatKeys (l.map String.mk)).data = l.flatten := by
  induction l with
  | nil => rfl
  | cons k l ih => simp [concatKeys, ih]

/-- A text in which the marker occurs passes `markerCheck`. -/
theorem markerCheck_of_hasMarker (s : String) (h : hasMarker s) : markerCheck s = true := by
  obtain ⟨a, b, hab⟩ := h
  simp only [markerCheck, List.any_eq_true]
  refine ⟨pemEnd.data ++ b.data, ?_, ?_⟩
  · rw [List.mem_tails]
    exact ⟨a.data, by rw [hab]; simp⟩
  · rw [List.isPrefixOf_iff_prefix]
    exact List.prefix_append _ _

/-- The pieces of `strings.SplitAfter` for the marker `pemEnd`: key blocks, followed by
a last piece without marker; together they make up the text. -/
theorem SplitAfter_pemEnd (pem : String) :
    ∃ (blocks : List String) (last : String),
      strings.SplitAfter pem pemEnd = blocks ++ [last] ∧ (∀ k ∈ blocks, isKeyBlock k) ∧
        ¬ hasMarker last ∧ concatKeys blocks ++ last = pem := by
  obtain ⟨lblocks, llast, hgo, hblocks, hlast⟩ :=
    strings.splitAfterGo_spec pemEnd.data pemEnd_data_ne_nil pem.data.length pem.data [] le_rfl
      (by
        intro a b hab hb
        have : b = [] := by
          have := congrArg List.length hab
          simp at this
          exact List.length_eq_zero.1 (by omega)
        exact absurd this hb)
  have hjoin := strings.splitAfterGo_join pemEnd.data pem.data [] 0
  rw [hgo] at hjoin
  refine ⟨lblocks.map String.mk, ⟨llast⟩, ?_, ?_, ?_, ?_⟩
  · unfold strings.SplitAfter
    rw [if_neg pemEnd_data_ne_nil, hgo]
    simp
  · intro k hk
    obtain ⟨l, hl, rfl⟩ := List.mem_map.1 hk
    obtain ⟨⟨p, hp⟩, huniq⟩ := hblocks l hl
    constructor
    · exact ⟨⟨p⟩, String.ext (by simp [hp])⟩
    · intro a b hab
      have hdata : l = a.data ++ pemEnd.data ++ b.data := by
        have := congrArg String.data hab
        simpa using this
      exact String.ext (huniq a.data b.data hdata)
  · rintro ⟨a, b, hab⟩
    apply hlast
    refine ⟨a.data, b.data, ?_⟩
    have := congrArg String.data hab
    simpa using this.symm
  · apply String.ext
    rw [String.data_append, concatKeys_data]
    simpa using hjoin

/-- The function `splitPEM` returns the pieces of `strings.SplitAfter` but the last
one. -/
theorem splitPEM_eq (pem : String) (blocks : List String) (last : String)
    (h : strings.SplitAfter pem pemEnd = blocks ++ [last]) : splitPEM pem = blocks := by
  unfold splitPEM
  rw [show "-----END PUBLIC KEY-----" = pemEnd from rfl, h]
  simp

/-- C11 as stated fails: the key block `K1-----END PUBLIC KEY-----` followed by a line
feed splits into the key block and the piece made of the line feed; `splitPEM` removes
this last piece although it is not empty, and the pieces it returns do not make up the
text. -/
theorem splitPEM_drops_trailing_content :
    strings.SplitAfter "K1-----END PUBLIC KEY-----\n" "-----END PUBLIC KEY-----" =
        ["K1-----END PUBLIC KEY-----", "\n"] ∧
      splitPEM "K1-----END PUBLIC KEY-----\n" = ["K1-----END PUBLIC KEY-----"] ∧
      concatKeys (splitPEM "K1-----END PUBLIC KEY-----\n") ≠ "K1-----END PUBLIC KEY-----\n" := by
  decide

/-- C11, amended: for every string `pem`, `splitPEM pem` is the list of the pieces
obtained by splitting `pem` after each occurrence of `-----END PUBLIC KEY-----`, with the
last piece removed, be it empty or not: the returned pieces followed by the removed
piece make up `pem`, every returned piece ends with the marker and contains it nowhere
else, and the removed piece, the content after the last marker, contains no marker. -/
theorem splitPEM_spec (pem : String) :
    ∃ last : String,
      strings.SplitAfter pem "-----END PUBLIC KEY-----" = splitPEM pem ++ [last] ∧
        concatKeys (splitPEM pem) ++ last = pem ∧
        (∀ k ∈ splitPEM pem, isKeyBlock k) ∧ ¬ hasMarker last := by
  obtain ⟨blocks, last, hsplit, hblocks, hlast, hcat⟩ := SplitAfter_pemEnd pem
  have hpem := splitPEM_eq pem blocks last hsplit
  rw [hpem]
  exact ⟨last, hsplit, hcat, hblocks, hlast⟩

/-- A text without marker has no key block: `splitPEM` returns the empty list. -/
theorem splitPEM_no_marker (pem : String) (h : ¬ hasMarker pem) : splitPEM pem = [] := by
  obtain ⟨blocks, last, hsplit, hblocks, -, hcat⟩ := SplitAfter_pemEnd pem
  rw [splitPEM_eq pem blocks last hsplit]
  cases blocks with
  | nil => rfl
  | cons k ks =>
    exfalso
    obtain ⟨⟨body, hbody⟩, -⟩ := hblocks k (List.mem_cons_self _ _)
    apply h
    refine ⟨body, concatKeys ks ++ last, ?_⟩
    rw [← hcat, concatKeys, hbody]
    simp [String.append_assoc]

/-- C13 as stated fails: the entry whose key `abc` holds no marker is kept by
`expandStaticKeys`, so the expanded set has one entry and, with the count unset, the
required count is `1`, not `0`. -/
theorem expandStaticKeys_keeps_entry_without_marker :
    splitPEM "abc" = [] ∧
      (expandStaticKeys (AttestorSet.mk none [keyEntry "abc"])).Entries.length = 1 ∧
      getRequiredCount (expandStaticKeys (AttestorSet.mk none [keyEntry "abc"])) = 1 ∧
      ¬ (getRequiredCount (expandStaticKeys (AttestorSet.mk none [keyEntry "abc"])) = 0) := by
  decide

/-- C13, amended: for every attestor set whose only entry has a `Keys.publicKeys` string
containing no `-----END PUBLIC KEY-----` marker, `splitPEM` yields an empty slice and
`expandStaticKeys`, which replaces an entry only when `splitPEM` yields more than one
key, returns the attestor set unchanged, with its one entry, so that `getRequiredCount`
of the expanded set with the count unset is `1`. -/
theorem expandStaticKeys_no_marker (count : Option Int) (keys : StaticKeyAttestor)
    (certificates : Option CertificateAttestor) (keyless : Option KeylessAttestor)
    (nested : Option RawAttestor) (annotations : Option (List (String × String)))
    (repository : String) (h : ¬ hasMarker keys.PublicKeys) :
    splitPEM keys.PublicKeys = [] ∧
      expandStaticKeys (AttestorSet.mk count
          [Attestor.mk (some keys) certificates keyless nested annotations repository]) =
        AttestorSet.mk count
          [Attestor.mk (some keys) certificates keyless nested annotations repository] ∧
      getRequiredCount (expandStaticKeys (AttestorSet.mk none
          [Attestor.mk (some keys) certificates keyless nested annotations repository])) = 1 := by
  have hsplit := splitPEM_no_marker keys.PublicKeys h
  have hexp : ∀ c : Option Int, expandStaticKeys (AttestorSet.mk c
      [Attestor.mk (some keys) certificates keyless nested annotations repository]) =
      AttestorSet.mk c
        [Attestor.mk (some keys) certificates keyless nested annotations repository] := by
    intro c
    simp [expandStaticKeys, AttestorSet.Count, AttestorSet.Entries, expandEntries,
      Attestor.Keys, hsplit]
  refine ⟨hsplit, hexp count, ?_⟩
  rw [hexp]
  simp [getRequiredCount, AttestorSet.Count, AttestorSet.Entries]

/-- Witness of `expandStaticKeys_no_marker`: the key `not a key`, with a Rekor URL. -/
theorem expandStaticKeys_no_marker_witness :
    splitPEM "not a key" = [] ∧
      expandStaticKeys (AttestorSet.mk (some 1)
          [Attestor.mk (some ⟨"not a key", "", "", none, some ⟨"https://rekor.example.com"⟩⟩)
            none none none none ""]) =
        AttestorSet.mk (some 1)
          [Attestor.mk (some ⟨"not a key", "", "", none, some ⟨"https://rekor.example.com"⟩⟩)
            none none none none ""] ∧
      getRequiredCount (expandStaticKeys (AttestorSet.mk none
          [Attestor.mk (some ⟨"not a key", "", "", none, some ⟨"https://rekor.example.com"⟩⟩)
            none none none none ""])) = 1 :=
  expandStaticKeys_no_marker (some 1)
    ⟨"not a key", "", "", none, some ⟨"https://rekor.example.com"⟩⟩ none none none none ""
    (fun h => absurd (markerCheck_of_hasMarker _ h) (by decide))

/-! ## Attestor sets without entry (C12) -/

/-- An attestor set without entry makes `verifyAttestorSet` panic: the loop does not
run, there is no error to combine and `err.Error()` is called on a nil error. -/
theorem verifyAttestorSet_no_entries {σ : Type} (env : Env σ) (count : Option Int)
    (imageVerify : ImageVerification) (imageInfo : ImageInfo) (path predicateType : String) :
    verifyAttestorSet env (AttestorSet.mk count []) imageVerify imageInfo path predicateType =
      ([], .panicked) := by
  rw [verifyAttestorSet_eq]
  simp [expandStaticKeys, AttestorSet.Entries, expandEntries, verifyEntries, multierr.Combine]

/-- The loop of `verifyAttestors` panics at the first attestor set for which
`verifyAttestorSet` panics. -/
theorem verifyAttestorsLoop_panicked {σ : Type} (env : Env σ) (rule : Rule)
    (imageVerify : ImageVerification) (imageInfo : ImageInfo) (predicateType : String)
    (pre : List AttestorSet) (s : AttestorSet) (post : List AttestorSet) (c : List Call) :
    ∀ (i : Nat) (cr : Option cosign.Response) (na : List AttestorSet),
      setsVerify env imageVerify imageInfo predicateType pre i = true →
      verifyAttestorSet env s imageVerify imageInfo
          (".attestors[" ++ toString (i + pre.length) ++ "]") predicateType = (c, .panicked) →
      verifyAttestorsLoop env rule imageVerify imageInfo predicateType (pre ++ s :: post) i cr na =
        (setsCalls env imageVerify imageInfo predicateType pre i ++ c, .panicked) := by
  induction pre with
  | nil =>
    intro i cr na _ hs
    simp only [List.length_nil, Nat.add_zero] at hs
    simp [verifyAttestorsLoop, hs, setsCalls]
  | cons a pre ih =>
    intro i cr na hpre hs
    simp only [setsVerify, Bool.and_eq_true] at hpre
    obtain ⟨c0, r, ho, hr⟩ := setVerifies_true env imageVerify imageInfo predicateType a i hpre.1
    rw [show i + (a :: pre).length = i + 1 + pre.length by simp; omega] at hs
    rw [List.cons_append]
    simp only [verifyAttestorsLoop, ho, hr, andThen, setsCalls, setOutcome]
    rw [ih (i + 1) r.resp (na ++ [a]) hpre.2 hs]
    simp

/-- C12 fails on the code: for an attestor set without entry and without count (or
with the count `0`), the required count is `0`, and `verifyAttestors` panics instead of
returning a rule response of status `Fail`. -/
theorem verifyAttestors_panics_without_entries :
    (expandStaticKeys (AttestorSet.mk none [])).Entries = [] ∧
      getRequiredCount (expandStaticKeys (AttestorSet.mk none [])) = 0 ∧
      (verifyAttestors (Example.env Example.acceptAC ("", none)) Example.rule
        [AttestorSet.mk none []] (Example.clause [AttestorSet.mk none []] false)
        Example.image "").2 = .panicked ∧
      (verifyAttestors (Example.env Example.acceptAC ("", none)) Example.rule
        [AttestorSet.mk (some 0) []] (Example.clause [AttestorSet.mk (some 0) []] false)
        Example.image "").2 = .panicked ∧
      (verify (Example.env Example.acceptAC ("", none)) Example.resource Example.resource
        Example.rule Example.state (Example.clause [AttestorSet.mk none []] false)
        [Example.image]).2 = .panicked :=
  ⟨by rfl, by rfl, by rfl, by rfl, by rfl⟩

/-- Whatever the collaborators, `verifyAttestors` panics at an attestor set without
entry that it reaches. -/
theorem verifyAttestors_no_entries {σ : Type} (env : Env σ) (rule : Rule)
    (imageVerify : ImageVerification) (imageInfo : ImageInfo) (predicateType : String)
    (pre : List AttestorSet) (count : Option Int) (post : List AttestorSet)
    (hpre : setsVerify env imageVerify imageInfo predicateType pre 0 = true) :
    verifyAttestors env rule (pre ++ AttestorSet.mk count [] :: post) imageVerify imageInfo
        predicateType =
      (setsCalls env imageVerify imageInfo predicateType pre 0, .panicked) := by
  unfold verifyAttestors
  rw [verifyAttestorsLoop_panicked env rule imageVerify imageInfo predicateType pre _ post []
    0 none [] hpre (verifyAttestorSet_no_entries env count imageVerify imageInfo _ predicateType)]
  simp

/-! ## Images skipped silently (C18) -/

theorem verifyLoop_append {σ : Type} (env : Env σ)
    (newResource oldResource : unstructured.Unstructured) (rule : Rule)
    (imageVerify : ImageVerification) (pre rest : List ImageInfo) :
    ∀ (st st1 : VerifierState σ) (c1 : List Call),
      verifyLoop env newResource oldResource rule imageVerify st pre = (c1, .done st1) →
      verifyLoop env newResource oldResource rule imageVerify st (pre ++ rest) =
        andThen c1 (verifyLoop env newResource oldResource rule imageVerify st1 rest) := by
  induction pre with
  | nil =>
    intro st st1 c1 h
    simp only [verifyLoop, Prod.mk.injEq, Run.done.injEq] at h
    obtain ⟨rfl, rfl⟩ := h
    simp [andThen]
  | cons info pre ih =>
    intro st st1 c1 h
    rw [List.cons_append]
    simp only [verifyLoop] at h ⊢
    split at h
    · simp at h
    · rename_i calls st2 hstep
      simp only [andThen, Prod.mk.injEq] at h
      obtain ⟨hc, hrun⟩ := h
      rw [ih st2 st1 _ (Prod.ext rfl hrun)]
      simp [andThen, ← hc]

/-- The loop body of `verify` does nothing for an image that has not changed or that
is already verified. -/
theorem verifyImageInfo_skip {σ : Type} (env : Env σ)
    (newResource oldResource : unstructured.Unstructured) (rule : Rule)
    (imageVerify : ImageVerification) (st : VerifierState σ) (imageInfo : ImageInfo)
    (htamper : hasImageVerifiedAnnotationChanged newResource oldResource = false)
    (hskip : env.HasChanged st.ctx (env.JMESPath imageInfo.Pointer) = (false, none) ∨
      env.isImageVerified newResource imageInfo.String = (true, none)) :
    verifyImageInfo env newResource oldResource rule imageVerify st imageInfo =
      ([], .done st) := by
  unfold verifyImageInfo
  simp only [htamper, Bool.false_eq_true, if_false]
  rcases hskip with h | h
  · simp [h]
  · simp only [h]
    split
    · rfl
    · simp

/-- C18: for a matched image whose field has not changed (`HasChanged` returns false
without error) or that is already verified (`isImageVerified` returns true without
error), the verify-images annotation not being tampered with, the loop body of `verify`
leaves the engine response, the metadata and the context as they are and makes no call
to the verifier or the registry; the images after it are processed from the same state,
so that `verify` runs as on the list without this image. -/
theorem verify_skips_image {σ : Type} (env : Env σ)
    (newResource oldResource : unstructured.Unstructured) (rule : Rule)
    (imageVerify : ImageVerification) (st st1 : VerifierState σ) (pre : List ImageInfo)
    (imageInfo : ImageInfo) (post : List ImageInfo) (c1 : List Call)
    (hpre : verify env newResource oldResource rule st imageVerify pre = (c1, .done st1))
    (htamper : hasImageVerifiedAnnotationChanged newResource oldResource = false)
    (hskip : env.HasChanged st1.ctx (env.JMESPath imageInfo.Pointer) = (false, none) ∨
      env.isImageVerified newResource imageInfo.String = (true, none)) :
    verifyImageInfo env newResource oldResource rule (env.Convert imageVerify) st1 imageInfo =
        ([], .done st1) ∧
      verify env newResource oldResource rule st imageVerify (pre ++ imageInfo :: post) =
        andThen c1 (verifyLoop env newResource oldResource rule (env.Convert imageVerify) st1 post) ∧
      verify env newResource oldResource rule st imageVerify (pre ++ imageInfo :: post) =
        verify env newResource oldResource rule st imageVerify (pre ++ post) := by
  have hstep := verifyImageInfo_skip env newResource oldResource rule (env.Convert imageVerify)
    st1 imageInfo htamper hskip
  unfold verify at hpre ⊢
  have h1 := verifyLoop_append env newResource oldResource rule (env.Convert imageVerify) pre
    (imageInfo :: post) st st1 c1 hpre
  have h2 := verifyLoop_append env newResource oldResource rule (env.Convert imageVerify) pre
    post st st1 c1 hpre
  have h3 : verifyLoop env newResource oldResource rule (env.Convert imageVerify) st1
      (imageInfo :: post) =
      verifyLoop env newResource oldResource rule (env.Convert imageVerify) st1 post := by
    rw [verifyLoop, hstep]
    simp [andThen]
  refine ⟨hstep, ?_, ?_⟩
  · rw [h1, h3]
  · rw [h1, h2, h3]

/-- Witness of `verify_skips_image`: the image of the first container has not changed
and is skipped; the image of the second container is processed. -/
theorem verify_skips_image_witness :
    verifyImageInfo Example.envUnchanged Example.resource Example.resource Example.rule
        (Example.envUnchanged.Convert (Example.clause [AttestorSet.mk none [keyEntry "A"]] false))
        Example.state Example.image = ([], .done Example.state) ∧
      verify Example.envUnchanged Example.resource Example.resource Example.rule Example.state
          (Example.clause [AttestorSet.mk none [keyEntry "A"]] false)
          ([] ++ Example.image :: [Example.image2]) =
        andThen [] (verifyLoop Example.envUnchanged Example.resource Example.resource
          Example.rule
          (Example.envUnchanged.Convert (Example.clause [AttestorSet.mk none [keyEntry "A"]] false))
          Example.state [Example.image2]) ∧
      verify Example.envUnchanged Example.resource Example.resource Example.rule Example.state
          (Example.clause [AttestorSet.mk none [keyEntry "A"]] false)
          ([] ++ Example.image :: [Example.image2]) =
        verify Example.envUnchanged Example.resource Example.resource Example.rule Example.state
          (Example.clause [AttestorSet.mk none [keyEntry "A"]] false) ([] ++ [Example.image2]) :=
  verify_skips_image Example.envUnchanged Example.resource Example.resource Example.rule
    (Example.clause [AttestorSet.mk none [keyEntry "A"]] false) Example.state Example.state []
    Example.image [Example.image2] [] (by rfl) (by decide) (Or.inl (by rfl))

/-- The run of the scenario of silent skipping: one rule response, for the image of
the second container, and a single call to the verifier. -/
theorem verify_skips_first_container :
    Example.rulesOf (verify Example.envUnchanged Example.resource Example.resource Example.rule
        Example.state (Example.clause [AttestorSet.mk none [keyEntry "A"]] false)
        [Example.image, Example.image2]) =
      [{ Name := "check-image", Type_ := RuleType.ImageVerify,
         Message := "verified image attestations for gcr.io/foo/baz:v2",
         Status := RuleStatus.Pass, Patches := [] }] ∧
      (Example.stateOf (verify Example.envUnchanged Example.resource Example.resource
        Example.rule Example.state (Example.clause [AttestorSet.mk none [keyEntry "A"]] false)
        [Example.image, Example.image2])).ivm = [("gcr.io/foo/baz:v2", true)] ∧
      (verify Example.envUnchanged Example.resource Example.resource Example.rule
        Example.state (Example.clause [AttestorSet.mk none [keyEntry "A"]] false)
        [Example.image, Example.image2]).1.length = 1 := by
  decide

/-! ## Position of a statement failure in `verifyAttestations` (C14, C15) -/

/-- Entries gone through without a return from `verifyAttestations` each count as
verified; the loop continues with the entries after them. -/
theorem attestationEntriesLoop_append {σ : Type} (env : Env σ) (rule : Rule)
    (imageVerify : ImageVerification) (imageInfo : ImageInfo) (i : Nat) (attestation : Attestation)
    (attestorPath : String) (requiredCount : Int) (pre rest : List Attestor) :
    ∀ (verifiedCount : Int) (ctx ctx1 : σ) (c1 : List Call),
      attestationEntriesLoop env rule imageVerify imageInfo i attestation attestorPath
          requiredCount pre verifiedCount ctx = (ctx1, c1, .done none) →
      attestationEntriesLoop env rule imageVerify imageInfo i attestation attestorPath
          requiredCount (pre ++ rest) verifiedCount ctx =
        ((attestationEntriesLoop env rule imageVerify imageInfo i attestation attestorPath
            requiredCount rest (verifiedCount + pre.length) ctx1).1,
          c1 ++ (attestationEntriesLoop env rule imageVerify imageInfo i attestation attestorPath
            requiredCount rest (verifiedCount + pre.length) ctx1).2.1,
          (attestationEntriesLoop env rule imageVerify imageInfo i attestation attestorPath
            requiredCount rest (verifiedCount + pre.length) ctx1).2.2) := by
  induction pre with
  | nil =>
    intro v ctx ctx1 c1 h
    simp only [attestationEntriesLoop, Prod.mk.injEq] at h
    obtain ⟨rfl, rfl, -⟩ := h
    simp
  | cons a pre ih =>
    intro v ctx ctx1 c1 h
    rw [List.cons_append]
    simp only [attestationEntriesLoop] at h ⊢
    split at h
    · split at h <;> simp at h
    · rename_i herr
      split at h
      · simp at h
      · rename_i cosignResp hresp
        split at h
        · simp at h
        · simp at h
        · rename_i ctx3 hva
          split at h
          · simp at h
          · rename_i hlt
            simp only [Prod.mk.injEq] at h
            obtain ⟨h1, h2, h3⟩ := h
            have := ih (v + 1) ctx3 ctx1 _ (Prod.ext h1 (Prod.ext rfl h3))
            simp only [herr, hresp, hva, hlt, if_false, this]
            rw [← h2]
            simp only [List.length_cons, Nat.cast_add, Nat.cast_one, List.cons_append]
            rw [show v + 1 + (pre.length : Int) = v + ((pre.length : Int) + 1) by omega]

/-- Attestor sets gone through without a return from `verifyAttestations`: the loop
continues with the attestor sets after them. -/
theorem attestationAttestorsLoop_append {σ : Type} (env : Env σ) (rule : Rule)
    (imageVerify : ImageVerification) (imageInfo : ImageInfo) (i : Nat) (attestation : Attestation)
    (path : String) (pre rest : List AttestorSet) :
    ∀ (j : Nat) (ctx ctx1 : σ) (c1 : List Call),
      attestationAttestorsLoop env rule imageVerify imageInfo i attestation path pre j ctx =
          (ctx1, c1, .done none) →
      attestationAttestorsLoop env rule imageVerify imageInfo i attestation path (pre ++ rest)
          j ctx =
        ((attestationAttestorsLoop env rule imageVerify imageInfo i attestation path rest
            (j + pre.length) ctx1).1,
          c1 ++ (attestationAttestorsLoop env rule imageVerify imageInfo i attestation path rest
            (j + pre.length) ctx1).2.1,
          (attestationAttestorsLoop env rule imageVerify imageInfo i attestation path rest
            (j + pre.length) ctx1).2.2) := by
  induction pre with
  | nil =>
    intro j ctx ctx1 c1 h
    simp only [attestationAttestorsLoop, Prod.mk.injEq] at h
    obtain ⟨rfl, rfl, -⟩ := h
    simp
  | cons s pre ih =>
    intro j ctx ctx1 c1 h
    rw [List.cons_append]
    simp only [attestationAttestorsLoop] at h ⊢
    split at h
    · rename_i ctx2 calls2 hentries
      simp only [Prod.mk.injEq] at h
      obtain ⟨h1, h2, h3⟩ := h
      have := ih (j + 1) ctx2 ctx1 _ (Prod.ext h1 (Prod.ext rfl h3))
      simp only [hentries, this]
      rw [← h2]
      simp only [List.length_cons, List.append_assoc]
      rw [show j + 1 + pre.length = j + (pre.length + 1) by omega]
    · rename_i hne
      exact absurd h (by
        intro hcontra
        exact hne _ _ hcontra)

/-- Attestation clauses gone through without a return from `verifyAttestations`: the
loop continues with the clauses after them. -/
theorem attestationsLoop_append {σ : Type} (env : Env σ) (rule : Rule)
    (imageVerify : ImageVerification) (imageInfo : ImageInfo) (pre rest : List Attestation) :
    ∀ (i : Nat) (ctx ctx1 : σ) (c1 : List Call),
      clausesFallThrough env rule imageVerify imageInfo pre i ctx = some (ctx1, c1) →
      attestationsLoop env rule imageVerify imageInfo (pre ++ rest) i ctx =
        ((attestationsLoop env rule imageVerify imageInfo rest (i + pre.length) ctx1).1,
          c1 ++ (attestationsLoop env rule imageVerify imageInfo rest (i + pre.length) ctx1).2.1,
          (attestationsLoop env rule imageVerify imageInfo rest (i + pre.length) ctx1).2.2) := by
  induction pre with
  | nil =>
    intro i ctx ctx1 c1 h
    simp only [clausesFallThrough, Option.some.injEq, Prod.mk.injEq] at h
    obtain ⟨rfl, rfl⟩ := h
    simp
  | cons a pre ih =>
    intro i ctx ctx1 c1 h
    rw [List.cons_append]
    simp only [clausesFallThrough, attestorsOf] at h
    simp only [attestationsLoop]
    split at h
    · rename_i ctx2 calls2 hsets
      split at h
      · rename_i ctx3 calls3 hrest
        simp only [Option.some.injEq, Prod.mk.injEq] at h
        obtain ⟨rfl, rfl⟩ := h
        have := ih (i + 1) ctx2 ctx3 calls3 hrest
        simp only [hsets, this, List.length_cons, List.append_assoc]
        rw [show i + 1 + pre.length = i + (pre.length + 1) by omega]
      · simp at h
    · simp at h

/-- The loop body of `verifyAttestations` for an entry whose statements are fetched and
fail the checks of the clause: a rule response of status `Fail` whose message is the
error of the check wrapped in the entry path, a path that ends with the index `i` of the
attestation clause. -/
theorem attestationEntriesLoop_failure {σ : Type} (env : Env σ) (rule : Rule)
    (imageVerify : ImageVerification) (imageInfo : ImageInfo) (i : Nat) (attestation : Attestation)
    (attestorPath : String) (requiredCount : Int) (a : Attestor) (rest : List Attestor)
    (verifiedCount : Int) (ctx ctx1 : σ) (resp : cosign.Response) (err : GoError)
    (hfetch : env.FetchAttestations
      (buildOptionsAndPath a imageVerify imageInfo.String attestation).1 = ⟨some resp, none⟩)
    (hcheck : verifyAttestation env ctx resp.Statements attestation imageInfo =
      (ctx1, .done (some err))) :
    attestationEntriesLoop env rule imageVerify imageInfo i attestation attestorPath
        requiredCount (a :: rest) verifiedCount ctx =
      (ctx1,
        [Call.FetchAttestations (buildOptionsAndPath a imageVerify imageInfo.String attestation).1],
        .done (some (ruleResponse rule RuleType.ImageVerify
          ((attestorPath ++ ".entries[" ++ toString i ++ "]" ++
              (buildOptionsAndPath a imageVerify imageInfo.String attestation).2) ++ ": " ++
            err.Error) RuleStatus.Fail, ""))) := by
  simp only [attestationEntriesLoop, hfetch, hcheck, GoError.Error]

/-- A statement failure in general position: the attestation clauses before clause `i`,
the attestor sets of clause `i` before set `j` and the entries of set `j` before entry
`k` are gone through without a return, and the statements fetched for entry `k` fail the
checks of the clause with the error `err`.  Then `verifyAttestations` returns a rule
response of status `Fail` whose message is
`.attestations[i].attestors[j].entries[i]<subPath>: <err>`. -/
theorem verifyAttestations_failure_at {σ : Type} (env : Env σ) (rule : Rule) (ctx : σ)
    (imageVerify : ImageVerification) (imageInfo : ImageInfo)
    (preA : List Attestation) (attestation : Attestation) (postA : List Attestation)
    (preS : List AttestorSet) (s : AttestorSet) (postS : List AttestorSet)
    (preE : List Attestor) (a : Attestor) (postE : List Attestor)
    (ctx1 ctx2 ctx3 ctx4 : σ) (c1 c2 c3 : List Call) (resp : cosign.Response) (err : GoError)
    (hA : imageVerify.Attestations = preA ++ attestation :: postA)
    (hfall : clausesFallThrough env rule imageVerify imageInfo preA 0 ctx = some (ctx1, c1))
    (hS : attestorsOf attestation = preS ++ s :: postS)
    (hsets : attestationAttestorsLoop env rule imageVerify imageInfo preA.length attestation
      (".attestations[" ++ toString preA.length ++ "]") preS 0 ctx1 = (ctx2, c2, .done none))
    (hE : entriesOf s = preE ++ a :: postE)
    (hentries : attestationEntriesLoop env rule imageVerify imageInfo preA.length attestation
      (".attestations[" ++ toString preA.length ++ "]" ++ ".attestors[" ++
        toString preS.length ++ "]")
      (getRequiredCount s) preE 0 ctx2 = (ctx3, c3, .done none))
    (hfetch : env.FetchAttestations
      (buildOptionsAndPath a imageVerify imageInfo.String attestation).1 = ⟨some resp, none⟩)
    (hcheck : verifyAttestation env ctx3 resp.Statements attestation imageInfo =
      (ctx4, .done (some err))) :
    verifyAttestations env rule ctx imageVerify imageInfo =
      (ctx4,
        c1 ++ (c2 ++ (c3 ++ [Call.FetchAttestations
          (buildOptionsAndPath a imageVerify imageInfo.String attestation).1])),
        .done (ruleResponse rule RuleType.ImageVerify
          ((".attestations[" ++ toString preA.length ++ "]" ++ ".attestors[" ++
              toString preS.length ++ "]" ++ ".entries[" ++ toString preA.length ++ "]" ++
              (buildOptionsAndPath a imageVerify imageInfo.String attestation).2) ++ ": " ++
            err.Error) RuleStatus.Fail, "")) := by
  have hstep := attestationEntriesLoop_failure env rule imageVerify imageInfo preA.length
    attestation (".attestations[" ++ toString preA.length ++ "]" ++ ".attestors[" ++
      toString preS.length ++ "]") (getRequiredCount s) a postE ((0 : Int) + preE.length)
    ctx3 ctx4 resp err hfetch hcheck
  have hE2 := attestationEntriesLoop_append env rule imageVerify imageInfo preA.length
    attestation _ (getRequiredCount s) preE (a :: postE) 0 ctx2 ctx3 c3 hentries
  rw [hstep] at hE2
  have hS1 : attestationAttestorsLoop env rule imageVerify imageInfo preA.length attestation
      (".attestations[" ++ toString preA.length ++ "]") (s :: postS) (0 + preS.length) ctx2 =
      (ctx4, c3 ++ [Call.FetchAttestations
          (buildOptionsAndPath a imageVerify imageInfo.String attestation).1],
        .done (some (ruleResponse rule RuleType.ImageVerify
          ((".attestations[" ++ toString preA.length ++ "]" ++ ".attestors[" ++
              toString preS.length ++ "]" ++ ".entries[" ++ toString preA.length ++ "]" ++
              (buildOptionsAndPath a imageVerify imageInfo.String attestation).2) ++ ": " ++
            err.Error) RuleStatus.Fail, ""))) := by
    have hE3 : (if s.Entries.length = 0 then [Attestor.mk none none none none none ""]
        else s.Entries) = preE ++ a :: postE := hE
    simp only [attestationAttestorsLoop, Nat.zero_add, hE3, hE2]
  have hS2 := attestationAttestorsLoop_append env rule imageVerify imageInfo preA.length
    attestation _ preS (s :: postS) 0 ctx1 ctx2 c2 hsets
  rw [hS1] at hS2
  have hA1 : attestationsLoop env rule imageVerify imageInfo (attestation :: postA)
      (0 + preA.length) ctx1 =
      (ctx4, c2 ++ (c3 ++ [Call.FetchAttestations
          (buildOptionsAndPath a imageVerify imageInfo.String attestation).1]),
        .done (ruleResponse rule RuleType.ImageVerify
          ((".attestations[" ++ toString preA.length ++ "]" ++ ".attestors[" ++
              toString preS.length ++ "]" ++ ".entries[" ++ toString preA.length ++ "]" ++
              (buildOptionsAndPath a imageVerify imageInfo.String attestation).2) ++ ": " ++
            err.Error) RuleStatus.Fail, "")) := by
    have hS3 : (if attestation.Attestors.length = 0 then [AttestorSet.mk none []]
        else attestation.Attestors) = preS ++ s :: postS := hS
    simp only [attestationsLoop, Nat.zero_add, hS3, hS2]
  have hA2 := attestationsLoop_append env rule imageVerify imageInfo preA
    (attestation :: postA) 0 ctx ctx1 c1 hfall
  rw [hA1] at hA2
  unfold verifyAttestations
  rw [hA, hA2]

theorem appendStatement_lookup (results : List (String × List cosign.Statement))
    (t x : String) (s : cosign.Statement) (ht : t ≠ x) (h : results.lookup x = none) :
    (appendStatement results t s).lookup x = none := by
  induction results with
  | nil =>
    have : (x == t) = false := by simpa using fun h => ht h.symm
    simp [appendStatement, List.lookup, this]
  | cons kv rest ih =>
    obtain ⟨k, v⟩ := kv
    simp only [List.lookup] at h
    split at h
    · simp at h
    · rename_i hk
      simp only [appendStatement]
      split
      · simp [List.lookup, hk, h]
      · simp [List.lookup, hk, ih h]

theorem buildStatementMapLoop_without (x : String) (statements : List cosign.Statement) :
    ∀ (results : List (String × List cosign.Statement)) (types : List String),
      (∀ s ∈ statements, ∃ t, s.lookup "predicateType" = some (.str t) ∧ t ≠ x) →
      results.lookup x = none →
      ∃ results2 types2, buildStatementMapLoop statements results types = .done (results2, types2) ∧
        results2.lookup x = none := by
  induction statements with
  | nil => intro results types _ h; exact ⟨results, types, rfl, h⟩
  | cons s rest ih =>
    intro results types hall h
    obtain ⟨t, hs, ht⟩ := hall s (List.mem_cons_self _ _)
    simp only [buildStatementMapLoop, hs]
    exact ih _ _ (fun s2 hs2 => hall s2 (List.mem_cons_of_mem _ hs2))
      (appendStatement_lookup results t x s ht h)

/-- When no statement is of the predicate type of the clause, `verifyAttestation`
returns the error `predicate type X not found` and leaves the context as it is. -/
theorem verifyAttestation_not_found {σ : Type} (env : Env σ) (ctx : σ)
    (statements : List cosign.Statement) (attestation : Attestation) (imageInfo : ImageInfo)
    (h : ∀ s ∈ statements, ∃ t, s.lookup "predicateType" = some (.str t) ∧
      t ≠ attestation.PredicateType) :
    verifyAttestation env ctx statements attestation imageInfo =
      (ctx, .done (some (.errorf
        ("predicate type " ++ attestation.PredicateType ++ " not found")))) := by
  obtain ⟨results, types, hmap, hlookup⟩ :=
    buildStatementMapLoop_without attestation.PredicateType statements [] [] h rfl
  simp [verifyAttestation, buildStatementMap, hmap, hlookup]

/-- C14 as stated fails: the statements fetched are of the predicate type
`cosign.sigstore.dev/attestation/v1` and the clause asks for
`https://slsa.dev/provenance/v0.2`; the message of the `Fail` response is the error
wrapped in the path of the entry, not the error alone. -/
theorem verifyAttestations_not_found_message :
    Example.responseOf (verifyAttestations Example.envFetch Example.rule ()
        (Example.provenanceClause []) Example.image) =
      some { Name := "check-image", Type_ := RuleType.ImageVerify,
             Message := ".attestations[0].attestors[0].entries[0]: " ++
               "predicate type https://slsa.dev/provenance/v0.2 not found",
             Status := RuleStatus.Fail, Patches := [] } ∧
      Example.responseOf (verifyAttestations Example.envFetch Example.rule ()
        (Example.provenanceClause []) Example.image) ≠
      some { Name := "check-image", Type_ := RuleType.ImageVerify,
             Message := "predicate type https://slsa.dev/provenance/v0.2 not found",
             Status := RuleStatus.Fail, Patches := [] } := by
  decide

/-- C14, amended: let the statements fetched for an entry that `verifyAttestations`
reaches (entry of attestor set `j` of attestation clause `i`) each carry a predicate
type, none of them the predicate type `X` of the clause.  Then `verifyAttestation` fails
with the error `predicate type X not found`, and `verifyAttestations` returns a rule
response of status `Fail` whose message is this error prefixed by the path of the
entry: `.attestations[i].attestors[j].entries[...]: predicate type X not found`. -/
theorem verifyAttestations_predicate_not_found {σ : Type} (env : Env σ) (rule : Rule) (ctx : σ)
    (imageVerify : ImageVerification) (imageInfo : ImageInfo)
    (preA : List Attestation) (attestation : Attestation) (postA : List Attestation)
    (preS : List AttestorSet) (s : AttestorSet) (postS : List AttestorSet)
    (preE : List Attestor) (a : Attestor) (postE : List Attestor)
    (ctx1 ctx2 ctx3 : σ) (c1 c2 c3 : List Call) (resp : cosign.Response)
    (hA : imageVerify.Attestations = preA ++ attestation :: postA)
    (hfall : clausesFallThrough env rule imageVerify imageInfo preA 0 ctx = some (ctx1, c1))
    (hS : attestorsOf attestation = preS ++ s :: postS)
    (hsets : attestationAttestorsLoop env rule imageVerify imageInfo preA.length attestation
      (".attestations[" ++ toString preA.length ++ "]") preS 0 ctx1 = (ctx2, c2, .done none))
    (hE : entriesOf s = preE ++ a :: postE)
    (hentries : attestationEntriesLoop env rule imageVerify imageInfo preA.length attestation
      (".attestations[" ++ toString preA.length ++ "]" ++ ".attestors[" ++
        toString preS.length ++ "]")
      (getRequiredCount s) preE 0 ctx2 = (ctx3, c3, .done none))
    (hfetch : env.FetchAttestations
      (buildOptionsAndPath a imageVerify imageInfo.String attestation).1 = ⟨some resp, none⟩)
    (hstatements : ∀ st ∈ resp.Statements, ∃ t, st.lookup "predicateType" = some (.str t) ∧
      t ≠ attestation.PredicateType) :
    verifyAttestation env ctx3 resp.Statements attestation imageInfo =
        (ctx3, .done (some (.errorf
          ("predicate type " ++ attestation.PredicateType ++ " not found")))) ∧
      ∃ (calls : List Call) (tail : String),
        verifyAttestations env rule ctx imageVerify imageInfo =
          (ctx3, calls, .done (ruleResponse rule RuleType.ImageVerify
            ((".attestations[" ++ toString preA.length ++ "]" ++ ".attestors[" ++
                toString preS.length ++ "]" ++ ".entries[" ++ tail) ++
              ": " ++ ("predicate type " ++ attestation.PredicateType ++ " not found"))
            RuleStatus.Fail, "")) := by
  have hcheck := verifyAttestation_not_found env ctx3 resp.Statements attestation imageInfo
    hstatements
  refine ⟨hcheck, c1 ++ (c2 ++ (c3 ++ [Call.FetchAttestations
      (buildOptionsAndPath a imageVerify imageInfo.String attestation).1])),
    toString preA.length ++ "]" ++
      (buildOptionsAndPath a imageVerify imageInfo.String attestation).2, ?_⟩
  rw [verifyAttestations_failure_at env rule ctx imageVerify imageInfo preA attestation postA
    preS s postS preE a postE ctx1 ctx2 ctx3 ctx3 c1 c2 c3 resp _ hA hfall hS hsets hE hentries
    hfetch hcheck]
  simp [GoError.Error, String.append_assoc]

/-- Witness of `verifyAttestations_predicate_not_found`: a clause for the SLSA
provenance predicate type without attestor; the statements fetched are of the cosign
attestation type. -/
theorem verifyAttestations_predicate_not_found_witness :
    verifyAttestation Example.envFetch () [Example.statement "cosign.sigstore.dev/attestation/v1"]
        { PredicateType := "https://slsa.dev/provenance/v0.2", Attestors := [], Conditions := [] }
        Example.image =
        ((), .done (some (.errorf
          ("predicate type " ++ "https://slsa.dev/provenance/v0.2" ++ " not found")))) ∧
      ∃ (calls : List Call) (tail : String),
        verifyAttestations Example.envFetch Example.rule () (Example.provenanceClause [])
            Example.image =
          ((), calls, .done (ruleResponse Example.rule RuleType.ImageVerify
            ((".attestations[" ++ toString 0 ++ "]" ++ ".attestors[" ++ toString 0 ++ "]" ++
                ".entries[" ++ tail) ++
              ": " ++ ("predicate type " ++ "https://slsa.dev/provenance/v0.2" ++ " not found"))
            RuleStatus.Fail, "")) :=
  verifyAttestations_predicate_not_found Example.envFetch Example.rule ()
    (Example.provenanceClause []) Example.image
    [] { PredicateType := "https://slsa.dev/provenance/v0.2", Attestors := [], Conditions := [] } []
    [] (AttestorSet.mk none []) [] [] (Attestor.mk none none none none none "") []
    () () () [] [] [] ⟨"", [Example.statement "cosign.sigstore.dev/attestation/v1"]⟩
    (by rfl) (by rfl) (by rfl) (by rfl) (by rfl) (by rfl) (by rfl)
    (by
      intro st hst
      rw [List.mem_singleton] at hst
      subst hst
      exact ⟨"cosign.sigstore.dev/attestation/v1", by rfl, by decide⟩)

/-- C15 fails on the code: the attestor set of the only attestation clause (index `0`)
has the entries `A` and `B` and requires both; the statements of `A` pass, those of `B`,
the entry of index `1`, are not of the predicate type of the clause.  Both entries are
fetched, and the message of the `Fail` response starts with
`.attestations[0].attestors[0].entries[0]`, the index of the clause, not with
`.attestations[0].attestors[0].entries[1]`. -/
theorem verifyAttestations_entry_path_index :
    (verifyAttestations Example.envFetch Example.rule ()
        (Example.provenanceClause [AttestorSet.mk none [keyEntry "A", keyEntry "B"]])
        Example.image).2.1 =
      [Call.FetchAttestations (buildOptionsAndPath (keyEntry "A")
          (Example.provenanceClause [AttestorSet.mk none [keyEntry "A", keyEntry "B"]])
          Example.image.String
          { PredicateType := "https://slsa.dev/provenance/v0.2",
            Attestors := [AttestorSet.mk none [keyEntry "A", keyEntry "B"]],
            Conditions := [] }).1,
        Call.FetchAttestations (buildOptionsAndPath (keyEntry "B")
          (Example.provenanceClause [AttestorSet.mk none [keyEntry "A", keyEntry "B"]])
          Example.image.String
          { PredicateType := "https://slsa.dev/provenance/v0.2",
            Attestors := [AttestorSet.mk none [keyEntry "A", keyEntry "B"]],
            Conditions := [] }).1] ∧
      Example.responseOf (verifyAttestations Example.envFetch Example.rule ()
        (Example.provenanceClause [AttestorSet.mk none [keyEntry "A", keyEntry "B"]])
        Example.image) =
      some { Name := "check-image", Type_ := RuleType.ImageVerify,
             Message := ".attestations[0].attestors[0].entries[0].keys: " ++
               "predicate type https://slsa.dev/provenance/v0.2 not found",
             Status := RuleStatus.Fail, Patches := [] } :=
  ⟨by rfl, by decide⟩

/-! ## The image references returned by `getMatchingImages` (C20) -/

theorem matchClauses_refs {σ : Type} (d : Driver σ) (imageInfo : ImageInfo) :
    ∀ (clauses : List ImageVerification) (imageInfos : List ImageInfo) (imageRefs : List String),
      (matchClauses d imageInfo clauses imageInfos imageRefs).2 =
        imageRefs ++ (clauses.map fun v => (d.env.Convert v).ImageReferences).flatten := by
  intro clauses
  induction clauses with
  | nil => intro imageInfos imageRefs; simp [matchClauses]
  | cons v rest ih =>
    intro imageInfos imageRefs
    simp only [matchClauses, ih, List.map_cons, List.flatten_cons, List.append_assoc]

theorem matchInfoMap_refs {σ : Type} (d : Driver σ) (rule : Rule) :
    ∀ (infoMap : List (String × ImageInfo)) (imageInfos : List ImageInfo)
      (imageRefs : List String),
      (matchInfoMap d rule infoMap imageInfos imageRefs).2 =
        imageRefs ++ (infoMap.map fun _ => declaredReferences d rule).flatten := by
  intro infoMap
  induction infoMap with
  | nil => intro imageInfos imageRefs; simp [matchInfoMap]
  | cons m rest ih =>
    intro imageInfos imageRefs
    obtain ⟨key, imageInfo⟩ := m
    have h := matchClauses_refs d imageInfo rule.VerifyImages imageInfos imageRefs
    obtain ⟨infos1, refs1, h1⟩ : ∃ infos1 refs1,
        matchClauses d imageInfo rule.VerifyImages imageInfos imageRefs = (infos1, refs1) :=
      ⟨_, _, rfl⟩
    rw [h1] at h
    simp only at h
    simp only [matchInfoMap, h1, ih, h, List.map_cons, List.flatten_cons, List.append_assoc,
      declaredReferences]

theorem matchImages_refs {σ : Type} (d : Driver σ) (rule : Rule) :
    ∀ (images : ImageMap) (imageInfos : List ImageInfo) (imageRefs : List String),
      (matchImages d rule images imageInfos imageRefs).2 =
        imageRefs ++ ((extractedImages images).map fun _ => declaredReferences d rule).flatten := by
  intro images
  induction images with
  | nil => intro imageInfos imageRefs; simp [matchImages, extractedImages]
  | cons m rest ih =>
    intro imageInfos imageRefs
    obtain ⟨key, infoMap⟩ := m
    have h := matchInfoMap_refs d rule infoMap imageInfos imageRefs
    obtain ⟨infos1, refs1, h1⟩ : ∃ infos1 refs1,
        matchInfoMap d rule infoMap imageInfos imageRefs = (infos1, refs1) := ⟨_, _, rfl⟩
    rw [h1] at h
    simp only at h
    have ih2 := ih infos1 refs1
    simp only [extractedImages] at ih2 ⊢
    simp only [matchImages, h1, ih2]
    rw [h]
    simp only [List.map_cons, List.flatten_cons, List.append_assoc,
      List.map_append, List.flatten_append, List.map_map]
    rfl

/-- The string returned by `getMatchingImages` lists the declared patterns of the rule
once for every extracted image. -/
theorem getMatchingImages_refs {σ : Type} (d : Driver σ) (images : ImageMap) (rule : Rule) :
    (getMatchingImages d images rule).2 =
      String.intercalate ","
        ((extractedImages images).map fun _ => declaredReferences d rule).flatten := by
  have h := matchImages_refs d rule images [] []
  obtain ⟨infos1, refs1, h1⟩ : ∃ infos1 refs1, matchImages d rule images [] [] = (infos1, refs1) :=
    ⟨_, _, rfl⟩
  rw [h1] at h
  simp only [List.nil_append] at h
  simp only [getMatchingImages, h1, h]

/-- C20, divergence of the code: for a rule whose only clause declares the pattern
`gcr.io/foo/*`, `getMatchingImages` returns the empty string when no image is extracted
and the pattern twice when two images are extracted, none of which matches; the Skip
message of `VerifyAndPatchImages` then names the empty string, respectively the
pattern twice. -/
theorem getMatchingImages_repeats_patterns :
    getMatchingImages (Example.driver (Example.env Example.acceptAC ("", none)) [])
        [] (Example.ruleOf [Example.clause [] false]) = ([], "") ∧
      getMatchingImages (Example.driver (Example.env Example.acceptAC ("", none)) [])
        [("containers", [("nginx", Example.nginx), ("redis", Example.redis)])]
        (Example.ruleOf [Example.clause [] false]) = ([], "gcr.io/foo/*,gcr.io/foo/*") ∧
      (Example.responsesOf (VerifyAndPatchImages
        (Example.driver (Example.env Example.acceptAC ("", none)) [])
        (Example.policyOf ApplyRulesType.ApplyAll [Example.ruleOf [Example.clause [] false]])
        Example.resource Example.resource ())).map (fun rr => (rr.Status, rr.Message)) =
        [(RuleStatus.Skip,
          "skip run verification as image in resource not found in imageRefs ''")] ∧
      (Example.responsesOf (VerifyAndPatchImages
        (Example.driver (Example.env Example.acceptAC ("", none))
          [("containers", [("nginx", Example.nginx), ("redis", Example.redis)])])
        (Example.policyOf ApplyRulesType.ApplyAll [Example.ruleOf [Example.clause [] false]])
        Example.resource Example.resource ())).map (fun rr => (rr.Status, rr.Message)) =
        [(RuleStatus.Skip, "skip run verification as image in resource not found in imageRefs " ++
          "'gcr.io/foo/*,gcr.io/foo/*'")] := by
  refine ⟨by rfl, by rfl, by decide, by decide⟩

/-! ## Calls of `Checkpoint` and `Restore` in `VerifyAndPatchImages` (C16) -/

/-- C16, divergence of the code: for a policy with one rule that matches the image of
the resource, `VerifyAndPatchImages` calls `Checkpoint` once and `Restore` twice (once
in the rule loop before the context of the rule is loaded, once deferred); for a
policy without rule it calls each of them once. -/
theorem VerifyAndPatchImages_restores_twice :
    Example.contextOf (VerifyAndPatchImages
        (Example.driver Example.countingEnv [("containers", [("app", Example.image)])])
        (Example.policyOf ApplyRulesType.ApplyAll
          [Example.ruleOf [Example.clause [AttestorSet.mk none [keyEntry "A"]] false]])
        Example.resource Example.resource (0, 0)) = some (1, 2) ∧
      (Example.responsesOf (VerifyAndPatchImages
        (Example.driver Example.countingEnv [("containers", [("app", Example.image)])])
        (Example.policyOf ApplyRulesType.ApplyAll
          [Example.ruleOf [Example.clause [AttestorSet.mk none [keyEntry "A"]] false]])
        Example.resource Example.resource (0, 0))).map (fun rr => rr.Status) =
        [RuleStatus.Pass] ∧
      Example.contextOf (VerifyAndPatchImages
        (Example.driver Example.countingEnv [("containers", [("app", Example.image)])])
        (Example.policyOf ApplyRulesType.ApplyAll [])
        Example.resource Example.resource (0, 0)) = some (1, 1) := by
  refine ⟨by decide, by decide, by decide⟩

/-! ## The rule responses appended for a rule (C17, C19) -/

/-- The loop body of `verify` leaves the engine response as it is or appends one rule
response and counts one more applied rule. -/
theorem verifyImageInfo_applied {σ : Type} (env : Env σ)
    (newResource oldResource : unstructured.Unstructured) (rule : Rule)
    (imageVerify : ImageVerification) (st st2 : VerifierState σ) (imageInfo : ImageInfo)
    (calls : List Call)
    (h : verifyImageInfo env newResource oldResource rule imageVerify st imageInfo =
      (calls, .done st2)) :
    st2.resp = st.resp ∨
      ∃ rr, st2.resp =
        incrementAppliedCount { st.resp with Rules := st.resp.Rules ++ [rr] } := by
  unfold verifyImageInfo at h
  cases ht : hasImageVerifiedAnnotationChanged newResource oldResource with
  | true =>
    simp only [ht, if_true, Prod.mk.injEq, Run.done.injEq] at h
    obtain ⟨-, rfl⟩ := h
    exact Or.inr ⟨_, rfl⟩
  | false =>
    simp only [ht, Bool.false_eq_true, if_false] at h
    split at h
    · simp only [Prod.mk.injEq, Run.done.injEq] at h
      obtain ⟨-, rfl⟩ := h
      exact Or.inl rfl
    · split at h
      · simp only [Prod.mk.injEq, Run.done.injEq] at h
        obtain ⟨-, rfl⟩ := h
        exact Or.inl rfl
      · split at h
        · simp at h
        · rename_i ctx calls1 ruleResp digest hvi
          obtain ⟨calls2, out, image, hmd⟩ : ∃ calls2 out image,
              mutateDigestStep env rule imageVerify imageInfo ruleResp digest =
                (calls2, out, image) := ⟨_, _, _, rfl⟩
          simp only [hmd, Prod.mk.injEq, Run.done.injEq] at h
          obtain ⟨-, rfl⟩ := h
          cases out with
          | none => exact Or.inl rfl
          | some rr => exact Or.inr ⟨rr, rfl⟩

/-- The loop of `verify` appends at most one rule response for each entry of the list
of matched images, in the order of the list, and counts each of them as an applied
rule. -/
theorem verifyLoop_appended {σ : Type} (env : Env σ)
    (newResource oldResource : unstructured.Unstructured) (rule : Rule)
    (imageVerify : ImageVerification) (images : List ImageInfo) :
    ∀ (st st2 : VerifierState σ) (calls : List Call),
      verifyLoop env newResource oldResource rule imageVerify st images = (calls, .done st2) →
      ∃ (evaluated : List ImageInfo) (appended : List RuleResponse),
        evaluated.Sublist images ∧ st2.resp.Rules = st.resp.Rules ++ appended ∧
          st2.resp.RulesAppliedCount = st.resp.RulesAppliedCount + appended.length ∧
          st2.resp.RulesErrorCount = st.resp.RulesErrorCount ∧
          List.Forall₂ (appendedFor env newResource oldResource rule imageVerify)
            evaluated appended := by
  induction images with
  | nil =>
    intro st st2 calls h
    simp only [verifyLoop, Prod.mk.injEq, Run.done.injEq] at h
    obtain ⟨-, rfl⟩ := h
    exact ⟨[], [], List.Sublist.refl _, by simp, by simp, rfl, List.Forall₂.nil⟩
  | cons info rest ih =>
    intro st st2 calls h
    simp only [verifyLoop] at h
    split at h
    · simp at h
    · rename_i calls1 st1 hstep
      simp only [andThen, Prod.mk.injEq] at h
      obtain ⟨evaluated, appended, hsub, hrules, hcount, herr, hall⟩ :=
        ih st1 st2 _ (Prod.ext rfl h.2)
      rcases verifyImageInfo_applied env newResource oldResource rule imageVerify st st1 info _
          hstep with h1 | ⟨rr, h1⟩
      · exact ⟨evaluated, appended, List.Sublist.cons _ hsub, by rw [hrules, h1],
          by rw [hcount, h1], by rw [herr, h1], hall⟩
      · refine ⟨info :: evaluated, rr :: appended, List.Sublist.cons₂ _ hsub, ?_, ?_, ?_,
          List.Forall₂.cons ⟨st, st1, _, hstep, ?_⟩ hall⟩
        · rw [hrules, h1]; simp [incrementAppliedCount]
        · rw [hcount, h1]; simp [incrementAppliedCount]; omega
        · rw [herr, h1]; simp [incrementAppliedCount]
        · rw [h1]; simp [incrementAppliedCount]

/-- The loop over the clauses of a rule appends, clause after clause, the responses of
`verify` for the clause, and counts each of them as an applied rule. -/
theorem verifyClauses_appended {σ : Type} (d : Driver σ)
    (newResource oldResource : unstructured.Unstructured) (ruleCopy : Rule)
    (ruleImages : List ImageInfo) (clauses : List ImageVerification) :
    ∀ (st st2 : VerifierState σ) (calls : List Call),
      verifyClauses d newResource oldResource ruleCopy ruleImages st clauses =
        (calls, .done st2) →
      ∃ perClause : List (List RuleResponse),
        st2.resp.Rules = st.resp.Rules ++ perClause.flatten ∧
          st2.resp.RulesAppliedCount = st.resp.RulesAppliedCount + perClause.flatten.length ∧
          st2.resp.RulesErrorCount = st.resp.RulesErrorCount ∧
          List.Forall₂ (clauseResponses d.env newResource oldResource ruleCopy ruleImages)
            clauses perClause := by
  induction clauses with
  | nil =>
    intro st st2 calls h
    simp only [verifyClauses, Prod.mk.injEq, Run.done.injEq] at h
    obtain ⟨-, rfl⟩ := h
    exact ⟨[], by simp, by simp, rfl, List.Forall₂.nil⟩
  | cons clause rest ih =>
    intro st st2 calls h
    simp only [verifyClauses] at h
    split at h
    · simp at h
    · rename_i calls1 st1 hstep
      simp only [andThen, Prod.mk.injEq] at h
      obtain ⟨perClause, hrules, hcount, herr, hall⟩ := ih st1 st2 _ (Prod.ext rfl h.2)
      obtain ⟨evaluated, appended, hsub, h1, h2, h3, h4⟩ :=
        verifyLoop_appended d.env newResource oldResource ruleCopy (d.env.Convert clause)
          ruleImages st st1 _ hstep
      refine ⟨appended :: perClause, ?_, ?_, ?_, List.Forall₂.cons ⟨evaluated, hsub, h4⟩ hall⟩
      · rw [hrules, h1]; simp
      · rw [hcount, h2]; simp; omega
      · rw [herr, h3]

/-- The outcomes of the loop body of `VerifyAndPatchImages` for one rule: the rule is
passed over, with no response or with one response of status `Skip` or `Error`, or its
clauses are verified against the matched images. -/
theorem processRule_cases {σ : Type} (d : Driver σ) (policy : Policy)
    (newResource oldResource : unstructured.Unstructured) (st st2 : VerifierState σ)
    (rule : Rule) (calls : List Call) (leave : Bool)
    (h : processRule d policy newResource oldResource st rule = (calls, .done (st2, leave))) :
    (leave = false ∧ st2.resp.RulesAppliedCount = st.resp.RulesAppliedCount ∧
      (st2.resp.Rules = st.resp.Rules ∨
        ∃ msg status, (status = RuleStatus.Skip ∨ status = RuleStatus.Error) ∧
          st2.resp.Rules =
            st.resp.Rules ++ [ruleResponse rule RuleType.ImageVerify msg status])) ∨
      ∃ (ruleCopy : Rule) (appended : List RuleResponse),
        (extractMatchingImages d st.ctx newResource rule).2.1 ≠ [] ∧
          st2.resp.Rules = st.resp.Rules ++ appended ∧
          st2.resp.RulesAppliedCount = st.resp.RulesAppliedCount + appended.length ∧
          leave = decide (policy.ApplyRules = ApplyRulesType.ApplyOne ∧
            st2.resp.RulesAppliedCount > 0) ∧
          ruleResponses d.env newResource oldResource ruleCopy
            (extractMatchingImages d st.ctx newResource rule).2.1 appended := by
  unfold processRule at h
  split at h
  · simp only [Prod.mk.injEq, Run.done.injEq] at h
    obtain ⟨-, rfl, rfl⟩ := h
    exact Or.inl ⟨rfl, rfl, Or.inl rfl⟩
  · split at h
    · simp only [Prod.mk.injEq, Run.done.injEq] at h
      obtain ⟨-, rfl, rfl⟩ := h
      exact Or.inl ⟨rfl, rfl, Or.inl rfl⟩
    · split at h
      · simp only [Prod.mk.injEq, Run.done.injEq] at h
        obtain ⟨-, rfl, rfl⟩ := h
        exact Or.inl ⟨rfl, rfl,
          Or.inr ⟨_, _, Or.inr rfl, rfl⟩⟩
      · rename_i ctx1 ruleImages imageRefs hex
        split at h
        · simp only [Prod.mk.injEq, Run.done.injEq] at h
          obtain ⟨-, rfl, rfl⟩ := h
          exact Or.inl ⟨rfl, rfl,
            Or.inr ⟨_, _, Or.inl rfl, rfl⟩⟩
        · rename_i hlen
          simp only at h
          split at h
          · simp only [Prod.mk.injEq, Run.done.injEq] at h
            obtain ⟨-, rfl, rfl⟩ := h
            exact Or.inl ⟨rfl, rfl,
              Or.inr ⟨_, _, Or.inr rfl, rfl⟩⟩
          · rename_i ctx2 hload
            split at h
            · simp at h
            · simp only [Prod.mk.injEq, Run.done.injEq] at h
              obtain ⟨-, rfl, rfl⟩ := h
              exact Or.inl ⟨rfl, rfl,
                Or.inr ⟨_, _, Or.inr rfl, rfl⟩⟩
            · rename_i m cell hsub
              split at h
              · simp at h
              · rename_i calls1 st3 hclauses
                simp only [Prod.mk.injEq, Run.done.injEq] at h
                obtain ⟨-, rfl, rfl⟩ := h
                obtain ⟨perClause, h1, h2, -, h4⟩ :=
                  verifyClauses_appended d newResource oldResource (cell.rule m) ruleImages
                    (cell.rule m).VerifyImages _ _ _ hclauses
                have himages : (extractMatchingImages d st.ctx newResource rule).2.1 =
                    ruleImages := by rw [hex]
                right
                refine ⟨cell.rule m, perClause.flatten, ?_, h1, h2, rfl, ?_⟩
                · rw [himages]
                  intro hnil
                  exact hlen (by simp [hnil])
                · rw [himages]
                  exact ⟨perClause, rfl, h4⟩

/-- C19 fails on the code: the rule has a clause for `gcr.io/foo/*` and a clause for
`docker.io/*`, the resource has the images `gcr.io/foo/bar:v1` and
`docker.io/library/nginx:latest`, each matched by the patterns of one clause only, and
no image is skipped.  `VerifyAndPatchImages` appends four rule responses, two for each
image, since every clause is verified against both images; the responses of the first
image are not next to each other. -/
theorem VerifyAndPatchImages_two_responses_per_image :
    extractedImages [("containers", [("app", Example.image), ("nginx", Example.nginx)])] =
        [Example.image, Example.nginx] ∧
      (getMatchingImages (Example.driver (Example.env Example.acceptAC ("", none)) [])
        [("containers", [("app", Example.image), ("nginx", Example.nginx)])]
        (Example.ruleOf [Example.clauseFor ["gcr.io/foo/*"] [AttestorSet.mk none [keyEntry "A"]],
          Example.clauseFor ["docker.io/*"] [AttestorSet.mk none [keyEntry "A"]]])).1 =
        [Example.image, Example.nginx] ∧
      (Example.responsesOf (VerifyAndPatchImages
        (Example.driver (Example.env Example.acceptAC ("", none))
          [("containers", [("app", Example.image), ("nginx", Example.nginx)])])
        (Example.policyOf ApplyRulesType.ApplyAll
          [Example.ruleOf [Example.clauseFor ["gcr.io/foo/*"] [AttestorSet.mk none [keyEntry "A"]],
            Example.clauseFor ["docker.io/*"] [AttestorSet.mk none [keyEntry "A"]]]])
        Example.resource Example.resource ())).map (fun rr => (rr.Status, rr.Message)) =
        [(RuleStatus.Pass, "verified image attestations for gcr.io/foo/bar:v1"),
          (RuleStatus.Pass, "verified image attestations for docker.io/library/nginx:latest"),
          (RuleStatus.Pass, "verified image attestations for gcr.io/foo/bar:v1"),
          (RuleStatus.Pass, "verified image attestations for docker.io/library/nginx:latest")] := by
  refine ⟨by decide, by decide, by decide⟩

/-- A rule with two clauses and a resource with one image, matched by the patterns of
both clauses: the image enters the list of matched images twice and each clause is
verified against that list, so that four rule responses are appended for the one
image. -/
theorem VerifyAndPatchImages_four_responses_for_one_image :
    extractedImages [("containers", [("app", Example.image)])] = [Example.image] ∧
      (Example.responsesOf (VerifyAndPatchImages
        (Example.driver (Example.env Example.acceptAC ("", none))
          [("containers", [("app", Example.image)])])
        (Example.policyOf ApplyRulesType.ApplyAll
          [Example.ruleOf [Example.clause [AttestorSet.mk none [keyEntry "A"]] false,
            Example.clause [AttestorSet.mk none [keyEntry "B"]] false]])
        Example.resource Example.resource ())).map (fun rr => (rr.Status, rr.Message)) =
        [(RuleStatus.Pass, "verified image attestations for gcr.io/foo/bar:v1"),
          (RuleStatus.Pass, "verified image attestations for gcr.io/foo/bar:v1"),
          (RuleStatus.Fail, "failed to verify image gcr.io/foo/bar:v1: " ++
            ".attestors[0].entries[0].keys: no matching signatures"),
          (RuleStatus.Fail, "failed to verify image gcr.io/foo/bar:v1: " ++
            ".attestors[0].entries[0].keys: no matching signatures")] := by
  refine ⟨by decide, by decide⟩

/-- With `applyRules` set to `ApplyOne` and no rule applied so far, the loop over the
rules appends responses of status `Skip` or `Error` and then the responses of at most
one rule, which are all the responses counted as applied. -/
theorem rulesLoop_apply_one {σ : Type} (d : Driver σ) (policy : Policy)
    (newResource oldResource : unstructured.Unstructured)
    (hone : policy.ApplyRules = ApplyRulesType.ApplyOne) (rules : List Rule) :
    ∀ (st st2 : VerifierState σ) (calls : List Call),
      st.resp.RulesAppliedCount = 0 →
      rulesLoop d policy newResource oldResource st rules = (calls, .done st2) →
      ∃ skipped applied : List RuleResponse,
        st2.resp.Rules = st.resp.Rules ++ (skipped ++ applied) ∧
          (∀ rr ∈ skipped, rr.Status = RuleStatus.Skip ∨ rr.Status = RuleStatus.Error) ∧
          st2.resp.RulesAppliedCount = applied.length ∧
          (applied = [] ∨ ∃ rule ∈ rules, ∃ (ruleCopy : Rule) (ruleImages : List ImageInfo),
            ruleResponses d.env newResource oldResource ruleCopy ruleImages applied) := by
  induction rules with
  | nil =>
    intro st st2 calls hzero h
    simp only [rulesLoop, Prod.mk.injEq, Run.done.injEq] at h
    obtain ⟨-, rfl⟩ := h
    exact ⟨[], [], by simp, by simp, by simp [hzero], Or.inl rfl⟩
  | cons rule rest ih =>
    intro st st2 calls hzero h
    simp only [rulesLoop] at h
    split at h
    · simp at h
    · rename_i calls1 st1 leave hstep
      rcases processRule_cases d policy newResource oldResource st st1 rule calls1 leave hstep with
        ⟨hleave, hcount, hrules⟩ | ⟨ruleCopy, appended, -, h1, hcount, hleave, h2⟩
      · subst hleave
        simp only [Bool.false_eq_true, if_false, andThen, Prod.mk.injEq] at h
        obtain ⟨skipped, applied, hr, hs, hc, ha⟩ :=
          ih st1 st2 _ (by rw [hcount, hzero]) (Prod.ext rfl h.2)
        have ha2 : applied = [] ∨ ∃ r ∈ rule :: rest, ∃ (ruleCopy : Rule)
            (ruleImages : List ImageInfo),
            ruleResponses d.env newResource oldResource ruleCopy ruleImages applied := by
          rcases ha with ha | ⟨r, hr, hx⟩
          · exact Or.inl ha
          · exact Or.inr ⟨r, List.mem_cons_of_mem _ hr, hx⟩
        rcases hrules with hsame | ⟨msg, status, hstatus, hone1⟩
        · exact ⟨skipped, applied, by rw [hr, hsame], hs, hc, ha2⟩
        · refine ⟨ruleResponse rule RuleType.ImageVerify msg status :: skipped, applied, ?_, ?_,
            hc, ha2⟩
          · rw [hr, hone1]; simp
          · intro rr hrr
            rcases List.mem_cons.1 hrr with rfl | hrr
            · simpa [ruleResponse] using hstatus
            · exact hs rr hrr
      · rw [hzero, zero_add] at hcount
        cases appended with
        | nil =>
          have hc0 : st1.resp.RulesAppliedCount = 0 := by simpa using hcount
          have hfalse : leave = false := by rw [hleave, hc0]; simp
          subst hfalse
          simp only [Bool.false_eq_true, if_false, andThen, Prod.mk.injEq] at h
          obtain ⟨skipped, applied, hr, hs, hc, ha⟩ := ih st1 st2 _ hc0 (Prod.ext rfl h.2)
          refine ⟨skipped, applied, by rw [hr, h1]; simp, hs, hc, ?_⟩
          rcases ha with ha | ⟨r, hr, hx⟩
          · exact Or.inl ha
          · exact Or.inr ⟨r, List.mem_cons_of_mem _ hr, hx⟩
        | cons rr more =>
          have hpos : st1.resp.RulesAppliedCount > 0 := by
            rw [hcount]; simp only [List.length_cons]; omega
          have htrue : leave = true := by rw [hleave]; simp [hone, hpos]
          subst htrue
          simp only [if_true, Prod.mk.injEq, Run.done.injEq] at h
          obtain ⟨-, rfl⟩ := h
          exact ⟨[], rr :: more, by rw [h1]; simp, by simp, hcount,
            Or.inr ⟨rule, List.mem_cons_self _ _, ruleCopy, _, h2⟩⟩

/-- C17 as stated fails: with `applyRules` set to `ApplyOne`, a policy with one rule of
one clause and a resource with two matching images yields two rule responses of status
`Pass` (two of status `Fail` when the attestor rejects the images). -/
theorem VerifyAndPatchImages_apply_one_two_passes :
    (Example.responsesOf (VerifyAndPatchImages
        (Example.driver (Example.env Example.acceptAC ("", none))
          [("containers", [("app", Example.image), ("sidecar", Example.image2)])])
        (Example.policyOf ApplyRulesType.ApplyOne
          [Example.ruleOf [Example.clause [AttestorSet.mk none [keyEntry "A"]] false]])
        Example.resource Example.resource ())).map (fun rr => rr.Status) =
        [RuleStatus.Pass, RuleStatus.Pass] ∧
      (Example.responsesOf (VerifyAndPatchImages
        (Example.driver (Example.env Example.acceptAC ("", none))
          [("containers", [("app", Example.image), ("sidecar", Example.image2)])])
        (Example.policyOf ApplyRulesType.ApplyOne
          [Example.ruleOf [Example.clause [AttestorSet.mk none [keyEntry "B"]] false]])
        Example.resource Example.resource ())).map (fun rr => rr.Status) =
        [RuleStatus.Fail, RuleStatus.Fail] := by
  refine ⟨by decide, by decide⟩

/-- C17, amended: for a policy with `applyRules` set to `ApplyOne`, the response
returned by `VerifyAndPatchImages` consists of responses of status `Skip` or `Error`
followed by the responses of at most one rule, appended clause after clause and image
after image by `verify`; these are the responses counted as applied, and there may be
several of them. -/
theorem VerifyAndPatchImages_apply_one {σ : Type} (d : Driver σ) (policy : Policy)
    (newResource oldResource : unstructured.Unstructured) (ctx ctx2 : σ)
    (calls : List Call) (resp : EngineResponse) (ivm : List (String × Bool))
    (hone : policy.ApplyRules = ApplyRulesType.ApplyOne)
    (h : VerifyAndPatchImages d policy newResource oldResource ctx =
      (calls, .done (ctx2, resp, ivm))) :
    ∃ skipped applied : List RuleResponse,
      resp.Rules = skipped ++ applied ∧
        (∀ rr ∈ skipped, rr.Status = RuleStatus.Skip ∨ rr.Status = RuleStatus.Error) ∧
        resp.RulesAppliedCount = applied.length ∧
        (applied = [] ∨ ∃ rule ∈ policy.Rules, ∃ (ruleCopy : Rule) (ruleImages : List ImageInfo),
          ruleResponses d.env newResource oldResource ruleCopy ruleImages applied) := by
  simp only [VerifyAndPatchImages] at h
  split at h
  · simp at h
  · rename_i calls1 st2 hloop
    simp only [Prod.mk.injEq, Run.done.injEq] at h
    obtain ⟨-, -, rfl, -⟩ := h
    obtain ⟨skipped, applied, hr, hs, hc, ha⟩ :=
      rulesLoop_apply_one d policy newResource oldResource hone policy.Rules _ st2 _ rfl hloop
    exact ⟨skipped, applied, by simpa using hr, hs, hc, ha⟩

theorem VerifyAndPatchImages_apply_one_witness :
    ∃ skipped applied : List RuleResponse,
      Example.responsesOf (VerifyAndPatchImages
          (Example.driver (Example.env Example.acceptAC ("", none))
            [("containers", [("app", Example.image), ("sidecar", Example.image2)])])
          (Example.policyOf ApplyRulesType.ApplyOne
            [Example.ruleOf [],
              Example.ruleOf [Example.clause [AttestorSet.mk none [keyEntry "A"]] false],
              Example.ruleOf [Example.clause [AttestorSet.mk none [keyEntry "B"]] false]])
          Example.resource Example.resource ()) = skipped ++ applied ∧
        (∀ rr ∈ skipped, rr.Status = RuleStatus.Skip ∨ rr.Status = RuleStatus.Error) ∧
        (2 : Int) = applied.length ∧
        (applied = [] ∨ ∃ rule ∈ [Example.ruleOf [],
              Example.ruleOf [Example.clause [AttestorSet.mk none [keyEntry "A"]] false],
              Example.ruleOf [Example.clause [AttestorSet.mk none [keyEntry "B"]] false]],
          ∃ (ruleCopy : Rule) (ruleImages : List ImageInfo),
          ruleResponses (Example.env Example.acceptAC ("", none)) Example.resource
            Example.resource ruleCopy ruleImages applied) :=
  VerifyAndPatchImages_apply_one
    (Example.driver (Example.env Example.acceptAC ("", none))
      [("containers", [("app", Example.image), ("sidecar", Example.image2)])])
    (Example.policyOf ApplyRulesType.ApplyOne
      [Example.ruleOf [],
        Example.ruleOf [Example.clause [AttestorSet.mk none [keyEntry "A"]] false],
        Example.ruleOf [Example.clause [AttestorSet.mk none [keyEntry "B"]] false]])
    Example.resource Example.resource () _ _ _ _ rfl rfl

/-! ## Substitution of variables in a rule (C21) -/

/-- The last loop of `substituteVariables` returns when the copy has at least as many
clauses as the rule; it keeps the number of clauses of the copy, puts the attestations
of clause `i` of the rule into clause `i` of the copy and leaves the other fields and
the clauses beyond those of the rule as they are. -/
theorem replaceAttestations_spec :
    ∀ (original copy : List ImageVerification), original.length ≤ copy.length →
      ∃ out : List ImageVerification, replaceAttestations copy original = .done out ∧
        out.length = copy.length ∧
        (∀ (i : Nat) (v : ImageVerification), original[i]? = some v →
          ∃ c : ImageVerification, copy[i]? = some c ∧
          out[i]? = some { c with Attestations := v.Attestations }) ∧
        (∀ i : Nat, original.length ≤ i → out[i]? = copy[i]?) := by
  intro original
  induction original with
  | nil =>
    intro copy _
    refine ⟨copy, ?_, rfl, ?_, fun i _ => rfl⟩
    · cases copy <;> rfl
    · intro i v h; simp at h
  | cons v rest ih =>
    intro copy hlen
    cases copy with
    | nil => simp at hlen
    | cons c copy =>
      obtain ⟨out, h1, h2, h3, h4⟩ := ih copy (by simpa using hlen)
      refine ⟨{ c with Attestations := v.Attestations } :: out, ?_, by simp [h2], ?_, ?_⟩
      · simp [replaceAttestations, h1]
      · intro i w hi
        cases i with
        | zero =>
          simp only [List.getElem?_cons_zero, Option.some.injEq] at hi
          subst hi
          exact ⟨c, by simp, by simp⟩
        | succ i =>
          simp only [List.getElem?_cons_succ] at hi ⊢
          exact h3 i w hi
      · intro i hi
        cases i with
        | zero => simp at hi
        | succ i =>
          simp only [List.getElem?_cons_succ]
          exact h4 i (by simpa using hi)

theorem replaceAttestations_fewer :
    ∀ (original copy : List ImageVerification), copy.length < original.length →
      replaceAttestations copy original = .panicked := by
  intro original
  induction original with
  | nil => intro copy h; simp at h
  | cons v rest ih =>
    intro copy h
    cases copy with
    | nil => rfl
    | cons c copy =>
      simp [replaceAttestations, ih copy (by simpa using h)]

theorem Memory.array_alloc_old (m : Memory) (elements : List ImageVerification) (address : Nat)
    (h : address < m.length) : (m.alloc elements).1.array address = m.array address := by
  simp [Memory.alloc, Memory.array, List.getD_eq_getElem?_getD, List.getElem?_append_left h]

theorem Memory.array_alloc_new (m : Memory) (elements : List ImageVerification) :
    (m.alloc elements).1.array (m.alloc elements).2 = elements := by
  simp [Memory.alloc, Memory.array, List.getD_eq_getElem?_getD]

theorem Memory.array_write_same (m : Memory) (elements : List ImageVerification) (address : Nat)
    (h : address < m.length) : (m.write address elements).array address = elements := by
  simp [Memory.write, Memory.array, List.getD_eq_getElem?_getD, h]

theorem Memory.array_write_other (m : Memory) (elements : List ImageVerification)
    (address other : Nat) (h : other ≠ address) :
    (m.write address elements).array other = m.array other := by
  simp [Memory.write, Memory.array, List.getD_eq_getElem?_getD, List.getElem?_set_ne h.symm]

/-- The memory in which `substituteVariables` calls `SubstituteAllInRule` and the rule
that it hands over: the deep copy lies at a new address, every backing array that was
there before the call is as before, and the rule handed over is the rule without its
attestations. -/
theorem substituteVariables_copy (m : Memory) (rule : RuleValue) :
    ((rule.DeepCopy m).2.rule ((rule.DeepCopy m).1.write (rule.DeepCopy m).2.VerifyImages
        (((rule.DeepCopy m).1.array (rule.DeepCopy m).2.VerifyImages).map
          fun v => { v with Attestations := [] })) =
      withoutAttestations (rule.rule m)) ∧
      ∀ address, address < m.length →
        ((rule.DeepCopy m).1.write (rule.DeepCopy m).2.VerifyImages
          (((rule.DeepCopy m).1.array (rule.DeepCopy m).2.VerifyImages).map
            fun v => { v with Attestations := [] })).array address = m.array address := by
  have hnew : (rule.DeepCopy m).2.VerifyImages = m.length := rfl
  have hmem : (rule.DeepCopy m).1 = m ++ [m.array rule.VerifyImages] := rfl
  have hlen : m.length < (m ++ [m.array rule.VerifyImages]).length := by simp
  constructor
  · simp only [RuleValue.rule, withoutAttestations, hnew, hmem]
    rw [Memory.array_write_same _ _ _ hlen]
    have := Memory.array_alloc_new m (m.array rule.VerifyImages)
    simp only [Memory.alloc] at this
    rw [this]
    rfl
  · intro address h
    rw [hnew, hmem, Memory.array_write_other _ _ _ _ (Nat.ne_of_lt h)]
    exact Memory.array_alloc_old m _ address h

/-- C21 as stated fails: a substitution that succeeds and returns the rule without its
clauses makes `substituteVariables` panic in its last loop (index out of range), so
that no rule is returned. -/
theorem substituteVariables_panics_on_fewer_clauses :
    Example.droppingDriver.SubstituteAllInRule ()
        (withoutAttestations (Example.ruleOf [Example.provenanceClause []])) =
      ({ Name := "check-image", VerifyImages := [] }, none) ∧
      (substituteVariables Example.droppingDriver [[Example.provenanceClause []]]
        ((Example.ruleOf [Example.provenanceClause []]).valueAt 0) ()).2 = .panicked := by
  refine ⟨by rfl, by rfl⟩

/-- C21, amended: for a rule that lies in memory, when `SubstituteAllInRule`, called on
the copy of the rule without its attestations, succeeds with a copy that has at least
as many clauses as the rule, `substituteVariables` returns a rule and leaves the input
rule unchanged: every
backing array that was in memory before the call, that of the input rule among them,
holds the same clauses after the call.  The fields of the returned rule are those of
the substituted copy, except that for every index `i` of a clause of the input rule the
attestations of clause `i` are those of clause `i` of the input rule, whatever the
substitution did to the copy. -/
theorem substituteVariables_frame {σ : Type} (d : Driver σ) (m : Memory) (rule : RuleValue)
    (ctx : σ) (copy : Rule)
    (hrule : rule.VerifyImages < m.length)
    (hsub : d.SubstituteAllInRule ctx (withoutAttestations (rule.rule m)) = (copy, none))
    (hlen : (rule.rule m).VerifyImages.length ≤ copy.VerifyImages.length) :
    ∃ (m2 : Memory) (out : RuleValue),
      substituteVariables d m rule ctx = (m2, .done (.ok out)) ∧
      (∀ address, address < m.length → m2.array address = m.array address) ∧
      rule.rule m2 = rule.rule m ∧
      (out.rule m2).Name = copy.Name ∧
      (out.rule m2).ImageExtractors = copy.ImageExtractors ∧
      (out.rule m2).Context = copy.Context ∧
      (out.rule m2).VerifyImages.length = copy.VerifyImages.length ∧
      (∀ (i : Nat) (v : ImageVerification), (rule.rule m).VerifyImages[i]? = some v →
        ∃ c : ImageVerification, copy.VerifyImages[i]? = some c ∧
          (out.rule m2).VerifyImages[i]? = some { c with Attestations := v.Attestations }) ∧
      (∀ (i : Nat) (v : ImageVerification), (rule.rule m).VerifyImages[i]? = some v →
        ((out.rule m2).VerifyImages[i]?).map (fun o => o.Attestations) =
          some v.Attestations) := by
  obtain ⟨hcopy, hframe⟩ := substituteVariables_copy m rule
  obtain ⟨m1, hm1⟩ : ∃ m1, m1 = (rule.DeepCopy m).1.write (rule.DeepCopy m).2.VerifyImages
      (((rule.DeepCopy m).1.array (rule.DeepCopy m).2.VerifyImages).map
        fun v => { v with Attestations := [] }) := ⟨_, rfl⟩
  rw [← hm1] at hcopy hframe
  have hm1len : m1.length = m.length + 1 := by
    rw [hm1]
    show (List.set (m ++ [m.array rule.VerifyImages]) _ _).length = _
    simp
  have hlt : rule.VerifyImages < m1.length := by omega
  have hin : ((m1.alloc copy.VerifyImages).1.array rule.VerifyImages) =
      m.array rule.VerifyImages := by
    rw [Memory.array_alloc_old m1 _ _ hlt, hframe _ hrule]
  have hlen2 : (m.array rule.VerifyImages).length ≤ copy.VerifyImages.length := hlen
  obtain ⟨out, h1, h2, h3, -⟩ :=
    replaceAttestations_spec (m.array rule.VerifyImages) copy.VerifyImages hlen2
  have hrun : substituteVariables d m rule ctx =
      ((m1.alloc copy.VerifyImages).1.write m1.length out,
        .done (.ok (copy.valueAt m1.length))) := by
    have hnew := Memory.array_alloc_new m1 copy.VerifyImages
    simp only [substituteVariables]
    rw [← hm1, hcopy, hsub]
    simp only [Rule.valueAt]
    rw [hnew, hin, h1]
    rfl
  have hout : ((m1.alloc copy.VerifyImages).1.write m1.length out).array m1.length = out := by
    apply Memory.array_write_same
    simp [Memory.alloc]
  have hold : ∀ address, address < m.length →
      ((m1.alloc copy.VerifyImages).1.write m1.length out).array address = m.array address := by
    intro address h
    rw [Memory.array_write_other _ _ _ _ (by omega),
      Memory.array_alloc_old m1 _ _ (by omega), hframe _ h]
  refine ⟨_, _, hrun, hold, ?_, rfl, rfl, rfl, ?_, ?_, ?_⟩
  · simp only [RuleValue.rule, hold _ hrule]
  · simp only [RuleValue.rule, Rule.valueAt, hout, h2]
  · intro i v hi
    simp only [RuleValue.rule, Rule.valueAt, hout]
    exact h3 i v hi
  · intro i v hi
    obtain ⟨c, -, hc⟩ := h3 i v hi
    simp only [RuleValue.rule, Rule.valueAt, hout, hc, Option.map_some']

/-- Witness of `substituteVariables_frame`: the rule, with two clauses of which the
first has an attestation clause, lies at address `1` of a memory that also holds the
clauses of another rule, and the substitution renames the rule, sets the repository of
the clauses and writes into their attestations. -/
theorem substituteVariables_frame_witness :
    ∃ (m2 : Memory) (out : RuleValue),
      substituteVariables Example.substitutingDriver
          [[Example.clause [] true], [Example.provenanceClause [], Example.clause [] false]]
          (Example.ruleAt 1) () = (m2, .done (.ok out)) ∧
      (∀ address, address <
          ([[Example.clause [] true],
            [Example.provenanceClause [], Example.clause [] false]] : Memory).length →
        m2.array address =
          Memory.array [[Example.clause [] true],
            [Example.provenanceClause [], Example.clause [] false]] address) ∧
      (Example.ruleAt 1).rule m2 =
        (Example.ruleAt 1).rule
          [[Example.clause [] true], [Example.provenanceClause [], Example.clause [] false]] ∧
      (out.rule m2).Name = "check-image-substituted" ∧
      (out.rule m2).ImageExtractors = none ∧
      (out.rule m2).Context = [] ∧
      (out.rule m2).VerifyImages.length = 2 ∧
      (∀ (i : Nat) (v : ImageVerification),
        ((Example.ruleAt 1).rule
          [[Example.clause [] true],
            [Example.provenanceClause [], Example.clause [] false]]).VerifyImages[i]? = some v →
        ∃ c : ImageVerification,
          (Example.substituter (withoutAttestations ((Example.ruleAt 1).rule
            [[Example.clause [] true],
              [Example.provenanceClause [], Example.clause [] false]]))).VerifyImages[i]? =
            some c ∧
          (out.rule m2).VerifyImages[i]? = some { c with Attestations := v.Attestations }) ∧
      (∀ (i : Nat) (v : ImageVerification),
        ((Example.ruleAt 1).rule
          [[Example.clause [] true],
            [Example.provenanceClause [], Example.clause [] false]]).VerifyImages[i]? = some v →
        ((out.rule m2).VerifyImages[i]?).map (fun o => o.Attestations) =
          some v.Attestations) :=
  substituteVariables_frame Example.substitutingDriver
    [[Example.clause [] true], [Example.provenanceClause [], Example.clause [] false]]
    (Example.ruleAt 1) ()
    (Example.substituter (withoutAttestations ((Example.ruleAt 1).rule
      [[Example.clause [] true], [Example.provenanceClause [], Example.clause [] false]])))
    (by decide) rfl (by decide)

/-- The run of the witness: the deep copy is allocated at address `2` and stripped of
its attestations there, the substituted copy lies at address `3` with the new
repository and the attestations of the input rule, and the backing arrays at the
addresses `0` and `1` are as before. -/
theorem substituteVariables_example :
    (substituteVariables Example.substitutingDriver
        [[Example.clause [] true], [Example.provenanceClause [], Example.clause [] false]]
        (Example.ruleAt 1) ()).1 =
      [[Example.clause [] true],
        [Example.provenanceClause [], Example.clause [] false],
        [{ Example.provenanceClause [] with Attestations := [] }, Example.clause [] false],
        [{ Example.provenanceClause [] with Repository := "registry.example.com/signatures" },
          { Example.clause [] false with Repository := "registry.example.com/signatures" }]] := by
  rfl

/-- A substitution that returns fewer clauses than the rule has makes
`substituteVariables` panic (index out of range in the last loop). -/
theorem substituteVariables_fewer_clauses {σ : Type} (d : Driver σ) (m : Memory)
    (rule : RuleValue) (ctx : σ) (copy : Rule)
    (hrule : rule.VerifyImages < m.length)
    (hsub : d.SubstituteAllInRule ctx (withoutAttestations (rule.rule m)) = (copy, none))
    (hlen : copy.VerifyImages.length < (rule.rule m).VerifyImages.length) :
    (substituteVariables d m rule ctx).2 = .panicked := by
  obtain ⟨hcopy, hframe⟩ := substituteVariables_copy m rule
  obtain ⟨m1, hm1⟩ : ∃ m1, m1 = (rule.DeepCopy m).1.write (rule.DeepCopy m).2.VerifyImages
      (((rule.DeepCopy m).1.array (rule.DeepCopy m).2.VerifyImages).map
        fun v => { v with Attestations := [] }) := ⟨_, rfl⟩
  rw [← hm1] at hcopy hframe
  have hm1len : m1.length = m.length + 1 := by
    rw [hm1]
    show (List.set (m ++ [m.array rule.VerifyImages]) _ _).length = _
    simp
  have hlt : rule.VerifyImages < m1.length := by omega
  have hin : ((m1.alloc copy.VerifyImages).1.array rule.VerifyImages) =
      m.array rule.VerifyImages := by
    rw [Memory.array_alloc_old m1 _ _ hlt, hframe _ hrule]
  have hnew := Memory.array_alloc_new m1 copy.VerifyImages
  have h := replaceAttestations_fewer (m.array rule.VerifyImages) copy.VerifyImages hlen
  simp only [substituteVariables]
  rw [← hm1, hcopy, hsub]
  simp only [Rule.valueAt]
  rw [hnew, hin, h]

/-! ## A failing digest mutation (C22) -/

/-- C22: for an image that the loop body of `verify` processes (the verify-images
annotation is not tampered with and the image is not skipped) with a clause whose
`mutateDigest` is set, when `verifyImage` returns and `handleMutateDigest` returns an
error, the loop body appends one rule response for the image: the response of status
`Error` with the message `failed to update digest: <error>`, and without patch. -/
theorem verifyImageInfo_digest_error {σ : Type} (env : Env σ)
    (newResource oldResource : unstructured.Unstructured) (rule : Rule)
    (imageVerify : ImageVerification) (st : VerifierState σ) (imageInfo : ImageInfo)
    (changed verified : Bool) (changedErr verifiedErr : Option GoError)
    (ctx : σ) (c1 c2 : List Call) (ruleResp : Option RuleResponse) (digest retrieved : String)
    (patch : Option (List (String × String))) (err : GoError)
    (htamper : hasImageVerifiedAnnotationChanged newResource oldResource = false)
    (hchanged : env.HasChanged st.ctx (env.JMESPath imageInfo.Pointer) = (changed, changedErr))
    (hprocessed : changed = true ∨ changedErr ≠ none)
    (hverified : env.isImageVerified newResource imageInfo.String = (verified, verifiedErr))
    (hunverified : verified = false ∨ verifiedErr ≠ none)
    (hvi : verifyImage env rule st.ctx imageVerify imageInfo =
      (ctx, c1, .done (ruleResp, digest)))
    (hmutate : imageVerify.MutateDigest = true)
    (herr : handleMutateDigest env digest imageInfo = (c2, patch, retrieved, some err)) :
    ∃ st2 : VerifierState σ,
      verifyImageInfo env newResource oldResource rule imageVerify st imageInfo =
        (c1 ++ c2, .done st2) ∧
      st2.resp.Rules =
        st.resp.Rules ++ [ruleError rule RuleType.ImageVerify "failed to update digest" err] ∧
      (ruleError rule RuleType.ImageVerify "failed to update digest" err).Status =
        RuleStatus.Error ∧
      (ruleError rule RuleType.ImageVerify "failed to update digest" err).Patches = [] ∧
      (ruleError rule RuleType.ImageVerify "failed to update digest" err).Message =
        "failed to update digest: " ++ err.Error := by
  have hskip1 : ¬ (changedErr.isNone = true ∧ (!changed) = true) := by
    rintro ⟨h1, h2⟩
    rcases hprocessed with h | h
    · simp [h] at h2
    · cases changedErr with
      | none => exact h rfl
      | some e => simp at h1
  have hskip2 : ¬ (verifiedErr.isNone = true ∧ verified = true) := by
    rintro ⟨h1, h2⟩
    rcases hunverified with h | h
    · simp [h] at h2
    · cases verifiedErr with
      | none => exact h rfl
      | some e => simp at h1
  refine ⟨recordResponse imageVerify { st with ctx := ctx }
      (some (ruleError rule RuleType.ImageVerify "failed to update digest" err))
      imageInfo.String, ?_, ?_, by simp [ruleError, ruleResponse],
    by simp [ruleError, ruleResponse], by simp [ruleError, ruleResponse]⟩
  · simp only [verifyImageInfo, htamper, Bool.false_eq_true, if_false, hchanged, hskip1,
      hverified, hskip2, hvi, mutateDigestStep, hmutate, if_true, herr]
  · simp [recordResponse, incrementAppliedCount]

/-- Witness of `verifyImageInfo_digest_error`: the attestor `A` verifies the image
`gcr.io/foo/bar:v1`, the clause asks for the digest and the registry cannot be
reached. -/
theorem verifyImageInfo_digest_error_witness :
    ∃ (c1 c2 : List Call) (st2 : VerifierState Unit),
      verifyImageInfo (Example.env Example.acceptAC
          ("", some (.opError "dial tcp 10.0.0.1:443: i/o timeout")))
        Example.resource Example.resource Example.rule
        (Example.clause [AttestorSet.mk none [keyEntry "A"]] true) Example.state Example.image =
        (c1 ++ c2, .done st2) ∧
      st2.resp.Rules =
        Example.state.resp.Rules ++ [ruleError Example.rule RuleType.ImageVerify
          "failed to update digest" (.opError "dial tcp 10.0.0.1:443: i/o timeout")] ∧
      (ruleError Example.rule RuleType.ImageVerify "failed to update digest"
        (.opError "dial tcp 10.0.0.1:443: i/o timeout")).Status = RuleStatus.Error ∧
      (ruleError Example.rule RuleType.ImageVerify "failed to update digest"
        (.opError "dial tcp 10.0.0.1:443: i/o timeout")).Patches = [] ∧
      (ruleError Example.rule RuleType.ImageVerify "failed to update digest"
        (.opError "dial tcp 10.0.0.1:443: i/o timeout")).Message =
        "failed to update digest: " ++
          (GoError.opError "dial tcp 10.0.0.1:443: i/o timeout").Error :=
  ⟨_, _, verifyImageInfo_digest_error (Example.env Example.acceptAC
        ("", some (.opError "dial tcp 10.0.0.1:443: i/o timeout")))
      Example.resource Example.resource Example.rule
      (Example.clause [AttestorSet.mk none [keyEntry "A"]] true) Example.state Example.image
      true false none none () _ _ _ _ _ _ _
      (by decide) rfl (Or.inl rfl) rfl (Or.inl rfl) rfl rfl rfl⟩

/-- The run of the witness through `verify`: one rule response, of status `Error` and
without patch, after one call to the verifier and one to the registry. -/
theorem verify_digest_error_example :
    Example.rulesOf (verify (Example.env Example.acceptAC
          ("", some (.opError "dial tcp 10.0.0.1:443: i/o timeout")))
        Example.resource Example.resource Example.rule Example.state
        (Example.clause [AttestorSet.mk none [keyEntry "A"]] true) [Example.image]) =
      [{ Name := "check-image", Type_ := RuleType.ImageVerify,
         Message := "failed to update digest: dial tcp 10.0.0.1:443: i/o timeout",
         Status := RuleStatus.Error, Patches := [] }] := by
  decide

/-! ## The options built for a static key attestor (C23) -/

theorem buildOptionsAndPath_keys_path (keys : StaticKeyAttestor)
    (certificates : Option CertificateAttestor) (keyless : Option KeylessAttestor)
    (nested : Option RawAttestor) (annotations : Option (List (String × String)))
    (repository : String) (imageVerify : ImageVerification) (image : String)
    (attestation : Attestation) :
    (buildOptionsAndPath (Attestor.mk (some keys) certificates keyless nested annotations
      repository) imageVerify image attestation).2 = ".keys" := by
  simp only [buildOptionsAndPath, Attestor.Keys]

theorem buildOptionsAndPath_keys_Key (keys : StaticKeyAttestor)
    (certificates : Option CertificateAttestor) (keyless : Option KeylessAttestor)
    (nested : Option RawAttestor) (annotations : Option (List (String × String)))
    (repository : String) (imageVerify : ImageVerification) (image : String)
    (attestation : Attestation) :
    (buildOptionsAndPath (Attestor.mk (some keys) certificates keyless nested annotations
      repository) imageVerify image attestation).1.Key = keyReference keys := by
  cases annotations <;> cases hrek : keys.Rekor <;> cases hs : keys.Secret <;>
    simp only [buildOptionsAndPath, Attestor.Keys, Attestor.Repository, Attestor.Annotations,
      keyReference, hrek, hs, apply_ite cosign.Options.Key, ite_self] <;>
    split_ifs <;> simp_all

theorem buildOptionsAndPath_keys_Repository (keys : StaticKeyAttestor)
    (certificates : Option CertificateAttestor) (keyless : Option KeylessAttestor)
    (nested : Option RawAttestor) (annotations : Option (List (String × String)))
    (repository : String) (imageVerify : ImageVerification) (image : String)
    (attestation : Attestation) :
    (buildOptionsAndPath (Attestor.mk (some keys) certificates keyless nested annotations
      repository) imageVerify image attestation).1.Repository =
      (if repository ≠ "" then repository else imageVerify.Repository) := by
  cases annotations <;> cases hrek : keys.Rekor <;> cases hs : keys.Secret <;>
    simp only [buildOptionsAndPath, Attestor.Keys, Attestor.Repository, Attestor.Annotations,
      hrek, hs, apply_ite cosign.Options.Repository, ite_self]

theorem buildOptionsAndPath_keys_Annotations (keys : StaticKeyAttestor)
    (certificates : Option CertificateAttestor) (keyless : Option KeylessAttestor)
    (nested : Option RawAttestor) (annotations : Option (List (String × String)))
    (repository : String) (imageVerify : ImageVerification) (image : String)
    (attestation : Attestation) :
    (buildOptionsAndPath (Attestor.mk (some keys) certificates keyless nested annotations
      repository) imageVerify image attestation).1.Annotations =
      (match annotations with
        | some a => some a
        | none => imageVerify.Annotations) := by
  cases annotations <;> cases hrek : keys.Rekor <;> cases hs : keys.Secret <;>
    simp only [buildOptionsAndPath, Attestor.Keys, Attestor.Repository, Attestor.Annotations,
      hrek, hs, apply_ite cosign.Options.Annotations, ite_self]

theorem buildOptionsAndPath_keys_ImageRef (keys : StaticKeyAttestor)
    (certificates : Option CertificateAttestor) (keyless : Option KeylessAttestor)
    (nested : Option RawAttestor) (annotations : Option (List (String × String)))
    (repository : String) (imageVerify : ImageVerification) (image : String)
    (attestation : Attestation) :
    (buildOptionsAndPath (Attestor.mk (some keys) certificates keyless nested annotations
      repository) imageVerify image attestation).1.ImageRef =
      image := by
  cases annotations <;> cases hrek : keys.Rekor <;> cases hs : keys.Secret <;>
    simp only [buildOptionsAndPath, Attestor.Keys, Attestor.Repository, Attestor.Annotations,
      hrek, hs, apply_ite cosign.Options.ImageRef, ite_self]

/-- C23: for every attestor with `Keys` set, `buildOptionsAndPath` returns the path
`.keys` and options whose key is the inline public keys when they are not empty,
otherwise the URL `k8s://<namespace>/<name>` of the secret when there is one, otherwise
the KMS URI; the repository of the attestor, when not empty, and its annotations, when
present, replace those of the clause, which are kept otherwise. -/
theorem buildOptionsAndPath_keys (keys : StaticKeyAttestor)
    (certificates : Option CertificateAttestor) (keyless : Option KeylessAttestor)
    (nested : Option RawAttestor) (annotations : Option (List (String × String)))
    (repository : String) (imageVerify : ImageVerification) (image : String)
    (attestation : Attestation) :
    (buildOptionsAndPath (Attestor.mk (some keys) certificates keyless nested annotations
        repository) imageVerify image attestation).2 = ".keys" ∧
      (buildOptionsAndPath (Attestor.mk (some keys) certificates keyless nested annotations
        repository) imageVerify image attestation).1.Key = keyReference keys ∧
      (buildOptionsAndPath (Attestor.mk (some keys) certificates keyless nested annotations
        repository) imageVerify image attestation).1.Repository =
        (if repository ≠ "" then repository else imageVerify.Repository) ∧
      (buildOptionsAndPath (Attestor.mk (some keys) certificates keyless nested annotations
        repository) imageVerify image attestation).1.Annotations =
        (match annotations with
          | some a => some a
          | none => imageVerify.Annotations) ∧
      (buildOptionsAndPath (Attestor.mk (some keys) certificates keyless nested annotations
        repository) imageVerify image attestation).1.ImageRef = image := by
  exact ⟨buildOptionsAndPath_keys_path keys certificates keyless nested annotations repository
      imageVerify image attestation,
    buildOptionsAndPath_keys_Key keys certificates keyless nested annotations repository
      imageVerify image attestation,
    buildOptionsAndPath_keys_Repository keys certificates keyless nested annotations repository
      imageVerify image attestation,
    buildOptionsAndPath_keys_Annotations keys certificates keyless nested annotations repository
      imageVerify image attestation,
    buildOptionsAndPath_keys_ImageRef keys certificates keyless nested annotations repository
      imageVerify image attestation⟩

/-- The three sources of a key, evaluated: an inline key wins over a secret and a KMS
URI, a secret wins over a KMS URI, and the repository and the annotations of the
attestor replace those of the clause. -/
theorem buildOptionsAndPath_keys_examples :
    (buildOptionsAndPath
        (Attestor.mk (some ⟨"inline", "", "awskms:///alias/k", some ⟨"cosign-key", "kyverno"⟩, none⟩)
          none none none none "")
        (Example.clause [] false) "gcr.io/foo/bar:v1" ⟨"", [], []⟩).1.Key = "inline" ∧
      (buildOptionsAndPath
        (Attestor.mk (some ⟨"", "", "awskms:///alias/k", some ⟨"cosign-key", "kyverno"⟩, none⟩)
          none none none none "")
        (Example.clause [] false) "gcr.io/foo/bar:v1" ⟨"", [], []⟩).1.Key =
        "k8s://kyverno/cosign-key" ∧
      (buildOptionsAndPath
        (Attestor.mk (some ⟨"", "", "awskms:///alias/k", none, none⟩) none none none
          (some [("env", "prod")]) "registry.example.com/signatures")
        (Example.clause [] false) "gcr.io/foo/bar:v1" ⟨"", [], []⟩) =
        ({ ImageRef := "gcr.io/foo/bar:v1", Repository := "registry.example.com/signatures",
           Annotations := some [("env", "prod")], Roots := "", PredicateType := "",
           FetchAttestations := false, Key := "awskms:///alias/k", RekorURL := "",
           SignatureAlgorithm := "", Cert := "", CertChain := "", Issuer := "", Subject := "",
           AdditionalExtensions := none }, ".keys") := by
  refine ⟨by rfl, by rfl, by rfl⟩

/-! ## The early return of `verifyAttestations` (C24) -/

/-- When the statements fetched for the first entry of the first attestor set of the
first attestation clause pass and the required count of that set is at most `1`,
`verifyAttestations` returns the status `Pass` after this one call, whatever the other
entries, the other attestor sets and the other attestation clauses are. -/
theorem verifyAttestations_first_entry {σ : Type} (env : Env σ) (rule : Rule) (ctx ctx2 : σ)
    (imageVerify : ImageVerification) (imageInfo : ImageInfo)
    (attestation : Attestation) (postA : List Attestation)
    (s : AttestorSet) (postS : List AttestorSet) (a : Attestor) (postE : List Attestor)
    (resp : cosign.Response)
    (hA : imageVerify.Attestations = attestation :: postA)
    (hS : attestorsOf attestation = s :: postS)
    (hE : entriesOf s = a :: postE)
    (hfetch : env.FetchAttestations
      (buildOptionsAndPath a imageVerify imageInfo.String attestation).1 = ⟨some resp, none⟩)
    (hcheck : verifyAttestation env ctx resp.Statements attestation imageInfo =
      (ctx2, .done none))
    (hcount : getRequiredCount s ≤ 1) :
    verifyAttestations env rule ctx imageVerify imageInfo =
      (ctx2,
        [Call.FetchAttestations (buildOptionsAndPath a imageVerify imageInfo.String attestation).1],
        .done (ruleResponse rule RuleType.ImageVerify
          ("image attestations verification succeeded, verifiedCount: " ++ toString (0 + 1 : Int) ++
            ", requiredCount: " ++ toString (getRequiredCount s)) RuleStatus.Pass, "")) := by
  have hentries : attestationEntriesLoop env rule imageVerify imageInfo 0 attestation
      (".attestations[" ++ toString 0 ++ "]" ++ ".attestors[" ++ toString 0 ++ "]")
      (getRequiredCount s) (a :: postE) 0 ctx =
      (ctx2,
        [Call.FetchAttestations (buildOptionsAndPath a imageVerify imageInfo.String attestation).1],
        .done (some (ruleResponse rule RuleType.ImageVerify
          ("image attestations verification succeeded, verifiedCount: " ++ toString (0 + 1 : Int) ++
            ", requiredCount: " ++ toString (getRequiredCount s)) RuleStatus.Pass, ""))) := by
    have hge : (0 : Int) + 1 ≥ getRequiredCount s := by omega
    simp only [attestationEntriesLoop, hfetch, hcheck, hge, if_true]
  simp only [attestorsOf] at hS
  simp only [entriesOf] at hE
  simp only [verifyAttestations, hA, attestationsLoop, hS, attestationAttestorsLoop, hE,
    hentries]

/-- C24 fails on the code: the first attestation clause is satisfied by the statements
of the key `A`, the second one (or the second attestor set of the only clause) would
fail for the key `B`; `verifyAttestations` returns the status `Pass` after the one
fetch for `A`, without a fetch for the second clause (or the second attestor set),
although the second clause alone yields the status `Fail`. -/
theorem verifyAttestations_passes_after_first_entry :
    verifyAttestations Example.envFetch Example.rule ()
        (Example.attestationsClause [Example.provenance [AttestorSet.mk none [keyEntry "A"]],
          Example.provenance [AttestorSet.mk none [keyEntry "B"]]]) Example.image =
      ((), [Call.FetchAttestations (buildOptionsAndPath (keyEntry "A")
          (Example.attestationsClause [Example.provenance [AttestorSet.mk none [keyEntry "A"]],
            Example.provenance [AttestorSet.mk none [keyEntry "B"]]])
          Example.image.String (Example.provenance [AttestorSet.mk none [keyEntry "A"]])).1],
        .done (ruleResponse Example.rule RuleType.ImageVerify
          "image attestations verification succeeded, verifiedCount: 1, requiredCount: 1"
          RuleStatus.Pass, "")) ∧
      verifyAttestations Example.envFetch Example.rule ()
        (Example.attestationsClause [Example.provenance
          [AttestorSet.mk none [keyEntry "A"], AttestorSet.mk none [keyEntry "B"]]])
        Example.image =
      ((), [Call.FetchAttestations (buildOptionsAndPath (keyEntry "A")
          (Example.attestationsClause [Example.provenance
            [AttestorSet.mk none [keyEntry "A"], AttestorSet.mk none [keyEntry "B"]]])
          Example.image.String (Example.provenance
            [AttestorSet.mk none [keyEntry "A"], AttestorSet.mk none [keyEntry "B"]])).1],
        .done (ruleResponse Example.rule RuleType.ImageVerify
          "image attestations verification succeeded, verifiedCount: 1, requiredCount: 1"
          RuleStatus.Pass, "")) ∧
      Example.responseOf (verifyAttestations Example.envFetch Example.rule ()
        (Example.attestationsClause [Example.provenance [AttestorSet.mk none [keyEntry "B"]]])
        Example.image) =
      some { Name := "check-image", Type_ := RuleType.ImageVerify,
             Message := ".attestations[0].attestors[0].entries[0].keys: " ++
               "predicate type https://slsa.dev/provenance/v0.2 not found",
             Status := RuleStatus.Fail, Patches := [] } := by
  refine ⟨by rfl, by rfl, by decide⟩

/-! ## Images verified against the clauses of a rule (C25) -/

/-- C25 fails on the code: the rule has a clause for `gcr.io/foo/*` with the key `B`
and a clause for `docker.io/*` with the key `A`; the image `docker.io/library/nginx`
matches the patterns of the second clause only, and the verifier accepts the key `A`
for it.  `VerifyAndPatchImages` nevertheless verifies the image against the first
clause as well: it calls the verifier with the key `B` and appends a response of
status `Fail` before the response of status `Pass` of the second clause. -/
theorem VerifyAndPatchImages_verifies_unmatched_clause :
    imageMatches Example.wildcard Example.nginx.String ["gcr.io/foo/*"] = false ∧
      imageMatches Example.wildcard Example.nginx.String ["docker.io/*"] = true ∧
      (VerifyAndPatchImages
        (Example.driver (Example.env Example.acceptAC ("", none))
          [("containers", [("nginx", Example.nginx)])])
        (Example.policyOf ApplyRulesType.ApplyAll
          [Example.ruleOf [Example.clauseFor ["gcr.io/foo/*"] [AttestorSet.mk none [keyEntry "B"]],
            Example.clauseFor ["docker.io/*"] [AttestorSet.mk none [keyEntry "A"]]]])
        Example.resource Example.resource ()).1 =
        [Call.VerifySignature (buildOptionsAndPath (keyEntry "B")
            (Example.clauseFor ["gcr.io/foo/*"] [AttestorSet.mk none [keyEntry "B"]])
            "docker.io/library/nginx:latest" ⟨"", [], []⟩).1,
          Call.VerifySignature (buildOptionsAndPath (keyEntry "A")
            (Example.clauseFor ["docker.io/*"] [AttestorSet.mk none [keyEntry "A"]])
            "docker.io/library/nginx:latest" ⟨"", [], []⟩).1] ∧
      (Example.responsesOf (VerifyAndPatchImages
        (Example.driver (Example.env Example.acceptAC ("", none))
          [("containers", [("nginx", Example.nginx)])])
        (Example.policyOf ApplyRulesType.ApplyAll
          [Example.ruleOf [Example.clauseFor ["gcr.io/foo/*"] [AttestorSet.mk none [keyEntry "B"]],
            Example.clauseFor ["docker.io/*"] [AttestorSet.mk none [keyEntry "A"]]]])
        Example.resource Example.resource ())).map (fun rr => (rr.Status, rr.Message)) =
        [(RuleStatus.Fail, "failed to verify image docker.io/library/nginx:latest: " ++
            ".attestors[0].entries[0].keys: no matching signatures"),
          (RuleStatus.Pass, "verified image attestations for docker.io/library/nginx:latest")] := by
  refine ⟨by decide, by decide, by rfl, by decide⟩

/-! ## The nil error after the entry loop (C26) -/

/-- C26 fails on the code: whenever the entries of an attestor set all return without
an error and their number stays below the required count, the list of errors is empty
at the end of the entry loop, `multierr.Combine` returns nil and `verifyAttestorSet`
panics in `err.Error()` after the calls for all the entries. -/
theorem verifyAttestorSet_panics_on_nil_error {σ : Type} (env : Env σ)
    (attestorSet : AttestorSet) (imageVerify : ImageVerification) (imageInfo : ImageInfo)
    (path predicateType : String)
    (hreturn : entriesReturn env imageVerify imageInfo path predicateType
      (expandStaticKeys attestorSet).Entries 0 = true)
    (hcount : (countVerified env imageVerify imageInfo path predicateType
        (expandStaticKeys attestorSet).Entries 0 : Int) <
      getRequiredCount (expandStaticKeys attestorSet))
    (hnone : entriesErrors env imageVerify imageInfo path predicateType
      (expandStaticKeys attestorSet).Entries 0 = []) :
    multierr.Combine (entriesErrors env imageVerify imageInfo path predicateType
        (expandStaticKeys attestorSet).Entries 0) = none ∧
      verifyAttestorSet env attestorSet imageVerify imageInfo path predicateType =
        (entriesCalls env imageVerify imageInfo path predicateType
          (expandStaticKeys attestorSet).Entries 0, .panicked) := by
  have hnil : multierr.Combine (entriesErrors env imageVerify imageInfo path predicateType
      (expandStaticKeys attestorSet).Entries 0) = none := by
    rw [hnone]; rfl
  refine ⟨hnil, ?_⟩
  rw [verifyAttestorSet_exhausted env attestorSet imageVerify imageInfo path predicateType
    hreturn hcount, hnil]

/-- Witness of `verifyAttestorSet_panics_on_nil_error`: the set requires three
signatures and has the two entries `A` and `C`, which both verify. -/
theorem verifyAttestorSet_panics_on_nil_error_witness :
    multierr.Combine (entriesErrors (Example.env Example.acceptAC ("", none))
        (Example.clause [] false) Example.image ".attestors[0]" ""
        (expandStaticKeys (AttestorSet.mk (some 3) [keyEntry "A", keyEntry "C"])).Entries 0) =
        none ∧
      verifyAttestorSet (Example.env Example.acceptAC ("", none))
        (AttestorSet.mk (some 3) [keyEntry "A", keyEntry "C"]) (Example.clause [] false)
        Example.image ".attestors[0]" "" =
        (entriesCalls (Example.env Example.acceptAC ("", none)) (Example.clause [] false)
          Example.image ".attestors[0]" ""
          (expandStaticKeys (AttestorSet.mk (some 3) [keyEntry "A", keyEntry "C"])).Entries 0,
          .panicked) :=
  verifyAttestorSet_panics_on_nil_error (Example.env Example.acceptAC ("", none))
    (AttestorSet.mk (some 3) [keyEntry "A", keyEntry "C"]) (Example.clause [] false)
    Example.image ".attestors[0]" "" (by rfl) (by decide) (by rfl)

/-- The run of the witness, and the same set with the required count `2`: the set that
asks for three signatures makes `verifyAttestorSet` panic after the two calls, the set
that asks for two returns the response of `C`. -/
theorem verifyAttestorSet_three_of_two :
    verifyAttestorSet (Example.env Example.acceptAC ("", none))
        (AttestorSet.mk (some 3) [keyEntry "A", keyEntry "C"]) (Example.clause [] false)
        Example.image ".attestors[0]" "" =
      ([Call.VerifySignature (buildOptionsAndPath (keyEntry "A") (Example.clause [] false)
          Example.image.String ⟨"", [], []⟩).1,
        Call.VerifySignature (buildOptionsAndPath (keyEntry "C") (Example.clause [] false)
          Example.image.String ⟨"", [], []⟩).1], .panicked) ∧
      (verifyAttestorSet (Example.env Example.acceptAC ("", none))
        (AttestorSet.mk (some 2) [keyEntry "A", keyEntry "C"]) (Example.clause [] false)
        Example.image ".attestors[0]" "").2 = .done ⟨some ⟨"sha256:aaaa", []⟩, none⟩ := by
  refine ⟨by rfl, by rfl⟩
